import Mathlib

/-!
Record framing of `data_reader.h`.

A shallow embedding of the byte-stream reader of
`monolith/native_training/data/training_instance/cc/data_reader.h`:
the in-memory `StringStreamReader` and the framing functions
`ReadBinarySize`, `ReadDataHeader` and `ReadPBBytes` of
`BaseStreamReaderTmpl`, followed by theorems about them.

Conventions of the embedding.

* A byte is a `Fin 256`; a `tstring` / `string_view` is a `List Byte`.
* `size_t`, `uint64` and `int64` values are natural numbers; sums that the
  code computes in 64-bit unsigned arithmetic are reduced `% 2 ^ 64`
  explicitly.  `cur_` is an `int64` in the source; the embedding stores its
  64-bit pattern, which is what `GetOffset` returns.
* Out-parameters (`T *result`, `size_t *size`, `uint8_t *pb_type`, ...) are
  passed in with the value the caller's variable holds and handed back in the
  outcome, so a path that does not assign one returns it as it came in.
* `TF_RETURN_IF_ERROR(e)` returns the status of `e` when it is not OK.
-/

namespace monolith_tf

/-- One byte of a `tstring`. -/
abbrev Byte := Fin 256

/-- Contents of a `tstring` / `absl::string_view`. -/
abbrev Bytes := List Byte

/-- The `error::Code` values that the embedded code produces. -/
inductive Code
  | OK
  | INVALID_ARGUMENT
  | OUT_OF_RANGE
  | FAILED_PRECONDITION
  | UNIMPLEMENTED
  | INTERNAL
  deriving DecidableEq, Repr

/-- A `tensorflow::Status`: an error code and a message. -/
structure Status where
  code : Code
  message : String
  deriving DecidableEq, Repr

/-- The value `Status::OK()`. -/
def Status.OK : Status := ⟨Code.OK, ""⟩

/-- The test `Status::ok()`. -/
def Status.ok (s : Status) : Bool := s.code == Code.OK

namespace errors

/-- The status `errors::InvalidArgument(msg)`. -/
def InvalidArgument (msg : String) : Status := ⟨Code.INVALID_ARGUMENT, msg⟩

/-- The status `errors::OutOfRange(msg)`. -/
def OutOfRange (msg : String) : Status := ⟨Code.OUT_OF_RANGE, msg⟩

/-- The status `errors::FailedPrecondition(msg)`. -/
def FailedPrecondition (msg : String) : Status := ⟨Code.FAILED_PRECONDITION, msg⟩

end errors

/-- The four framing flags of `DataFormatOptions` that `ReadDataHeader` tests. -/
structure DataFormatOptions where
  lagrangex_header : Bool
  ( kafka_dump_prefix : Bool)
  has_sort_id : Bool
  kafka_dump : Bool
  deriving DecidableEq, Repr

/-- State of a `StringStreamReader<T>`: `content_` and the cursor `cur_`. -/
structure StringStreamReader where
  content_ : Bytes
  cur_ : Nat
  deriving DecidableEq, Repr

/-- Result of a call on a reader: the returned `Status`, the out-parameters
and the reader afterwards; `undefined` when the call reads `content_` outside
its bounds, for which the language defines no behaviour. -/
inductive Outcome (α : Type)
  | done (status : Status) (out : α) (reader : StringStreamReader)
  | undefined
  deriving DecidableEq, Repr

/-- Constructor `StringStreamReader(options, content)`: `cur_(0)`. -/
def StringStreamReader.mk0 (content : Bytes) : StringStreamReader := ⟨content, 0⟩

/-- Method `StringStreamReader::GetOffset`: returns `cur_`. -/
def StringStreamReader.GetOffset (self : StringStreamReader) : Nat := self.cur_

/-- Method `StringStreamReader::SetOffset`: `cur_ = *offset`. -/
def StringStreamReader.SetOffset (self : StringStreamReader) (offset : Nat) :
    StringStreamReader :=
  { self with cur_ := offset }

/-- Method `StringStreamReader::ReadNBytes(n, result)`.

`cur_ + n` is computed in 64-bit unsigned arithmetic.  The copy
`T(content_.data() + cur_, n)` is inside `content_` when `cur_` is
non-negative as an `int64` and `cur_ + n` does not exceed the length;
otherwise the outcome is `undefined`. -/
def StringStreamReader.ReadNBytes (self : StringStreamReader) (n : Nat) (result : Bytes) :
    Outcome Bytes :=
  if (self.cur_ + n) % 2 ^ 64 > self.content_.length then
    .done (errors.FailedPrecondition "request n error") result self
  else if n > 0 ∧ self.cur_ = self.content_.length then
    .done (errors.OutOfRange "Size exceeds he content size.") result self
  else if self.cur_ < 2 ^ 63 ∧ self.cur_ + n ≤ self.content_.length then
    .done Status.OK ((self.content_.drop self.cur_).take n)
      { self with cur_ := (self.cur_ + n) % 2 ^ 64 }
  else
    .undefined

/-- Modelled from the spec: `core::DecodeFixed64` of TensorFlow, which is not
part of the repository; "every length field is a fixed 8-byte little-endian
unsigned integer".  Reads the first 8 bytes at the pointer. -/
def DecodeFixed64 (p : Bytes) : Nat :=
  (p.take 8).foldr (fun b acc => b.val + 256 * acc) 0

/-- Method `BaseStreamReaderTmpl::ReadBinarySize(size)`, with `sizeof(size_t) = 8`. -/
def ReadBinarySize (self : StringStreamReader) (size : Nat) : Outcome Nat :=
  match self.ReadNBytes 8 [] with
  | .undefined => .undefined
  | .done st result r =>
    if st.ok then .done Status.OK (DecodeFixed64 result) r
    else .done st size r

/-- The out-parameters of `ReadDataHeader`. -/
structure HeaderOut where
  pb_type : Nat
  data_source_key : Nat
  deriving DecidableEq, Repr

/-- Method `BaseStreamReaderTmpl::ReadDataHeader(pb_type, data_source_key)`.

The local `size` starts at 0 and `aggregate_page_sortid_size` at 0.  The
casts `static_cast<uint8_t>(..)` and `static_cast<uint32_t>(..)` are
`% 2 ^ 8` and `% 2 ^ 32`; `(source >> 8) << 8` is computed on a `uint32_t`,
so its result is reduced `% 2 ^ 32`. -/
def ReadDataHeader (options_ : DataFormatOptions) (self : StringStreamReader)
    (out : HeaderOut) : Outcome HeaderOut :=
  if options_.lagrangex_header then
    match ReadBinarySize self 0 with
    | .undefined => .undefined
    | .done st size r =>
      if !st.ok then .done st out r
      else
        let lgx_header := size
        let source := lgx_header % 2 ^ 32
        .done Status.OK ⟨(lgx_header &&& 0xff) % 2 ^ 8, ((source >>> 8) <<< 8) % 2 ^ 32⟩ r
  else
    let out1 : HeaderOut := { out with pb_type := 0 }
    -- `if (options_.kafka_dump_prefix)`: yields `size`, `aggregate_page_sortid_size`
    let step1 : Outcome (Nat × Nat) :=
      if DataFormatOptions.kafka_dump_prefix options_ then
        match ReadBinarySize self 0 with
        | .undefined => .undefined
        | .done st size r =>
          if !st.ok then .done st (size, 0) r
          else if size = 0 then
            match ReadBinarySize r size with
            | .undefined => .undefined
            | .done st2 size2 r2 =>
              if !st2.ok then .done st2 (size2, 0) r2
              else .done Status.OK (size2, 0) r2
          else .done Status.OK (size, size) r
      else .done Status.OK (0, 0) self
    match step1 with
    | .undefined => .undefined
    | .done st1 (size, aggregate_page_sortid_size) r1 =>
      if !st1.ok then .done st1 out1 r1
      else
        -- `if (options_.has_sort_id)`
        let step2 : Outcome Nat :=
          if options_.has_sort_id then
            let step2a : Outcome Nat :=
              if aggregate_page_sortid_size = 0 then ReadBinarySize r1 size
              else .done Status.OK aggregate_page_sortid_size r1
            match step2a with
            | .undefined => .undefined
            | .done st2 size2 r2 =>
              if !st2.ok then .done st2 size2 r2
              else
                match r2.ReadNBytes size2 [] with
                | .undefined => .undefined
                | .done st3 _ r3 => .done st3 size2 r3
          else .done Status.OK size r1
        match step2 with
        | .undefined => .undefined
        | .done st2 size2 r2 =>
          if !st2.ok then .done st2 out1 r2
          else if options_.kafka_dump then
            match ReadBinarySize r2 size2 with
            | .undefined => .undefined
            | .done st3 _ r3 => .done st3 out1 r3
          else .done Status.OK out1 r2

/-- The out-parameters of `ReadPBBytes`. -/
structure PBOut where
  pb_type : Nat
  data_source_key : Nat
  record : Bytes
  deriving DecidableEq, Repr

/-- Method `BaseStreamReaderTmpl::ReadPBBytes(pb_type, data_source_key, record)`. -/
def ReadPBBytes (options_ : DataFormatOptions) (self : StringStreamReader)
    (out : PBOut) : Outcome PBOut :=
  match ReadDataHeader options_ self ⟨out.pb_type, out.data_source_key⟩ with
  | .undefined => .undefined
  | .done st h r =>
    let out1 : PBOut := ⟨h.pb_type, h.data_source_key, out.record⟩
    if !st.ok then .done st out1 r
    else
      match ReadBinarySize r 0 with
      | .undefined => .undefined
      | .done st2 size r2 =>
        if !st2.ok then .done st2 out1 r2
        else if size = 0xfefefefe then
          .done (errors.InvalidArgument "DEADBEEF value found") out1 r2
        else
          match r2.ReadNBytes size out1.record with
          | .undefined => .undefined
          | .done st3 record r3 => .done st3 { out1 with record := record } r3

/-- Writer of one length field, in the spec's words "a fixed 8-byte
little-endian unsigned integer".  The repository has the reader only; this is
the encoding against which the reader is checked. -/
def EncodeFixed64 (v : Nat) : Bytes :=
  [Fin.ofNat (v % 256), Fin.ofNat (v / 2 ^ 8 % 256), Fin.ofNat (v / 2 ^ 16 % 256),
   Fin.ofNat (v / 2 ^ 24 % 256), Fin.ofNat (v / 2 ^ 32 % 256), Fin.ofNat (v / 2 ^ 40 % 256),
   Fin.ofNat (v / 2 ^ 48 % 256), Fin.ofNat (v / 2 ^ 56 % 256)]

/-- The fields a writer puts into one frame: the legacy header value, the
kafka-dump prefix length, the fresh length that follows a zero prefix, the
sort-id block, the trailing kafka-dump length and the payload. -/
structure FrameFields where
  header : Nat
  prefixLen : Nat
  freshLen : Nat
  sortId : Bytes
  trailingLen : Nat
  payload : Bytes
  deriving DecidableEq, Repr

/-- Frame writer in the spec's words (the repository has the reader only),
following the wire layout of section 6:
`[prefixLen(8) | if prefixLen==0: freshLen(8)] [if hasSortId: sortId]
[if kafkaDump: trailingLen(8)] [payloadLen(8)] [payload]`, and in legacy-header
mode `[header(8)] [payloadLen(8)] [payload]`.  The sort-id length is "the
prefix size if it was non-zero, else a fresh size" (section 3): the fresh
length after a zero prefix, or a length field of its own when there is no
prefix field. -/
def specFrame (o : DataFormatOptions) (f : FrameFields) : Bytes :=
  if o.lagrangex_header then
    EncodeFixed64 f.header ++ (EncodeFixed64 f.payload.length ++ f.payload)
  else
    (if DataFormatOptions.kafka_dump_prefix o then
        EncodeFixed64 f.prefixLen ++ (if f.prefixLen = 0 then EncodeFixed64 f.freshLen else [])
      else [])
    ++ ((if o.has_sort_id then
          (if DataFormatOptions.kafka_dump_prefix o then [] else EncodeFixed64 f.sortId.length)
            ++ f.sortId
        else [])
    ++ ((if o.kafka_dump then EncodeFixed64 f.trailingLen else [])
    ++ (EncodeFixed64 f.payload.length ++ f.payload)))

/-- The fields of a frame fit the layout of `specFrame`: every length field
is a 64-bit value, and the length that announces the sort-id block (the
non-zero prefix, else the fresh length after a zero prefix) is the length of
that block. -/
def specValid (o : DataFormatOptions) (f : FrameFields) : Prop :=
  f.header < 2 ^ 64 ∧ f.prefixLen < 2 ^ 64 ∧ f.freshLen < 2 ^ 64 ∧ f.trailingLen < 2 ^ 64 ∧
  (DataFormatOptions.kafka_dump_prefix o = true → o.has_sort_id = true →
    (if f.prefixLen = 0 then f.freshLen else f.prefixLen) = f.sortId.length)

instance (o : DataFormatOptions) (f : FrameFields) : Decidable (specValid o f) := by
  unfold specValid
  infer_instance

/-- The header bytes in the order in which `ReadDataHeader` consumes them:
as in `specFrame`, except that the sort-id block carries a length field of
its own whenever no non-zero prefix announces it, also after the fresh length
that follows a zero prefix. -/
def wireHeader (o : DataFormatOptions) (f : FrameFields) : Bytes :=
  if o.lagrangex_header then
    EncodeFixed64 f.header
  else
    (if DataFormatOptions.kafka_dump_prefix o then
        EncodeFixed64 f.prefixLen ++ (if f.prefixLen = 0 then EncodeFixed64 f.freshLen else [])
      else [])
    ++ ((if o.has_sort_id then
          (if DataFormatOptions.kafka_dump_prefix o = true ∧ f.prefixLen ≠ 0 then []
            else EncodeFixed64 f.sortId.length) ++ f.sortId
        else [])
    ++ (if o.kafka_dump then EncodeFixed64 f.trailingLen else []))

/-- A whole frame as `ReadPBBytes` consumes it: `wireHeader`, the payload
length and the payload. -/
def wireFrame (o : DataFormatOptions) (f : FrameFields) : Bytes :=
  wireHeader o f ++ (EncodeFixed64 f.payload.length ++ f.payload)

/-- The fields of a frame fit the layout of `wireFrame`: every length field
is a 64-bit value and a non-zero prefix is the length of the sort-id block. -/
def wireValid (o : DataFormatOptions) (f : FrameFields) : Prop :=
  f.header < 2 ^ 64 ∧ f.prefixLen < 2 ^ 64 ∧ f.freshLen < 2 ^ 64 ∧ f.trailingLen < 2 ^ 64 ∧
  (DataFormatOptions.kafka_dump_prefix o = true → o.has_sort_id = true → f.prefixLen ≠ 0 →
    f.prefixLen = f.sortId.length)

instance (o : DataFormatOptions) (f : FrameFields) : Decidable (wireValid o f) := by
  unfold wireValid
  infer_instance

/-- The `pb_type` and `data_source_key` that `ReadDataHeader` hands back for a
header value: decoded from it in legacy-header mode, else `pb_type = 0` and
`data_source_key` as the caller passed it. -/
def headerOut (o : DataFormatOptions) (header : Nat) (out : HeaderOut) : HeaderOut :=
  if o.lagrangex_header then ⟨header % 256, header % 2 ^ 32 / 256 * 256⟩
  else ⟨0, out.data_source_key⟩

/-- A reader over `consumed ++ remaining` whose cursor stands after `consumed`. -/
def readerAt (consumed remaining : Bytes) : StringStreamReader :=
  ⟨consumed ++ remaining, consumed.length⟩

/-! ## The framing functions over an arbitrary source -/

/-- Result of a call on an object whose state has type `σ`: the returned
`Status`, the out-parameters and the state afterwards; `undefined` when the
call has no defined behaviour (an access outside an array or through a null
pointer); `fatal` when `LOG(FATAL)` or a failed `CHECK` ends the process. -/
inductive OutcomeOn (σ α : Type)
  | done (status : Status) (out : α) (state : σ)
  | undefined
  | fatal (msg : String)
  deriving DecidableEq, Repr

/-- The macro `TF_RETURN_IF_ERROR(x);` followed by `rest`: when the status of
`x` is not OK it is returned as it is, with the out-parameters `errOut` as they
stand at that point; otherwise `rest` runs. -/
def OutcomeOn.andThen {σ α β : Type} (x : OutcomeOn σ α) (errOut : α → β)
    (rest : α → σ → OutcomeOn σ β) : OutcomeOn σ β :=
  match x with
  | .undefined => .undefined
  | .fatal msg => .fatal msg
  | .done st a s => if st.ok then rest a s else .done st (errOut a) s

/-- The class template `BaseStreamReaderTmpl<T>` seen from its framing
functions: a source with state `σ` and the pure virtual `ReadNBytes(n, result)`. -/
structure BaseStreamReaderTmpl (σ : Type) where
  ReadNBytes : σ → Nat → Bytes → OutcomeOn σ Bytes

/-- Method `BaseStreamReaderTmpl::ReadBinarySize(size)` over any source. -/
def BaseStreamReaderTmpl.ReadBinarySize {σ : Type} (self : BaseStreamReaderTmpl σ) (s : σ)
    (size : Nat) : OutcomeOn σ Nat :=
  (self.ReadNBytes s 8 []).andThen (fun _ => size) fun result s1 =>
    .done Status.OK (DecodeFixed64 result) s1

/-- Method `BaseStreamReaderTmpl::ReadDataHeader(pb_type, data_source_key)` over
any source.  The two `andThen` blocks in the middle hand on the locals `size`
and `aggregate_page_sortid_size`. -/
def BaseStreamReaderTmpl.ReadDataHeader {σ : Type} (self : BaseStreamReaderTmpl σ)
    (options_ : DataFormatOptions) (s : σ) (out : HeaderOut) : OutcomeOn σ HeaderOut :=
  if options_.lagrangex_header then
    (self.ReadBinarySize s 0).andThen (fun _ => out) fun size s1 =>
      let lgx_header := size
      let source := lgx_header % 2 ^ 32
      .done Status.OK ⟨(lgx_header &&& 0xff) % 2 ^ 8, ((source >>> 8) <<< 8) % 2 ^ 32⟩ s1
  else
    let out1 : HeaderOut := { out with pb_type := 0 }
    -- `if (options_.kafka_dump_prefix)`
    (if DataFormatOptions.kafka_dump_prefix options_ then
        (self.ReadBinarySize s 0).andThen (fun size => (size, 0)) fun size s1 =>
          if size = 0 then
            (self.ReadBinarySize s1 size).andThen (fun size2 => (size2, 0)) fun size2 s2 =>
              .done Status.OK (size2, 0) s2
          else .done Status.OK (size, size) s1
      else .done Status.OK (0, 0) s).andThen (fun _ => out1)
    fun (size, aggregate_page_sortid_size) s1 =>
    -- `if (options_.has_sort_id)`
    (if options_.has_sort_id then
        (if aggregate_page_sortid_size = 0 then self.ReadBinarySize s1 size
          else .done Status.OK aggregate_page_sortid_size s1).andThen (fun size2 => size2)
        fun size2 s2 =>
          (self.ReadNBytes s2 size2 []).andThen (fun _ => size2) fun _ s3 =>
            .done Status.OK size2 s3
      else .done Status.OK size s1).andThen (fun _ => out1)
    fun size2 s2 =>
    -- `if (options_.kafka_dump)`
    if options_.kafka_dump then
      (self.ReadBinarySize s2 size2).andThen (fun _ => out1) fun _ s3 =>
        .done Status.OK out1 s3
    else .done Status.OK out1 s2

/-- Method `BaseStreamReaderTmpl::ReadPBBytes(pb_type, data_source_key, record)`
over any source. -/
def BaseStreamReaderTmpl.ReadPBBytes {σ : Type} (self : BaseStreamReaderTmpl σ)
    (options_ : DataFormatOptions) (s : σ) (out : PBOut) : OutcomeOn σ PBOut :=
  (self.ReadDataHeader options_ s ⟨out.pb_type, out.data_source_key⟩).andThen
    (fun h => ⟨h.pb_type, h.data_source_key, out.record⟩) fun h s1 =>
  let out1 : PBOut := ⟨h.pb_type, h.data_source_key, out.record⟩
  (self.ReadBinarySize s1 0).andThen (fun _ => out1) fun size s2 =>
  if size = 0xfefefefe then
    .done (errors.InvalidArgument "DEADBEEF value found") out1 s2
  else
    (self.ReadNBytes s2 size out1.record).andThen (fun record => { out1 with record := record })
      fun record s3 => .done Status.OK { out1 with record := record } s3

/-- An `Outcome` of the in-memory reader as an `OutcomeOn`. -/
def Outcome.toOn {α : Type} : Outcome α → OutcomeOn StringStreamReader α
  | .done st out r => .done st out r
  | .undefined => .undefined

/-- The in-memory `StringStreamReader` as a source of `BaseStreamReaderTmpl`. -/
def StringStreamReader.asBase : BaseStreamReaderTmpl StringStreamReader :=
  ⟨fun r n result => (r.ReadNBytes n result).toOn⟩

/-- A source that, besides reading like `self`, keeps the list of the
`ReadNBytes` calls made so far: the requested `n` and the status returned. -/
def BaseStreamReaderTmpl.logged {σ : Type} (self : BaseStreamReaderTmpl σ) :
    BaseStreamReaderTmpl (σ × List (Nat × Status)) :=
  ⟨fun s n result =>
    match self.ReadNBytes s.1 n result with
    | .done st out s1 => .done st out (s1, s.2 ++ [(n, st)])
    | .undefined => .undefined
    | .fatal msg => .fatal msg⟩

/-- The outcome with the state replaced by its image under `f`. -/
def OutcomeOn.mapState {σ τ α : Type} (f : σ → τ) : OutcomeOn σ α → OutcomeOn τ α
  | .done st out s => .done st out (f s)
  | .undefined => .undefined
  | .fatal msg => .fatal msg

/-! ## `PBIteratorWithDataFormatTrans::GetNext` and the Kafka handler -/

/-- The enumeration `data_format::DataFormat`. -/
inductive DataFormat
  | UNKNOW
  | PLAINTEXT
  | INSTANCE
  | EXAMPLE
  | EXAMPLEBATCH
  deriving DecidableEq, Repr

/-- What one `PBIterator::next` overload hands back: the status, the iterator
afterwards, `*offset` and the value written through the last pointer. -/
structure NextResult (ρ α : Type) where
  status : Status
  reader : ρ
  offset : Nat
  value : α

/-- The class `PBIterator` seen from `GetNext`: an iterator with state `ρ` and
its four virtual `next` overloads, whose bodies are not in the sources.  Each
takes `*offset` and the message variable as the caller holds them.  The
`data_source_key` that the first overload also writes is never read by
`GetNext` and is left out. -/
structure PBIterator (ρ I E B : Type) where
  next_tstring : ρ → Nat → Bytes → NextResult ρ Bytes
  next_Instance : ρ → Nat → I → NextResult ρ I
  next_Example : ρ → Nat → E → NextResult ρ E
  next_ExampleBatch : ρ → Nat → B → NextResult ρ B

/-- The message types as `GetNext` uses them: the default-constructed
`Instance`, `Example` and `ExampleBatch`, and the two conversion functions
declared in `data_reader.h`, which take both messages by pointer and return a
status. -/
structure Messages (I E B : Type) where
  Instance_new : I
  Example_new : E
  ExampleBatch_new : B
  ExampleToInstance : E → I → Status × E × I
  InstanceToExample : I → E → Status × I × E

/-- The template parameter `THanler` of `PBIteratorWithDataFormatTrans`: its
output type `CurOutput` (here `Out`, with the `reader_status` field of the base
struct), `HandleReaderNextStauts` and `HandleResult` for each result type. -/
structure THanler (Out I E B : Type) where
  set_reader_status : Out → Status → Out
  HandleReaderNextStauts_tstring : Status → Bytes → Status
  HandleReaderNextStauts_Instance : Status → I → Status
  HandleReaderNextStauts_Example : Status → E → Status
  HandleReaderNextStauts_ExampleBatch : Status → B → Status
  HandleResult_tstring : Bytes → Out → Status × Out
  HandleResult_Instance : I → Out → Status × Out
  HandleResult_Example : E → Out → Status × Out
  HandleResult_ExampleBatch : B → Out → Status × Out

/-- What `GetNext` leaves behind: the returned status, the iterator, `*output`
and `*offset`. -/
structure GetNextResult (ρ Out : Type) where
  status : Status
  reader : ρ
  output : Out
  offset : Nat

/-- The tail common to all branches of `GetNext`:
`s = HandleReaderNextStauts(output->reader_status, result); if (!s.ok()) return s;`
then `s = HandleResult(std::move(handed), output)`. -/
def GetNext.finish {ρ Out α : Type} (reader : ρ) (output1 : Out) (offset : Nat)
    (s : Status) (handed : α) (HandleResult : α → Out → Status × Out) : GetNextResult ρ Out :=
  if !s.ok then ⟨s, reader, output1, offset⟩
  else ⟨(HandleResult handed output1).1, reader, (HandleResult handed output1).2, offset⟩

/-- Branch `output_pb_type_ == PLAINTEXT` of `GetNext`. -/
def GetNext.plaintext {ρ Out I E B : Type} (P : PBIterator ρ I E B) (H : THanler Out I E B)
    (reader : ρ) (output : Out) (offset : Nat) : GetNextResult ρ Out :=
  let r := P.next_tstring reader offset []
  let output1 := H.set_reader_status output r.status
  GetNext.finish r.reader output1 r.offset (H.HandleReaderNextStauts_tstring r.status r.value)
    r.value H.HandleResult_tstring

/-- Branch `input_pb_type_ == EXAMPLE && output_pb_type_ == INSTANCE`: the
status of `ExampleToInstance` is dropped. -/
def GetNext.exampleToInstance {ρ Out I E B : Type} (P : PBIterator ρ I E B)
    (M : Messages I E B) (H : THanler Out I E B) (reader : ρ) (output : Out) (offset : Nat) :
    GetNextResult ρ Out :=
  let r := P.next_Example reader offset M.Example_new
  let output1 := H.set_reader_status output r.status
  GetNext.finish r.reader output1 r.offset (H.HandleReaderNextStauts_Example r.status r.value)
    (M.ExampleToInstance r.value M.Instance_new).2.2 H.HandleResult_Instance

/-- Branch `input_pb_type_ == INSTANCE && output_pb_type_ == EXAMPLE`: the
status of `InstanceToExample` is dropped. -/
def GetNext.instanceToExample {ρ Out I E B : Type} (P : PBIterator ρ I E B)
    (M : Messages I E B) (H : THanler Out I E B) (reader : ρ) (output : Out) (offset : Nat) :
    GetNextResult ρ Out :=
  let r := P.next_Instance reader offset M.Instance_new
  let output1 := H.set_reader_status output r.status
  GetNext.finish r.reader output1 r.offset (H.HandleReaderNextStauts_Instance r.status r.value)
    (M.InstanceToExample r.value M.Example_new).2.2 H.HandleResult_Example

/-- Branch `output_pb_type_ == EXAMPLE` (any -> example). -/
def GetNext.example {ρ Out I E B : Type} (P : PBIterator ρ I E B)
    (M : Messages I E B) (H : THanler Out I E B) (reader : ρ) (output : Out) (offset : Nat) :
    GetNextResult ρ Out :=
  let r := P.next_Example reader offset M.Example_new
  let output1 := H.set_reader_status output r.status
  GetNext.finish r.reader output1 r.offset (H.HandleReaderNextStauts_Example r.status r.value)
    r.value H.HandleResult_Example

/-- Branch `output_pb_type_ == INSTANCE` (any -> instance). -/
def GetNext.instance {ρ Out I E B : Type} (P : PBIterator ρ I E B)
    (M : Messages I E B) (H : THanler Out I E B) (reader : ρ) (output : Out) (offset : Nat) :
    GetNextResult ρ Out :=
  let r := P.next_Instance reader offset M.Instance_new
  let output1 := H.set_reader_status output r.status
  GetNext.finish r.reader output1 r.offset (H.HandleReaderNextStauts_Instance r.status r.value)
    r.value H.HandleResult_Instance

/-- The last branch of `GetNext` (any -> example_batch). -/
def GetNext.exampleBatch {ρ Out I E B : Type} (P : PBIterator ρ I E B)
    (M : Messages I E B) (H : THanler Out I E B) (reader : ρ) (output : Out) (offset : Nat) :
    GetNextResult ρ Out :=
  let r := P.next_ExampleBatch reader offset M.ExampleBatch_new
  let output1 := H.set_reader_status output r.status
  GetNext.finish r.reader output1 r.offset
    (H.HandleReaderNextStauts_ExampleBatch r.status r.value) r.value H.HandleResult_ExampleBatch

/-- Method `PBIteratorWithDataFormatTrans::GetNext(reader, output, offset)`: the
chain of tests on `input_pb_type_` and `output_pb_type_`, each with its branch. -/
def GetNext {ρ Out I E B : Type} (P : PBIterator ρ I E B) (M : Messages I E B)
    (H : THanler Out I E B) (input_pb_type_ output_pb_type_ : DataFormat)
    (reader : ρ) (output : Out) (offset : Nat) : GetNextResult ρ Out :=
  if output_pb_type_ = DataFormat.PLAINTEXT then
    GetNext.plaintext P H reader output offset
  else if input_pb_type_ = DataFormat.EXAMPLE ∧ output_pb_type_ = DataFormat.INSTANCE then
    GetNext.exampleToInstance P M H reader output offset
  else if input_pb_type_ = DataFormat.INSTANCE ∧ output_pb_type_ = DataFormat.EXAMPLE then
    GetNext.instanceToExample P M H reader output offset
  else if output_pb_type_ = DataFormat.EXAMPLE then
    GetNext.example P M H reader output offset
  else if output_pb_type_ = DataFormat.INSTANCE then
    GetNext.instance P M H reader output offset
  else
    GetNext.exampleBatch P M H reader output offset

/-- The six things `GetNext` can do, in the words of the spec. -/
inductive Route
  | plaintext
  | exampleToInstance
  | instanceToExample
  | decodeExample
  | decodeInstance
  | decodeExampleBatch
  deriving DecidableEq, Repr

/-- The routing table in the words of the spec: the route that belongs to an
(input, output) pair of types. -/
def routeOf : DataFormat → DataFormat → Route
  | _, .PLAINTEXT => .plaintext
  | .EXAMPLE, .INSTANCE => .exampleToInstance
  | .INSTANCE, .EXAMPLE => .instanceToExample
  | _, .EXAMPLE => .decodeExample
  | _, .INSTANCE => .decodeInstance
  | _, _ => .decodeExampleBatch

/-- The struct `CurPBIteratorHandler::CurOutput` of `kafka_kernels.cc`. -/
structure CurOutput (I E B : Type) where
  reader_status : Status
  exa_pb_list : List E
  ins_pb_list : List I
  eb_pb_list : List B
  string_list : List Bytes

/-- Method `CurPBIteratorHandler::HandleReaderNextStauts(s, result)` for a
`tstring` result.  `LOG(ERROR)` is not modelled. -/
def CurPBIteratorHandler.HandleReaderNextStauts_tstring (s : Status) (result : Bytes) :
    Status :=
  if s ≠ Status.OK then s
  else if result.length = 0 then errors.FailedPrecondition "tstring size=0"
  else Status.OK

/-- The template `CurPBIteratorHandler::HandleReaderNextStauts(s, result)` for a
message result, with `result.ByteSize()` given. -/
def CurPBIteratorHandler.HandleReaderNextStauts_pb (s : Status) (byteSize : Nat) : Status :=
  if s ≠ Status.OK then s
  else if byteSize = 0 then errors.FailedPrecondition "pb size=0"
  else Status.OK

/-- The class `CurPBIteratorHandler` of `kafka_kernels.cc` as a `THanler`; the
`ByteSize()` of the three message types is given. -/
def CurPBIteratorHandler {I E B : Type} (ByteSize_I : I → Nat) (ByteSize_E : E → Nat)
    (ByteSize_B : B → Nat) : THanler (CurOutput I E B) I E B where
  set_reader_status := fun output s => { output with reader_status := s }
  HandleReaderNextStauts_tstring := CurPBIteratorHandler.HandleReaderNextStauts_tstring
  HandleReaderNextStauts_Instance := fun s result =>
    CurPBIteratorHandler.HandleReaderNextStauts_pb s (ByteSize_I result)
  HandleReaderNextStauts_Example := fun s result =>
    CurPBIteratorHandler.HandleReaderNextStauts_pb s (ByteSize_E result)
  HandleReaderNextStauts_ExampleBatch := fun s result =>
    CurPBIteratorHandler.HandleReaderNextStauts_pb s (ByteSize_B result)
  HandleResult_tstring := fun serialized output =>
    (Status.OK, { output with string_list := output.string_list ++ [serialized] })
  HandleResult_Instance := fun ins_pb output =>
    (Status.OK, { output with ins_pb_list := output.ins_pb_list ++ [ins_pb] })
  HandleResult_Example := fun exa_pb output =>
    (Status.OK, { output with exa_pb_list := output.exa_pb_list ++ [exa_pb] })
  HandleResult_ExampleBatch := fun eb_pb output =>
    (Status.OK, { output with eb_pb_list := output.eb_pb_list ++ [eb_pb] })

/-! ## The Parquet example reader: line-id fields -/

/-- The enumeration `google::protobuf::FieldDescriptor::CppType`. -/
inductive CppType
  | CPPTYPE_INT32
  | CPPTYPE_INT64
  | CPPTYPE_UINT32
  | CPPTYPE_UINT64
  | CPPTYPE_DOUBLE
  | CPPTYPE_FLOAT
  | CPPTYPE_BOOL
  | CPPTYPE_ENUM
  | CPPTYPE_STRING
  | CPPTYPE_MESSAGE
  deriving DecidableEq, Repr

/-- A `google::protobuf::FieldDescriptor` as far as the reader looks at it. -/
structure FieldDescriptor where
  name : String
  cpp_type : CppType
  is_repeated : Bool
  deriving DecidableEq, Repr

/-- The call `descriptor_->FindFieldByName(name)` on the `LineId` descriptor,
given as the list of its fields; `none` is the null pointer. -/
def FindFieldByName (descriptor_ : List FieldDescriptor) (name : String) :
    Option FieldDescriptor :=
  descriptor_.find? (fun f => f.name == name)

/-- The characters of the class `[A-Z_]`. -/
def regClassChars : List Char :=
  ['A', 'B', 'C', 'D', 'E', 'F', 'G', 'H', 'I', 'J', 'K', 'L', 'M', 'N', 'O', 'P', 'Q', 'R',
   'S', 'T', 'U', 'V', 'W', 'X', 'Y', 'Z', '_']

/-- The class `[A-Z_]` as a regular expression: the sum of its characters. -/
def regClass : RegularExpression Char :=
  regClassChars.foldr (fun c r => RegularExpression.char c + r) 0

/-- The pattern `static std::regex reg("__[A-Z_]+__")`. -/
def reg : RegularExpression Char :=
  RegularExpression.char '_' * (RegularExpression.char '_' *
    ((regClass * RegularExpression.star regClass) *
      (RegularExpression.char '_' * RegularExpression.char '_')))

/-- The call `std::regex_match(name, reg)`: the whole of `name` matches. -/
def regex_match (name : String) (r : RegularExpression Char) : Bool :=
  r.rmatch name.toList

/-- The call `name.substr(pos, n)` of `std::string`: `none` is the
`std::out_of_range` thrown when `pos > size()`. -/
def substr (name : String) (pos n : Nat) : Option String :=
  if pos > name.length then none
  else some ⟨(name.toList.drop pos).take n⟩

/-- The call `absl::AsciiStrToLower(s)`. -/
def AsciiStrToLower (s : String) : String :=
  ⟨s.toList.map Char.toLower⟩

/-- Method `ParquetExampleReader::GetLineIdFieldByName(name)`.  `Except.error`
is an exception leaving the function; `name.length() - 4` is computed in
`size_t`. -/
def GetLineIdFieldByName (descriptor_ : List FieldDescriptor) (name : String) :
    Except String (Option FieldDescriptor) :=
  let is_match := regex_match name reg
  if !is_match then .ok none
  else
    match substr name 2 ((name.length + 2 ^ 64 - 4) % 2 ^ 64) with
    | none => .error "std::out_of_range"
    | some subname =>
      let lower_subname := AsciiStrToLower subname
      .ok (FindFieldByName descriptor_ lower_subname)

/-! ## The Parquet example reader: the file, the messages and the selection -/

/-- The enumeration `parquet::Type::type`. -/
inductive ParquetType
  | BOOLEAN
  | INT32
  | INT64
  | INT96
  | FLOAT
  | DOUBLE
  | BYTE_ARRAY
  | FIXED_LEN_BYTE_ARRAY
  | UNDEFINED
  deriving DecidableEq, Repr

/-- The enumeration `ParsedDataType`. -/
inductive ParsedDataType
  | INT
  | FIDV1
  | FIDV2
  | FLOAT
  | BYTES
  deriving DecidableEq, Repr

/-- Static method `ParquetExampleReader::ColTypeToString`. -/
def ColTypeToString : ParquetType → String
  | .BOOLEAN => "BOOLEAN"
  | .INT32 => "INT32"
  | .INT64 => "INT64"
  | .FLOAT => "FLOAT"
  | .DOUBLE => "DOUBLE"
  | .BYTE_ARRAY => "BYTE_ARRAY"
  | .FIXED_LEN_BYTE_ARRAY => "FIXED_LEN_BYTE_ARRAY"
  | _ => "UNKNOWN"

/-- One value of a column, of the `c_type` of its physical type: `int32_t`,
`int64_t`, `float` and `double` (by their bits) or a `parquet::ByteArray`. -/
inductive Scalar
  | int32 (v : Int)
  | int64 (v : Int)
  | float (bits : Nat)
  | double (bits : Nat)
  | byteArray (b : Bytes)
  deriving DecidableEq, Repr

/-- A `parquet::ColumnReader` as a column buffer reads it.  The class
`TypedColumnBuffer` is not in the sources, so a reader is given by what the
successive `GetNextValues` calls on its buffer return (status and values of
one row), and by the status returned once nothing is pending. -/
structure ColumnReader where
  pending : List (Status × List Scalar)
  exhausted : Status
  deriving DecidableEq, Repr

/-- A `TypedColumnBuffer<PARQUET_TYPE>` over a column reader. -/
structure ColumnBuffer where
  type : ParquetType
  column_reader : ColumnReader
  deriving DecidableEq, Repr

/-- The call `typed_col_buf->GetNextValues(values)` with `values` empty: the
status, the values and the buffer afterwards. -/
def ColumnBuffer.GetNextValues (self : ColumnBuffer) : Status × List Scalar × ColumnBuffer :=
  match self.column_reader.pending with
  | [] => (self.column_reader.exhausted, [], self)
  | (st, values) :: rest =>
    (st, values, { self with column_reader := { self.column_reader with pending := rest } })

/-- A row group of the file: `metadata()->num_rows()` and the column reader
`Column(i)` of each column. -/
structure RowGroup where
  num_rows : Int
  columns : List ColumnReader
  deriving DecidableEq, Repr

/-- The opened file as `parquet_reader_` and `parquet_metadata_` show it: for
each column its dotted path and physical type, the number of rows, and the row
groups. -/
structure ParquetFile where
  columns : List (String × ParquetType)
  num_rows : Int
  row_groups : List RowGroup
  deriving DecidableEq, Repr

/-- The call `parquet_metadata_->schema()->Column(col_id)->physical_type()`;
`none` when there is no such column. -/
def ParquetFile.physical_type (file : ParquetFile) (col_id : Nat) : Option ParquetType :=
  (file.columns[col_id]?).map Prod.snd

/-- The call `parquet_reader_->RowGroup(i)`; `none` when there is no such row
group. -/
def ParquetFile.RowGroup (file : ParquetFile) (i : Int) : Option RowGroup :=
  if i < 0 then none else file.row_groups[i.toNat]?

/-- A `float` made by `static_cast<float>(value)` from a column value.  The
rounding of the cast is not modelled: the value cast is kept. -/
structure FloatOf where
  source : Scalar
  deriving DecidableEq, Repr

/-- The cases of the `oneof` of `Feature` that the reader sets. -/
inductive FeatureKind
  | int64_list
  | fid_v1_list
  | fid_v2_list
  | float_list
  | bytes_list
  deriving DecidableEq, Repr

/-- The message `Feature`: which list of the `oneof` is set, if any, and the
values added to it, in order, as they were passed to `add_value`. -/
structure Feature where
  kind : Option FeatureKind
  value : List Scalar
  deriving DecidableEq, Repr

/-- The calls `feature->mutable_int64_list()`, `mutable_fid_v1_list()` and so on:
the list of that kind, emptied unless it was the one set. -/
def Feature.mutable_list (self : Feature) (kind : FeatureKind) : Feature :=
  if self.kind = some kind then self else ⟨some kind, []⟩

/-- The message `NamedFeature`. -/
structure NamedFeature where
  id : Int
  name : String
  feature : Feature
  deriving DecidableEq, Repr

/-- The message `NamedFeatureList`. -/
structure NamedFeatureList where
  id : Int
  name : String
  feature : List Feature
  deriving DecidableEq, Repr

/-- The message `Example`: the label list, the `line_id` sub-message (absent,
or the fields set through reflection with the values passed) and the named
features. -/
structure Example where
  label : List FloatOf
  line_id : Option (List (FieldDescriptor × Scalar))
  named_feature : List NamedFeature
  deriving DecidableEq, Repr

/-- The message `ExampleBatch`. -/
structure ExampleBatch where
  named_feature_list : List NamedFeatureList
  batch_size : Int
  deriving DecidableEq, Repr

/-- The calls `reflection_->SetInt32(example.mutable_line_id(), line_field, value)`
and its siblings: the sub-message exists afterwards and the field holds the
value. -/
def Example.set_line_id (exa : Example) (line_field : FieldDescriptor) (value : Scalar) :
    Example :=
  { exa with
    line_id := some (((exa.line_id.getD []).filter (fun e => e.1.name != line_field.name))
      ++ [(line_field, value)]) }

/-- The fields of `ParquetExampleReader` that its methods read and write.
`file` stands for `parquet_reader_` and `parquet_metadata_`; the two
`unordered_map`s from and to column names and `line_id_discriptor_map_` are
association lists; `row_group_reader_` is `none` when the pointer is null.
The `int64_t` members `iter_`, `row_group_id_` and `row_group_offset_` hold
their value as an integer, and the methods add to them through `toInt64`. -/
structure ParquetExampleReader where
  file : ParquetFile
  columns_ : List String
  columns_index_map_ : List (String × Nat)
  col_pure_name_map_ : List (Nat × String)
  selected_col_ids_ : List Nat
  selected_col_feature_type_ : List ParsedDataType
  iter_ : Int
  row_group_reader_ : Option RowGroup
  row_group_id_ : Int
  row_group_offset_ : Int
  col_buffers_ : List ColumnBuffer
  descriptor_ : List FieldDescriptor
  line_id_discriptor_map_ : List (Nat × Option FieldDescriptor)
  deriving DecidableEq, Repr

/-- A loop `for (x : xs) body` whose body may return early with a status
(`TF_RETURN_IF_ERROR`): the bodies run in order on the value `a` and the state,
and the first status that is not OK ends the loop. -/
def forEach {σ α ι : Type} (body : ι → α → σ → OutcomeOn σ α) :
    List ι → α → σ → OutcomeOn σ α
  | [], a, s => .done Status.OK a s
  | x :: xs, a, s => (body x a s).andThen (fun a1 => a1) (fun a1 s1 => forEach body xs a1 s1)

/-- The expression `col_pure_name_map_[col_id]`: the name, or the empty string
that `operator[]` puts there. -/
def ParquetExampleReader.col_pure_name (self : ParquetExampleReader) (col_id : Nat) :
    String :=
  (self.col_pure_name_map_.lookup col_id).getD ""

/-- The `switch (col_type)` of `SetSelectedCols` for one column: the parsed type
to push, or the status returned. -/
def SetSelectedCols.parse (col_type : ParquetType) (feature_type col_name : String) :
    Except Status ParsedDataType :=
  match col_type with
  | .INT32 =>
    if feature_type = "int" then .ok .INT
    else .error (errors.InvalidArgument
      ("invalid selected_col_types, col_name = " ++ col_name ++ ", feature type should be int"))
  | .INT64 =>
    if feature_type = "int" then .ok .INT
    else if feature_type = "fid_v1" then .ok .FIDV1
    else if feature_type = "fid_v2" then .ok .FIDV2
    else .error (errors.InvalidArgument
      ("invalid selected_col_types, col_name = " ++ col_name
        ++ ", feature type should in [int, fid_v1, fid_v2]"))
  | .FLOAT | .DOUBLE =>
    if feature_type = "float" then .ok .FLOAT
    else .error (errors.InvalidArgument
      ("invalid selected_col_types, col_name = " ++ col_name ++ ", feature type should be float"))
  | .BYTE_ARRAY =>
    if feature_type = "bytes" then .ok .BYTES
    else .error (errors.InvalidArgument
      ("invalid selected_col_types, col_name = " ++ col_name ++ ", feature type should be bytes"))
  | _ =>
    .error (errors.InvalidArgument
      ("invalid column parquet type col_name = " ++ col_name ++ "parquet type is"
        ++ ColTypeToString col_type))

/-- The first loop of `SetSelectedCols`, over the names: pushes the column
index of each name on `selected_col_ids_` and inserts it into the local set
(kept without repetition), and stops at a name that is not in
`columns_index_map_`. -/
def SetSelectedCols.names (selected_col_id_set : List Nat) :
    List String → ParquetExampleReader → OutcomeOn ParquetExampleReader (List Nat)
  | [], self => .done Status.OK selected_col_id_set self
  | col_name :: rest, self =>
    match self.columns_index_map_.lookup col_name with
    | none =>
      .done (errors.InvalidArgument ("column name: " ++ col_name ++ " not in paruquet schema"))
        selected_col_id_set self
    | some col_id =>
      SetSelectedCols.names (selected_col_id_set.insert col_id) rest
        { self with selected_col_ids_ := self.selected_col_ids_ ++ [col_id] }

/-- One pass of the second loop of `SetSelectedCols`, for the index `i`. -/
def SetSelectedCols.type (selected_col_names selected_col_types : List String) (i : Nat)
    (_ : Unit) (self : ParquetExampleReader) : OutcomeOn ParquetExampleReader Unit :=
  match self.selected_col_ids_[i]?, selected_col_types[i]?, selected_col_names[i]? with
  | some col_id, some feature_type, some col_name =>
    match self.file.physical_type col_id with
    | none => .undefined
    | some col_type =>
      match SetSelectedCols.parse col_type feature_type col_name with
      | .ok t =>
        .done Status.OK ()
          { self with selected_col_feature_type_ := self.selected_col_feature_type_ ++ [t] }
      | .error st => .done st () self
  | _, _, _ => .undefined

/-- Method `ParquetExampleReader::SetSelectedCols(selected_col_names,
selected_col_types)`. -/
def ParquetExampleReader.SetSelectedCols (self : ParquetExampleReader)
    (selected_col_names selected_col_types : List String) :
    OutcomeOn ParquetExampleReader Unit :=
  if selected_col_names.length ≠ selected_col_types.length then
    .done (errors.InvalidArgument
      "list selected_col_names should have the same size as list selected_col_types") () self
  else
    (SetSelectedCols.names [] selected_col_names self).andThen (fun _ => ())
    fun selected_col_id_set s1 =>
    if s1.selected_col_ids_.length ≠ selected_col_id_set.length then
      .done (errors.InvalidArgument "selected_col_names have duplicate columns") () s1
    else
      forEach (SetSelectedCols.type selected_col_names selected_col_types)
        (List.range s1.selected_col_ids_.length) () s1

/-- The value of an `int64_t` expression whose mathematical value is `x`: the
integer of the range from -2^63 up to 2^63 - 1 that is congruent to `x` modulo
2^64.  An addition or subtraction that overflows wraps around, as the two's
complement arithmetic of the compiled code does. -/
def toInt64 (x : Int) : Int := (x + 2 ^ 63) % 2 ^ 64 - 2 ^ 63

/-- One pass of the loop of `NextRowGroup` over `selected_col_ids_`: the buffer
of the column's physical type is put at the end of `col_buffers_`. -/
def NextRowGroup.column (row_group : RowGroup) (col_id : Nat) (_ : Unit)
    (self : ParquetExampleReader) : OutcomeOn ParquetExampleReader Unit :=
  match row_group.columns[col_id]?, self.file.physical_type col_id with
  | some column_reader, some col_type =>
    match col_type with
    | .INT32 | .INT64 | .FLOAT | .DOUBLE | .BYTE_ARRAY =>
      .done Status.OK () { self with col_buffers_ := self.col_buffers_ ++ [⟨col_type, column_reader⟩] }
    | _ => .done (errors.InvalidArgument "not support column type") () self
  | _, _ => .undefined

/-- Method `ParquetExampleReader::NextRowGroup()`. -/
def ParquetExampleReader.NextRowGroup (self : ParquetExampleReader) :
    OutcomeOn ParquetExampleReader Unit :=
  if toInt64 (self.row_group_id_ + 1) ≥ (self.file.row_groups.length : Int) then
    .done (errors.OutOfRange "row group out of range") () self
  else
    let row_group_id := match self.row_group_reader_ with
      | none => 0
      | some _ => toInt64 (self.row_group_id_ + 1)
    let row_group_offset := match self.row_group_reader_ with
      | none => 0
      | some row_group_reader => toInt64 (self.row_group_offset_ + row_group_reader.num_rows)
    match self.file.RowGroup row_group_id with
    | none => .undefined
    | some row_group =>
      forEach (NextRowGroup.column row_group) self.selected_col_ids_ ()
        { self with
          row_group_reader_ := some row_group
          row_group_id_ := row_group_id
          row_group_offset_ := row_group_offset
          col_buffers_ := [] }

/-- Method `ParquetExampleReader::IsEOF()`. -/
def ParquetExampleReader.IsEOF (self : ParquetExampleReader) : Bool :=
  decide (self.iter_ ≥ self.file.num_rows)

/-! ## The Parquet example reader: reading rows -/

/-- The lines `dynamic_cast<TypedColumnBuffer<PARQUET_TYPE>*>(col_buffers_[id].get())`
and `typed_col_buf->GetNextValues(values)` that open `FillValueList`,
`FillLabel` and `GetSingleValue`.  There is no defined behaviour when
`col_buffers_` has no such entry or the buffer is of another type (the cast
gives null). -/
def ParquetExampleReader.GetNextValues (self : ParquetExampleReader) (T : ParquetType)
    (col_buffer_id : Nat) : OutcomeOn ParquetExampleReader (List Scalar) :=
  match self.col_buffers_[col_buffer_id]? with
  | none => .undefined
  | some typed_col_buf =>
    if typed_col_buf.type ≠ T then .undefined
    else
      .done typed_col_buf.GetNextValues.1 typed_col_buf.GetNextValues.2.1
        { self with
          col_buffers_ := self.col_buffers_.set col_buffer_id typed_col_buf.GetNextValues.2.2 }

/-- The template `FillValueList<PARQUET_TYPE, PB_TLIST>(col_buffer_id, value_list)`
called on the list of kind `kind` of `feature`: the values of the next row are
added to that list.  The list is made by `mutable_..._list()` before the
call, so it is set also when the call fails. -/
def ParquetExampleReader.FillValueList (self : ParquetExampleReader) (T : ParquetType)
    (col_buffer_id : Nat) (feature : Feature) (kind : FeatureKind) :
    OutcomeOn ParquetExampleReader Feature :=
  (self.GetNextValues T col_buffer_id).andThen (fun _ => feature.mutable_list kind)
    fun values s1 =>
      .done Status.OK ⟨some kind, (feature.mutable_list kind).value ++ values⟩ s1

/-- The template `FillLabel<PARQUET_TYPE>(col_buffer_id, example)`. -/
def ParquetExampleReader.FillLabel (self : ParquetExampleReader) (T : ParquetType)
    (col_buffer_id : Nat) (exa : Example) : OutcomeOn ParquetExampleReader Example :=
  (self.GetNextValues T col_buffer_id).andThen (fun _ => exa) fun values s1 =>
    .done Status.OK { exa with label := exa.label ++ values.map FloatOf.mk } s1

/-- The template `GetSingleValue<PARQUET_TYPE>(col_buffer_id)`; the status of
the outcome is always OK, a failure is `LOG(FATAL)`. -/
def ParquetExampleReader.GetSingleValue (self : ParquetExampleReader) (T : ParquetType)
    (col_buffer_id : Nat) : OutcomeOn ParquetExampleReader (List Scalar) :=
  match self.GetNextValues T col_buffer_id with
  | .undefined => .undefined
  | .fatal msg => .fatal msg
  | .done status values s1 =>
    if !status.ok then .fatal "stack trace"
    else if values.length ≠ 1 then
      .fatal ("Parquet column id = " ++ toString col_buffer_id
        ++ ", should have single value for one row, but got " ++ toString values.length)
    else .done Status.OK (values.take 1) s1

/-- One case of the `switch (line_field->cpp_type())` of `GetNextExample`: the
`CHECK` on the column type, then the value of the row, `values[0]` of
`GetSingleValue`, is set in `line_id`. -/
def GetNextExample.set_line_id (line_field : FieldDescriptor) (col_name : String)
    (col_type expected : ParquetType) (i : Nat) (exa : Example)
    (self : ParquetExampleReader) : OutcomeOn ParquetExampleReader Example :=
  if col_type ≠ expected then
    .fatal ("column: " ++ col_name ++ " should have the same type as line_id field")
  else
    match self.GetSingleValue expected i with
    | .undefined => .undefined
    | .fatal msg => .fatal msg
    | .done st values s1 =>
      match values with
      | value :: _ => .done st (exa.set_line_id line_field value) s1
      | [] => .undefined

/-- The `switch (col_type)` that fills the feature of a column, the same in
`GetNextExample` and in `GetNextExampleBatch`. -/
def ParquetExampleReader.fillFeature (self : ParquetExampleReader) (col_type : ParquetType)
    (i : Nat) (feature : Feature) : OutcomeOn ParquetExampleReader Feature :=
  match col_type with
  | .INT32 => self.FillValueList .INT32 i feature .int64_list
  | .INT64 =>
    match self.selected_col_feature_type_[i]? with
    | none => .undefined
    | some t =>
      if t = ParsedDataType.INT then self.FillValueList .INT64 i feature .int64_list
      else if t = ParsedDataType.FIDV1 then self.FillValueList .INT64 i feature .fid_v1_list
      else self.FillValueList .INT64 i feature .fid_v2_list
  | .FLOAT => self.FillValueList .FLOAT i feature .float_list
  | .DOUBLE => self.FillValueList .DOUBLE i feature .float_list
  | .BYTE_ARRAY =>
    -- `mutable_bytes_list()` comes after `GetNextValues` here
    (self.GetNextValues .BYTE_ARRAY i).andThen (fun _ => feature) fun values s1 =>
      .done Status.OK ⟨some .bytes_list, (feature.mutable_list .bytes_list).value ++ values⟩ s1
  | _ => .done (errors.InvalidArgument "not support column type") feature self

/-- One pass of the loop of `GetNextExample` over the selected columns, for
the index `i`. -/
def GetNextExample.column (i : Nat) (exa : Example) (self : ParquetExampleReader) :
    OutcomeOn ParquetExampleReader Example :=
  match self.selected_col_ids_[i]? with
  | none => .undefined
  | some col_id =>
    match self.file.physical_type col_id with
    | none => .undefined
    | some col_type =>
      let col_name := self.col_pure_name col_id
      -- if column is __LABEL__
      if col_name = "__LABEL__" then
        match col_type with
        | .INT32 => self.FillLabel .INT32 i exa
        | .INT64 => self.FillLabel .INT64 i exa
        | .FLOAT => self.FillLabel .FLOAT i exa
        | .DOUBLE => self.FillLabel .DOUBLE i exa
        | _ => .fatal "In parquet: __LABEL__ column has wrong type, pls check"
      else
        -- if column in line_id
        match (self.line_id_discriptor_map_.lookup col_id).join with
        | some line_field =>
          if line_field.is_repeated then .fatal "Not support repeated line_id field now."
          else
            match line_field.cpp_type with
            | .CPPTYPE_INT32 =>
              GetNextExample.set_line_id line_field col_name col_type .INT32 i exa self
            | .CPPTYPE_INT64 =>
              GetNextExample.set_line_id line_field col_name col_type .INT64 i exa self
            | .CPPTYPE_UINT32 =>
              GetNextExample.set_line_id line_field col_name col_type .INT32 i exa self
            | .CPPTYPE_UINT64 =>
              GetNextExample.set_line_id line_field col_name col_type .INT64 i exa self
            | .CPPTYPE_FLOAT =>
              GetNextExample.set_line_id line_field col_name col_type .FLOAT i exa self
            | .CPPTYPE_DOUBLE =>
              GetNextExample.set_line_id line_field col_name col_type .DOUBLE i exa self
            | .CPPTYPE_STRING =>
              GetNextExample.set_line_id line_field col_name col_type .BYTE_ARRAY i exa self
            | _ => .fatal ("not support line_id type for column " ++ col_name)
        | none =>
          match self.fillFeature col_type i ⟨none, []⟩ with
          | .undefined => .undefined
          | .fatal msg => .fatal msg
          | .done st feature s1 =>
            .done st
              { exa with
                named_feature := exa.named_feature ++ [⟨(col_id : Int) + 10000, col_name, feature⟩] }
              s1

/-- The loop `while (iter_ >= row_group_offset_ +
row_group_reader_->metadata()->num_rows()) TF_RETURN_IF_ERROR(NextRowGroup());`.
`fuel` bounds the number of times the condition is tested; every pass moves to
a later row group, so `fuel` one above the number of row groups is never used
up. -/
def ParquetExampleReader.skipRowGroups :
    Nat → ParquetExampleReader → OutcomeOn ParquetExampleReader Unit
  | 0, _ => .undefined
  | fuel + 1, self =>
    match self.row_group_reader_ with
    | none => .undefined
    | some row_group_reader =>
      if self.iter_ ≥ toInt64 (self.row_group_offset_ + row_group_reader.num_rows) then
        self.NextRowGroup.andThen (fun _ => ()) fun _ s1 =>
          ParquetExampleReader.skipRowGroups fuel s1
      else .done Status.OK () self

/-- Method `ParquetExampleReader::GetNextExample(example)`. -/
def ParquetExampleReader.GetNextExample (self : ParquetExampleReader) (exa : Example) :
    OutcomeOn ParquetExampleReader Example :=
  if self.IsEOF then
    .done (errors.OutOfRange ("GetNextExample out of range, iter = " ++ toString self.iter_))
      exa self
  else
    (self.skipRowGroups (self.file.row_groups.length + 1)).andThen (fun _ => exa) fun _ s1 =>
    (forEach GetNextExample.column (List.range s1.selected_col_ids_.length) exa s1).andThen
      (fun exa1 => exa1) fun exa1 s2 =>
    .done Status.OK exa1 { s2 with iter_ := toInt64 (s2.iter_ + 1) }

/-- One pass of the loop `for (ft = 0; ft < rows_in_row_group; ft++)` of
`GetNextExampleBatch`: a feature is added to the named feature list and
filled from the next row of the column. -/
def GetNextExampleBatch.row (col_type : ParquetType) (i : Nat) (_ : Nat)
    (named_feature_list : NamedFeatureList) (self : ParquetExampleReader) :
    OutcomeOn ParquetExampleReader NamedFeatureList :=
  match self.fillFeature col_type i ⟨none, []⟩ with
  | .undefined => .undefined
  | .fatal msg => .fatal msg
  | .done st feature s1 =>
    .done st { named_feature_list with feature := named_feature_list.feature ++ [feature] } s1

/-- One pass of the loop of `GetNextExampleBatch` over the selected columns,
for the index `i`: `rows_in_row_group` features go to
`example_batch.mutable_named_feature_list(i)`. -/
def GetNextExampleBatch.column (rows_in_row_group : Int) (i : Nat)
    (example_batch : ExampleBatch) (self : ParquetExampleReader) :
    OutcomeOn ParquetExampleReader ExampleBatch :=
  match self.selected_col_ids_[i]? with
  | none => .undefined
  | some col_id =>
    match self.file.physical_type col_id, example_batch.named_feature_list[i]? with
    | some col_type, some named_feature_list =>
      match forEach (GetNextExampleBatch.row col_type i) (List.range rows_in_row_group.toNat)
          named_feature_list self with
      | .undefined => .undefined
      | .fatal msg => .fatal msg
      | .done st named_feature_list1 s1 =>
        .done st
          { example_batch with
            named_feature_list := example_batch.named_feature_list.set i named_feature_list1 }
          s1
    | _, _ => .undefined

/-- The loop `while (rows_to_read_left > 0)` of `GetNextExampleBatch`, in
`int64_t` arithmetic.  `fuel` bounds the number of times the condition is
tested; as long as no sum overflows every pass reads at least one row, so
`fuel` one above `rows_to_read_left` at the start is never used up. -/
def GetNextExampleBatch.rows :
    Nat → Int → ExampleBatch → ParquetExampleReader →
      OutcomeOn ParquetExampleReader ExampleBatch
  | 0, _, _, _ => .undefined
  | fuel + 1, rows_to_read_left, example_batch, self =>
    if rows_to_read_left > 0 then
      -- if need to go to next row group
      (self.skipRowGroups (self.file.row_groups.length + 1)).andThen (fun _ => example_batch)
      fun _ s1 =>
      match s1.row_group_reader_ with
      | none => .undefined
      | some row_group_reader =>
        -- calculate max rows can read in current row group
        let rows_in_row_group : Int :=
          if toInt64 (s1.iter_ + rows_to_read_left)
              ≥ toInt64 (s1.row_group_offset_ + row_group_reader.num_rows)
          then toInt64 (toInt64 (s1.row_group_offset_ + row_group_reader.num_rows) - s1.iter_)
          else rows_to_read_left
        -- read from current row group
        (forEach (GetNextExampleBatch.column rows_in_row_group)
          (List.range s1.selected_col_ids_.length) example_batch s1).andThen
          (fun example_batch1 => example_batch1) fun example_batch1 s2 =>
        GetNextExampleBatch.rows fuel (toInt64 (rows_to_read_left - rows_in_row_group))
          example_batch1 { s2 with iter_ := toInt64 (s2.iter_ + rows_in_row_group) }
    else .done Status.OK example_batch self

/-- Method `ParquetExampleReader::GetNextExampleBatch(example_batch, batch_size)`. -/
def ParquetExampleReader.GetNextExampleBatch (self : ParquetExampleReader)
    (example_batch : ExampleBatch) (batch_size : Int) :
    OutcomeOn ParquetExampleReader ExampleBatch :=
  if self.IsEOF then
    .done (errors.OutOfRange
      ("GetNextExampleBatch out of range, iter = " ++ toString self.iter_)) example_batch self
  else
    -- cread namedfeaturelist(s)
    let example_batch1 : ExampleBatch :=
      { example_batch with
        named_feature_list := example_batch.named_feature_list
          ++ self.selected_col_ids_.map
              (fun col_id => ⟨(col_id : Int), self.col_pure_name col_id, []⟩) }
    -- calculate batch_size
    let rows_to_read_left : Int :=
      if toInt64 (self.iter_ + batch_size) ≥ self.file.num_rows
      then toInt64 (self.file.num_rows - self.iter_)
      else batch_size
    GetNextExampleBatch.rows (rows_to_read_left.toNat + 1) rows_to_read_left
      { example_batch1 with batch_size := rows_to_read_left } self

/-- The first piece of `absl::StrSplit(full_col_name, ".")`. -/
def firstPiece (full_col_name : String) : String :=
  ⟨full_col_name.toList.takeWhile (fun c => c != '.')⟩

/-- An assignment `map[key] = value` on an `unordered_map` kept as an
association list. -/
def mapSet {κ ν : Type} [BEq κ] (map : List (κ × ν)) (key : κ) (value : ν) : List (κ × ν) :=
  (key, value) :: map.filter (fun e => !(e.1 == key))

/-- The loop of `Init` that registers the column names, from the index `i` on. -/
def Init.columns : List (String × ParquetType) → Nat → ParquetExampleReader →
    ParquetExampleReader
  | [], _, self => self
  | (full_col_name, _) :: rest, i, self =>
    Init.columns rest (i + 1)
      { self with
        columns_ := self.columns_ ++ [firstPiece full_col_name]
        columns_index_map_ := mapSet self.columns_index_map_ (firstPiece full_col_name) i
        col_pure_name_map_ := mapSet self.col_pure_name_map_ i (firstPiece full_col_name) }

/-- One pass of the last loop of `Init`: the line-id field of a selected
column is looked up by the column's name and stored under the column's index.
An exception out of `GetLineIdFieldByName` ends the process. -/
def Init.line_id (col_id : Nat) (_ : Unit) (self : ParquetExampleReader) :
    OutcomeOn ParquetExampleReader Unit :=
  match GetLineIdFieldByName self.descriptor_ (self.col_pure_name col_id) with
  | .error msg => .fatal msg
  | .ok field_descriptor =>
    .done Status.OK ()
      { self with
        line_id_discriptor_map_ := mapSet self.line_id_discriptor_map_ col_id field_descriptor }

/-- Method `ParquetExampleReader::Init(file_name, selected_col_names,
selected_col_types)` from the point where the file is open: `file` is what
`parquet_reader_` and `parquet_metadata_` then show, `LineId_descriptor` is
`LineId::GetDescriptor()`. -/
def ParquetExampleReader.Init (self : ParquetExampleReader) (file : ParquetFile)
    (LineId_descriptor : List FieldDescriptor) (selected_col_names selected_col_types : List String) :
    OutcomeOn ParquetExampleReader Unit :=
  -- register columns names
  let s1 := Init.columns file.columns 0 { self with file := file, columns_ := [] }
  -- select column, and check col type
  ({ s1 with selected_col_ids_ := [], selected_col_feature_type_ := [] }.SetSelectedCols
      selected_col_names selected_col_types).andThen (fun _ => ()) fun _ s2 =>
  -- init global iter_ and row_group related variables
  ({ s2 with iter_ := 0, row_group_offset_ := -1, row_group_id_ := -1,
             row_group_reader_ := none }.NextRowGroup).andThen (fun _ => ()) fun _ s3 =>
  -- init line_id descriptor
  forEach Init.line_id s3.selected_col_ids_ () { s3 with descriptor_ := LineId_descriptor }

/-- A `ParquetExampleReader` as its constructor leaves it, before `Init`: the
containers are empty and the pointers null; the integer fields, which the
constructor does not set, are taken as 0. -/
def ParquetExampleReader.new : ParquetExampleReader where
  file := ⟨[], 0, []⟩
  columns_ := []
  columns_index_map_ := []
  col_pure_name_map_ := []
  selected_col_ids_ := []
  selected_col_feature_type_ := []
  iter_ := 0
  row_group_reader_ := none
  row_group_id_ := 0
  row_group_offset_ := 0
  col_buffers_ := []
  descriptor_ := []
  line_id_discriptor_map_ := []

/-! ## Parquet reader: the specification's table, invariants and a sample file -/

/-- The accepted pairs of a physical type and a declared type, as the
specification lists them. -/
def specTypeTable : List (ParquetType × String) :=
  [(.INT32, "int"), (.INT64, "int"), (.INT64, "fid_v1"), (.INT64, "fid_v2"),
   (.FLOAT, "float"), (.DOUBLE, "float"), (.BYTE_ARRAY, "bytes")]

/-- The parsed type that a declared type stands for. -/
def specParsedType (declared : String) : Option ParsedDataType :=
  if declared = "int" then some .INT
  else if declared = "fid_v1" then some .FIDV1
  else if declared = "fid_v2" then some .FIDV2
  else if declared = "float" then some .FLOAT
  else if declared = "bytes" then some .BYTES
  else none

/-- The four reasons for which the specification has a selection rejected: the
two lists differ in length, a name is not a column of the schema (a key of
`columns_index_map_`), two names select the same column, or the pair of a
column's physical type and its declared type is outside the table. -/
def specRejected (self : ParquetExampleReader) (names types : List String) : Prop :=
  names.length ≠ types.length
  ∨ (∃ name ∈ names, self.columns_index_map_.lookup name = none)
  ∨ (∃ (i j : Nat) (name1 name2 : String) (col_id : Nat), i < j ∧
      names[i]? = some name1 ∧ names[j]? = some name2 ∧
      self.columns_index_map_.lookup name1 = some col_id ∧
      self.columns_index_map_.lookup name2 = some col_id)
  ∨ (∃ (i : Nat) (name declared : String) (col_id : Nat) (t : ParquetType),
      names[i]? = some name ∧ types[i]? = some declared ∧
      self.columns_index_map_.lookup name = some col_id ∧
      self.file.physical_type col_id = some t ∧ (t, declared) ∉ specTypeTable)

/-- The physical types that the read paths handle. -/
def supportedTypes : List ParquetType := [.INT32, .INT64, .FLOAT, .DOUBLE, .BYTE_ARRAY]

/-- The kind of value list that the specification gives a declared type of
an INT64 column. -/
def specValueListKind (declared : String) : Option FeatureKind :=
  if declared = "int" then some .int64_list
  else if declared = "fid_v1" then some .fid_v1_list
  else if declared = "fid_v2" then some .fid_v2_list
  else none

/-- What holds of an outcome when the call returned: `P` of the status, the
value and the state. -/
def OutcomeOn.Sat {σ α : Type} (x : OutcomeOn σ α) (P : Status → α → σ → Prop) : Prop :=
  match x with
  | .done st a s => P st a s
  | .undefined => True
  | .fatal _ => True

/-- The statuses that the `GetNextValues` calls on a buffer over this column
reader return. -/
def ColumnReader.statuses (r : ColumnReader) : List Status :=
  r.exhausted :: r.pending.map Prod.fst

/-- The status of the `default:` branches of the switches on the physical
type in `NextRowGroup`, `GetNextExample` and `GetNextExampleBatch`. -/
def notSupportColumnType : Status := errors.InvalidArgument "not support column type"

/-- The reader `s` is the reader `s0` later in the stream: the file, the
selection and the parsed types are those of `s0`, which only `Init` and
`SetSelectedCols` write, and no column buffer held returns the status of the
`default:` branches. -/
def MidStream (s0 s : ParquetExampleReader) : Prop :=
  s.file = s0.file ∧ s.selected_col_ids_ = s0.selected_col_ids_ ∧
  s.selected_col_feature_type_ = s0.selected_col_feature_type_ ∧
  ∀ buf ∈ s.col_buffers_, notSupportColumnType ∉ buf.column_reader.statuses

/-- Every selected column has a physical type that the read paths handle. -/
def Supported (s : ParquetExampleReader) : Prop :=
  ∀ col_id ∈ s.selected_col_ids_, ∃ t, s.file.physical_type col_id = some t ∧ t ∈ supportedTypes

/-- No column reader of the file returns the status of the `default:`
branches. -/
def FileNeverReturns (file : ParquetFile) : Prop :=
  ∀ rg ∈ file.row_groups, ∀ c ∈ rg.columns, notSupportColumnType ∉ c.statuses

/-- A file with the columns `__LABEL__` (INT64), `f.list` (INT64) and
`__SOME_FIELD__` (BYTE_ARRAY) and one row group of two rows. -/
def sampleFile : ParquetFile :=
  ⟨[("__LABEL__", .INT64), ("f.list", .INT64), ("__SOME_FIELD__", .BYTE_ARRAY)], 2,
    [⟨2, [⟨[(Status.OK, [.int64 1]), (Status.OK, [.int64 0])], errors.OutOfRange "end of column"⟩,
          ⟨[(Status.OK, [.int64 7, .int64 8]), (Status.OK, [])], errors.OutOfRange "end of column"⟩,
          ⟨[(Status.OK, [.byteArray [97]]), (Status.OK, [.byteArray [98]])],
            errors.OutOfRange "end of column"⟩]⟩]⟩

/-- The reader over `sampleFile` when `Init` has registered the column names,
before the selection. -/
def sampleRegistered : ParquetExampleReader :=
  { ParquetExampleReader.new with
    file := sampleFile
    columns_ := ["__LABEL__", "f", "__SOME_FIELD__"]
    columns_index_map_ := [("__SOME_FIELD__", 2), ("f", 1), ("__LABEL__", 0)]
    col_pure_name_map_ := [(2, "__SOME_FIELD__"), (1, "f"), (0, "__LABEL__")] }

/-- The reader over `sampleFile` after `Init` with the three columns selected
as `int`, `fid_v1` and `bytes`, against a `LineId` with the one field
`req_time`. -/
def sampleReader : ParquetExampleReader :=
  { sampleRegistered with
    selected_col_ids_ := [0, 1, 2]
    selected_col_feature_type_ := [.INT, .FIDV1, .BYTES]
    iter_ := 0
    row_group_reader_ := sampleFile.row_groups.head?
    row_group_id_ := 0
    row_group_offset_ := 0
    col_buffers_ :=
      [⟨.INT64, ⟨[(Status.OK, [.int64 1]), (Status.OK, [.int64 0])], errors.OutOfRange "end of column"⟩⟩,
       ⟨.INT64, ⟨[(Status.OK, [.int64 7, .int64 8]), (Status.OK, [])], errors.OutOfRange "end of column"⟩⟩,
       ⟨.BYTE_ARRAY, ⟨[(Status.OK, [.byteArray [97]]), (Status.OK, [.byteArray [98]])],
            errors.OutOfRange "end of column"⟩⟩]
    descriptor_ := [⟨"req_time", .CPPTYPE_INT64, false⟩]
    line_id_discriptor_map_ := [(2, none), (1, none), (0, none)] }

/-! ## Offsets of the in-memory source, sample iterator, and `GetCompressType` -/

/-- The number of bytes taken by the reads of a log that returned OK. -/
def bytesRead (log : List (Nat × Status)) : Nat :=
  ((log.filter (fun e => e.2.ok)).map Prod.fst).sum

/-- Where an in-memory source stands after the reads of its log, having
started as `r0`: the content is that of `r0`, the cursor is past the bytes read
with status OK and within the content, and the first read asked for 8 bytes. -/
def OffsetInv (r0 : StringStreamReader) (s : StringStreamReader × List (Nat × Status)) : Prop :=
  s.1.content_ = r0.content_ ∧ s.1.cur_ = r0.cur_ + bytesRead s.2 ∧
  s.1.cur_ ≤ s.1.content_.length ∧ ∀ e ∈ s.2.head?, e.1 = 8

/-- An iterator that has one record to hand back, whatever the overload: the
bytes `He`, and the messages `7`, `8` and `9` for message types that are
numbers.  Its state counts the calls. -/
def sampleIterator : PBIterator Nat Nat Nat Nat where
  next_tstring := fun reader offset _ => ⟨Status.OK, reader + 1, offset + 10, [72, 101]⟩
  next_Instance := fun reader offset _ => ⟨Status.OK, reader + 1, offset + 10, 7⟩
  next_Example := fun reader offset _ => ⟨Status.OK, reader + 1, offset + 10, 8⟩
  next_ExampleBatch := fun reader offset _ => ⟨Status.OK, reader + 1, offset + 10, 9⟩

/-- Message types that are numbers, with conversion functions that fail with
`InvalidArgument` and still write the converted message, the source plus 100. -/
def sampleMessages : Messages Nat Nat Nat where
  Instance_new := 0
  Example_new := 0
  ExampleBatch_new := 0
  ExampleToInstance := fun exa _ => (errors.InvalidArgument "conversion failed", exa, exa + 100)
  InstanceToExample := fun ins _ => (errors.InvalidArgument "conversion failed", ins, ins + 100)

/-- An iterator whose Example overload has a record to hand back, the message
`8`, and whose Instance overload fails with `OutOfRange`. -/
def exampleOnlyIterator : PBIterator Nat Nat Nat Nat where
  next_tstring := fun reader offset _ => ⟨Status.OK, reader + 1, offset + 10, [72, 101]⟩
  next_Instance := fun reader offset ins => ⟨errors.OutOfRange "no instance", reader, offset, ins⟩
  next_Example := fun reader offset _ => ⟨Status.OK, reader + 1, offset + 10, 8⟩
  next_ExampleBatch := fun reader offset _ => ⟨Status.OK, reader + 1, offset + 10, 9⟩

/-- The enumeration `InputCompressType`.  A value of the type is held by its
integer, which is what `static_cast<InputCompressType>(compression_type)`
makes of an `int32`. -/
structure InputCompressType where
  value : Int
  deriving DecidableEq, Repr

namespace InputCompressType

/-- The enumerator `UNKNOW = 0`. -/
def UNKNOW : InputCompressType := ⟨0⟩

/-- The enumerator `NO = 1`. -/
def NO : InputCompressType := ⟨1⟩

/-- The enumerator `SNAPPY = 2`. -/
def SNAPPY : InputCompressType := ⟨2⟩

/-- The enumerator `ZSTD = 3`. -/
def ZSTD : InputCompressType := ⟨3⟩

/-- The enumerator `ZLIB = 4`. -/
def ZLIB : InputCompressType := ⟨4⟩

/-- The enumerator `GZIP = 5`. -/
def GZIP : InputCompressType := ⟨5⟩

/-- The enumerator `MAX = 6`. -/
def MAX : InputCompressType := ⟨6⟩

end InputCompressType

/-- Static method `FileStreamReader::GetCompressType(use_snappy,
compression_type)`.  `Except.error` is the message of the `LOG(FATAL)` that ends
the process; `use_snappy` is printed as `1` there. -/
def GetCompressType (use_snappy : Bool) (compression_type : Int) :
    Except String InputCompressType :=
  if compression_type < InputCompressType.UNKNOW.value ∨
      compression_type ≥ InputCompressType.MAX.value then
    .error ("GetCompressType error : compression_type" ++ toString compression_type)
  else if use_snappy then
    if compression_type ≠ InputCompressType.SNAPPY.value ∧
        compression_type ≠ InputCompressType.UNKNOW.value then
      .error ("GetCompressType error: " ++ "1" ++ "," ++ toString compression_type)
    else .ok InputCompressType.SNAPPY
  else if compression_type = InputCompressType.UNKNOW.value then
    .ok InputCompressType.NO
  else .ok ⟨compression_type⟩

/-! ## Parquet reader: what the read paths keep, feature counts, sample runs; `Instance` and the conversion functions -/

/-- The reader `s` has the file, the selection and the row position of `s0`:
what the reads of the column buffers and the moves to a next row group leave
as it is. -/
def Kept (s0 s : ParquetExampleReader) : Prop :=
  s.file = s0.file ∧ s.selected_col_ids_ = s0.selected_col_ids_ ∧ s.iter_ = s0.iter_
  ∧ s.col_pure_name_map_ = s0.col_pure_name_map_

/-- The id of the named feature that `GetNextExample` emits for the selected
column of index `i`, when there is such a column. -/
def emittedId (ids : List Nat) (i : Nat) : Option Int :=
  (ids[i]?).map (fun col_id => (col_id : Int) + 10000)

/-- The reader `sampleRegistered` after `SetSelectedCols` with the three
columns as `int`, `fid_v1` and `bytes`. -/
def sampleSelected : ParquetExampleReader :=
  { sampleRegistered with
    selected_col_ids_ := [0, 1, 2]
    selected_col_feature_type_ := [.INT, .FIDV1, .BYTES] }

/-- The message that `GetNextExample` fills from `sampleReader` for the first
row of `sampleFile`. -/
def sampleFirstExample : Example :=
  ⟨[⟨.int64 1⟩], none,
    [⟨10001, "f", ⟨some .fid_v1_list, [.int64 7, .int64 8]⟩⟩,
     ⟨10002, "__SOME_FIELD__", ⟨some .bytes_list, [.byteArray [97]]⟩⟩]⟩

/-- The reader `sampleReader` after the first row. -/
def sampleReaderAfterRow : ParquetExampleReader :=
  { sampleReader with
    iter_ := 1
    col_buffers_ :=
      [⟨.INT64, ⟨[(Status.OK, [.int64 0])], errors.OutOfRange "end of column"⟩⟩,
       ⟨.INT64, ⟨[(Status.OK, [])], errors.OutOfRange "end of column"⟩⟩,
       ⟨.BYTE_ARRAY, ⟨[(Status.OK, [.byteArray [98]])], errors.OutOfRange "end of column"⟩⟩] }

/-- The number of row groups of the file from the one after the current one
on, counted by the index `row_group_id_ + 1` that `NextRowGroup` tests. -/
def rowGroupsLeft (s : ParquetExampleReader) : Nat :=
  if toInt64 (s.row_group_id_ + 1) < 0 then 0
  else ((s.file.row_groups.length : Int) - toInt64 (s.row_group_id_ + 1)).toNat

/-- The number of features of each named feature list of a batch, in order. -/
def featureCounts (example_batch : ExampleBatch) : List Nat :=
  example_batch.named_feature_list.map (fun l => l.feature.length)

/-- Modelled from the spec: one flat repeated feature slot of an `Instance`,
with its declared numeric id and its value list; "Instance has no name field".
The declaration of the message `parser::proto::Instance` is not in the
sources. -/
structure InstanceFeature where
  id : Int
  feature : Feature
  deriving DecidableEq, Repr

/-- Modelled from the spec: the message `Instance`, a "flat row with ungrouped
repeated feature lists (legacy)", with its label, its line-identifier fields and
its feature slots.  The declaration of the message `parser::proto::Instance` is
not in the sources. -/
structure Instance where
  label : List FloatOf
  line_id : Option (List (FieldDescriptor × Scalar))
  feature : List InstanceFeature
  deriving DecidableEq, Repr

/-- Modelled from the spec: function `InstanceToExample(instance, example)`,
which `data_reader.h` declares and `GetNext` calls; its body is not in the
sources.  "Each flat repeated feature slot becomes one `NamedFeature` keyed by
its declared numeric id (no name available, name left empty); label and
structured line-identifier fields map to the corresponding dedicated `Example`
sub-fields, not into the named-feature map."  The specification names no
failure of this direction.  Both messages are passed by pointer and handed
back. -/
def InstanceToExample (ins : Instance) (_ : Example) : Status × Instance × Example :=
  (Status.OK, ins,
    { label := ins.label
      line_id := ins.line_id
      named_feature := ins.feature.map (fun slot => ⟨slot.id, "", slot.feature⟩) })

/-- Modelled from the spec: function `ExampleToInstance(example, instance)`,
which `data_reader.h` declares and `GetNext` calls; its body is not in the
sources.  "The inverse — dedicated label/line-id fields flow back to their flat
Instance counterparts; named features lose their string name (Instance has no
name field) and keep only the numeric id; a feature whose id cannot be
represented in Instance's id space is an error."  Which ids Instance's id space
holds is left open there and is the argument `representable`; the error is
taken to be of the kind InvalidArgument and to leave `*instance` as it was. -/
def ExampleToInstance (representable : Int → Bool) (exa : Example) (ins : Instance) :
    Status × Example × Instance :=
  if exa.named_feature.all (fun named_feature => representable named_feature.id) then
    (Status.OK, exa,
      { label := exa.label
        line_id := exa.line_id
        feature := exa.named_feature.map
          (fun named_feature => ⟨named_feature.id, named_feature.feature⟩) })
  else
    (errors.InvalidArgument "feature id not representable in Instance", exa, ins)

/-- An `Instance` with a label, the line-id field `req_time` and two feature
slots. -/
def sampleInstance : Instance :=
  ⟨[⟨.float 1065353216⟩], some [(⟨"req_time", .CPPTYPE_INT64, false⟩, .int64 5)],
    [⟨3, ⟨some .fid_v1_list, [.int64 7, .int64 8]⟩⟩, ⟨4, ⟨some .float_list, [.float 0]⟩⟩]⟩

/-- The ids of an unsigned 64-bit id space. -/
def uint64Id (id : Int) : Bool := decide (0 ≤ id ∧ id < 2 ^ 64)

/-- Every read of the log returned OK. -/
def allOk (log : List (Nat × Status)) : Prop := ∀ e ∈ log, e.2.ok = true

/-- The last read of the log is the first that failed, and it returned `st`:
every read before it returned OK and none was made after it. -/
def FirstFailure (st : Status) (log : List (Nat × Status)) : Prop :=
  ∃ (pre : List (Nat × Status)) (n : Nat), log = pre ++ [(n, st)] ∧ allOk pre

/-- What the log of a logged source says about an outcome: with an OK status
every read returned OK, with another status the last read is the first
failing one and returned that very status. -/
def LogInv {σ α : Type} (x : OutcomeOn (σ × List (Nat × Status)) α) : Prop :=
  match x with
  | .done st _ s => if st.ok then allOk s.2 else FirstFailure st s.2
  | .undefined => True
  | .fatal _ => True

/-! ## Basic facts -/

theorem EncodeFixed64_length (v : Nat) : (EncodeFixed64 v).length = 8 := rfl

theorem DecodeFixed64_EncodeFixed64 (v : Nat) (hv : v < 2 ^ 64) (rest : Bytes) :
    DecodeFixed64 (EncodeFixed64 v ++ rest) = v := by
  simp only [EncodeFixed64, DecodeFixed64, List.cons_append, List.take_succ_cons, List.take_zero,
    List.foldr_cons, List.foldr_nil, Fin.ofNat, Fin.val_mk]
  omega

theorem readerAt_zero (content : Bytes) : readerAt [] content = StringStreamReader.mk0 content := rfl

theorem ReadNBytes_readerAt (a x b : Bytes) (res : Bytes)
    (hlen : a.length + x.length + b.length < 2 ^ 63) :
    (readerAt a (x ++ b)).ReadNBytes x.length res
      = .done Status.OK x (readerAt (a ++ x) b) := by
  have h4 : (a.length + x.length) % 2 ^ 64 = a.length + x.length := by omega
  unfold StringStreamReader.ReadNBytes readerAt
  simp only [List.length_append]
  rw [if_neg (by omega), if_neg (by omega), if_pos (by omega), h4]
  simp

theorem ReadBinarySize_readerAt (a b : Bytes) (v size : Nat) (hv : v < 2 ^ 64)
    (hlen : a.length + 8 + b.length < 2 ^ 63) :
    ReadBinarySize (readerAt a (EncodeFixed64 v ++ b)) size
      = .done Status.OK v (readerAt (a ++ EncodeFixed64 v) b) := by
  have h := ReadNBytes_readerAt a (EncodeFixed64 v) b [] (by simpa [EncodeFixed64_length] using hlen)
  rw [EncodeFixed64_length] at h
  have hd := DecodeFixed64_EncodeFixed64 v hv []
  simp only [List.append_nil] at hd
  simp [ReadBinarySize, h, Status.ok, Status.OK, hd]

theorem lgx_pb_type_eq (v : Nat) : (v &&& 0xff) % 2 ^ 8 = v % 256 := by
  have h := Nat.and_pow_two_sub_one_eq_mod v 8
  norm_num at h
  rw [h]
  omega

theorem lgx_source_eq (v : Nat) :
    (((v % 2 ^ 32) >>> 8) <<< 8) % 2 ^ 32 = v % 2 ^ 32 / 256 * 256 := by
  have hw : v % 2 ^ 32 < 2 ^ 32 := Nat.mod_lt _ (by norm_num)
  generalize v % 2 ^ 32 = w at hw ⊢
  rw [Nat.shiftRight_eq_div_pow, Nat.shiftLeft_eq]
  omega

theorem ReadDataHeader_wireHeader (o : DataFormatOptions) (f : FrameFields) (a b : Bytes)
    (out : HeaderOut) (hv : wireValid o f)
    (hlen : a.length + (wireHeader o f).length + b.length < 2 ^ 63) :
    ReadDataHeader o (readerAt a (wireHeader o f ++ b)) out
      = .done Status.OK (headerOut o f.header out) (readerAt (a ++ wireHeader o f) b) := by
  obtain ⟨lg, kp, hs, kd⟩ := o
  obtain ⟨header, prefixLen, freshLen, sortId, trailingLen, payload⟩ := f
  obtain ⟨h1, h2, h3, h4, h5⟩ := hv
  by_cases hp : prefixLen = 0
  · subst hp
    cases lg <;> cases kp <;> cases hs <;> cases kd <;>
      simp only [wireHeader, ReadDataHeader, headerOut, lgx_pb_type_eq, lgx_source_eq, if_true, if_false, Bool.false_eq_true,
        true_and, false_and, ne_eq, not_true_eq_false, not_false_eq_true, List.append_nil,
        List.nil_append, List.append_assoc, List.length_append, EncodeFixed64_length,
        List.length_nil, forall_const, false_implies, implies_true] at h5 hlen ⊢ <;>
      simp (disch := ((try simp only [List.length_append, EncodeFixed64_length] at *); omega))
        [ReadBinarySize_readerAt, ReadNBytes_readerAt, Status.ok, Status.OK]
  · cases lg <;> cases kp <;> cases hs <;> cases kd <;>
      simp only [wireHeader, ReadDataHeader, headerOut, lgx_pb_type_eq, lgx_source_eq, hp, if_true, if_false, Bool.false_eq_true,
        true_and, false_and, ne_eq, not_true_eq_false, not_false_eq_true, List.append_nil,
        List.nil_append, List.append_assoc, List.length_append, EncodeFixed64_length,
        List.length_nil, forall_const, false_implies, implies_true] at h5 hlen ⊢ <;>
      (try subst h5) <;>
      simp (disch := ((try simp only [List.length_append, EncodeFixed64_length] at *); omega))
        [ReadBinarySize_readerAt, ReadNBytes_readerAt, Status.ok, Status.OK, hp]

theorem ReadPBBytes_wireFrame (o : DataFormatOptions) (f : FrameFields) (a rest : Bytes)
    (out : PBOut) (hv : wireValid o f) (hL : f.payload.length ≠ 0xfefefefe)
    (hlen : a.length + (wireFrame o f).length + rest.length < 2 ^ 63) :
    ReadPBBytes o (readerAt a (wireFrame o f ++ rest)) out
      = .done Status.OK
          ⟨(headerOut o f.header ⟨out.pb_type, out.data_source_key⟩).pb_type,
           (headerOut o f.header ⟨out.pb_type, out.data_source_key⟩).data_source_key,
           f.payload⟩
          (readerAt (a ++ wireFrame o f) rest) := by
  simp only [wireFrame, List.length_append, EncodeFixed64_length] at hlen
  have hh := ReadDataHeader_wireHeader o f a
    (EncodeFixed64 f.payload.length ++ (f.payload ++ rest)) ⟨out.pb_type, out.data_source_key⟩ hv
    (by simp only [List.length_append, EncodeFixed64_length]; omega)
  have hs := ReadBinarySize_readerAt (a ++ wireHeader o f) (f.payload ++ rest) f.payload.length 0
    (by omega) (by simp only [List.length_append]; omega)
  have hp := ReadNBytes_readerAt (a ++ wireHeader o f ++ EncodeFixed64 f.payload.length)
    f.payload rest out.record
    (by simp only [List.length_append, EncodeFixed64_length]; omega)
  simp only [ReadPBBytes, wireFrame, List.append_assoc] at hh hs hp ⊢
  rw [hh]
  simp only [Status.ok, Status.OK, beq_self_eq_true, Bool.not_true, Bool.false_eq_true, if_false]
  simp only [Status.OK] at hs hp
  rw [hs]
  simp only [beq_self_eq_true, Bool.not_true, Bool.false_eq_true, if_false, if_neg hL]
  rw [hp]

theorem ReadNBytes_ok_of_le (r : StringStreamReader) (n : Nat) (res : Bytes)
    (h1 : r.cur_ + n ≤ r.content_.length) (h2 : r.content_.length < 2 ^ 63) :
    r.ReadNBytes n res
      = .done Status.OK ((r.content_.drop r.cur_).take n) ⟨r.content_, r.cur_ + n⟩ := by
  have h4 : (r.cur_ + n) % 2 ^ 64 = r.cur_ + n := by omega
  unfold StringStreamReader.ReadNBytes
  rw [if_neg (by omega), if_neg (by omega), if_pos (by omega), h4]

theorem ReadNBytes_fail_of_gt (r : StringStreamReader) (n : Nat) (res : Bytes)
    (h1 : r.content_.length < r.cur_ + n) (h2 : r.cur_ + n < 2 ^ 64) :
    r.ReadNBytes n res = .done (errors.FailedPrecondition "request n error") res r := by
  have h4 : (r.cur_ + n) % 2 ^ 64 = r.cur_ + n := by omega
  unfold StringStreamReader.ReadNBytes
  rw [if_pos (by omega)]

/-- The `OutOfRange` branch of `ReadNBytes` is not reached by a request whose
end `cur_ + n` fits in 64 bits: the earlier test `cur_ + n > content_.size()`
already holds whenever `n > 0 && cur_ == content_.size()`. -/
theorem ReadNBytes_code_ne_OUT_OF_RANGE (r : StringStreamReader) (n : Nat) (res : Bytes)
    (hn : r.cur_ + n < 2 ^ 64) (st : Status) (out : Bytes) (r1 : StringStreamReader)
    (h : r.ReadNBytes n res = .done st out r1) : st.code ≠ Code.OUT_OF_RANGE := by
  have h4 : (r.cur_ + n) % 2 ^ 64 = r.cur_ + n := by omega
  unfold StringStreamReader.ReadNBytes at h
  rw [h4] at h
  split_ifs at h with h1 h2 h3
  · cases h; simp [errors.FailedPrecondition]
  · omega
  · cases h; simp [Status.OK]

theorem ReadNBytes_done_ok (r : StringStreamReader) (n : Nat) (res : Bytes) (st : Status)
    (out : Bytes) (r1 : StringStreamReader) (hsize : r.content_.length < 2 ^ 63)
    (h : r.ReadNBytes n res = .done st out r1) (hok : st.ok = true) :
    st = Status.OK ∧ out = (r.content_.drop r.cur_).take n ∧ r1 = ⟨r.content_, r.cur_ + n⟩ ∧
      r.cur_ + n ≤ r.content_.length := by
  unfold StringStreamReader.ReadNBytes at h
  split_ifs at h with h1 h2 h3
  · cases h; exact absurd hok (by decide)
  · cases h; exact absurd hok (by decide)
  · have h4 : (r.cur_ + n) % 2 ^ 64 = r.cur_ + n := by omega
    rw [h4] at h
    cases h
    exact ⟨rfl, rfl, rfl, h3.2⟩

theorem ReadBinarySize_done_ok (r : StringStreamReader) (size : Nat) (st : Status)
    (v : Nat) (r1 : StringStreamReader) (hsize : r.content_.length < 2 ^ 63)
    (h : ReadBinarySize r size = .done st v r1) (hok : st.ok = true) :
    st = Status.OK ∧ v = DecodeFixed64 ((r.content_.drop r.cur_).take 8) ∧
      r1 = ⟨r.content_, r.cur_ + 8⟩ ∧ r.cur_ + 8 ≤ r.content_.length := by
  unfold ReadBinarySize at h
  cases h1 : r.ReadNBytes 8 [] with
  | undefined => rw [h1] at h; cases h
  | done st1 x r2 =>
    rw [h1] at h
    by_cases hst1 : st1.ok = true
    · obtain ⟨-, rfl, rfl, h5⟩ := ReadNBytes_done_ok r 8 [] st1 x r2 hsize h1 hst1
      simp only [hst1, if_true] at h
      cases h
      exact ⟨rfl, rfl, rfl, h5⟩
    · simp only [hst1, if_false] at h
      cases h
      exact absurd hok hst1

theorem EncodeFixed64_DecodeFixed64 (x : Bytes) (hx : x.length = 8) :
    EncodeFixed64 (DecodeFixed64 x) = x ∧ DecodeFixed64 x < 2 ^ 64 := by
  match x, hx with
  | [b0, b1, b2, b3, b4, b5, b6, b7], _ =>
    have h0 := b0.isLt
    have h1 := b1.isLt
    have h2 := b2.isLt
    have h3 := b3.isLt
    have h4 := b4.isLt
    have h5 := b5.isLt
    have h6 := b6.isLt
    have h7 := b7.isLt
    simp only [EncodeFixed64, DecodeFixed64, List.take_succ_cons, List.take_zero,
      List.foldr_cons, List.foldr_nil, Fin.ofNat, List.cons.injEq, and_true, Fin.ext_iff]
    omega

/-! ## Framing with all flags off -/

/-- C1: with all four framing flags false, for every payload of length
`L ≠ 0xfefefefe` and every trailing byte string `rest`, `ReadPBBytes` on an
in-memory reader over `LE64(L) ++ payload ++ rest` placed at offset 0 returns
OK with `pb_type = 0`, the record equal to the payload, and the offset at
`8 + L`.  The content is a byte string that `tstring` can hold (shorter than
`2 ^ 63`). -/
theorem ReadPBBytes_plain_frame (payload rest : Bytes) (out : PBOut)
    (hL : payload.length ≠ 0xfefefefe)
    (hlen : 8 + payload.length + rest.length < 2 ^ 63) :
    ∃ r : StringStreamReader,
      ReadPBBytes ⟨false, false, false, false⟩
          (StringStreamReader.mk0 (EncodeFixed64 payload.length ++ payload ++ rest)) out
        = .done Status.OK ⟨0, out.data_source_key, payload⟩ r
      ∧ r.GetOffset = 8 + payload.length
      ∧ r.content_ = EncodeFixed64 payload.length ++ payload ++ rest := by
  have h := ReadPBBytes_wireFrame ⟨false, false, false, false⟩ ⟨0, 0, 0, [], 0, payload⟩ [] rest out
    (by simp [wireValid]) hL
    (by simp [wireFrame, wireHeader, EncodeFixed64_length]; omega)
  simp only [wireFrame, wireHeader, headerOut, readerAt_zero, if_false, Bool.false_eq_true,
    List.nil_append, List.append_nil] at h
  refine ⟨readerAt (EncodeFixed64 payload.length ++ payload) rest, h, ?_, ?_⟩
  · simp [readerAt, StringStreamReader.GetOffset, EncodeFixed64_length]
  · simp [readerAt]

/-- Witness of C1: the bytes `[5,0,0,0,0,0,0,0,'H','e','l','l','o']` give the
payload "Hello". -/
theorem ReadPBBytes_plain_frame_witness :
    ∃ r : StringStreamReader,
      ReadPBBytes ⟨false, false, false, false⟩
          (StringStreamReader.mk0 [5, 0, 0, 0, 0, 0, 0, 0, 72, 101, 108, 108, 111]) ⟨9, 7, []⟩
        = .done Status.OK ⟨0, 7, [72, 101, 108, 108, 111]⟩ r
      ∧ r.GetOffset = 13
      ∧ r.content_ = [5, 0, 0, 0, 0, 0, 0, 0, 72, 101, 108, 108, 111] :=
  ReadPBBytes_plain_frame [72, 101, 108, 108, 111] [] ⟨9, 7, []⟩ (by decide) (by decide)

/-! ## The legacy header -/

/-- C4 (counterexample): for the header value `0x0000000100000102` the code
gives `data_source_key = 0x100`, while the value with its low byte cleared,
`(v >> 8) << 8`, is `0x100000100`. -/
theorem ReadDataHeader_lagrangex_high_bits :
    ReadDataHeader ⟨true, false, false, false⟩
        (StringStreamReader.mk0 (EncodeFixed64 0x0000000100000102)) ⟨0, 0⟩
      = .done Status.OK ⟨0x02, 0x100⟩ ⟨EncodeFixed64 0x0000000100000102, 8⟩
    ∧ (0x0000000100000102 >>> 8) <<< 8 = 0x100000100
    ∧ (0x100 : Nat) ≠ (0x0000000100000102 >>> 8) <<< 8 := by
  decide

/-- C4 (amended): with `lagrangex_header` set, for every 8-byte little-endian
header value `v` that `ReadDataHeader` reads, `pb_type = v & 0xff` (byte 0)
and `data_source_key` is the low 32 bits of `v` with the low byte cleared,
`((v mod 2^32) >> 8) << 8`; this is `(v >> 8) << 8` when `v < 2^32`. -/
theorem ReadDataHeader_lagrangex_decode (kp hs kd : Bool) (v : Nat) (a b : Bytes)
    (out : HeaderOut) (hv : v < 2 ^ 64) (hlen : a.length + 8 + b.length < 2 ^ 63) :
    ReadDataHeader ⟨true, kp, hs, kd⟩ (readerAt a (EncodeFixed64 v ++ b)) out
      = .done Status.OK ⟨v &&& 0xff, ((v % 2 ^ 32) >>> 8) <<< 8⟩
          (readerAt (a ++ EncodeFixed64 v) b)
    ∧ v &&& 0xff = v % 256
    ∧ ((v % 2 ^ 32) >>> 8) <<< 8 = v % 2 ^ 32 / 256 * 256
    ∧ (v < 2 ^ 32 → ((v % 2 ^ 32) >>> 8) <<< 8 = (v >>> 8) <<< 8) := by
  have e1 : v &&& 0xff = v % 256 := by
    have h := Nat.and_pow_two_sub_one_eq_mod v 8
    norm_num at h
    exact h
  have e2 : ((v % 2 ^ 32) >>> 8) <<< 8 = v % 2 ^ 32 / 256 * 256 := by
    have h := lgx_source_eq v
    omega
  have h := ReadDataHeader_wireHeader ⟨true, kp, hs, kd⟩ ⟨v, 0, 0, [], 0, []⟩ a b out
    ⟨hv, by norm_num, by norm_num, by norm_num, by simp⟩
    (by simp [wireHeader, EncodeFixed64_length]; omega)
  simp only [wireHeader, headerOut, if_true] at h
  refine ⟨?_, e1, e2, ?_⟩
  · rw [h, e1, e2]
  · intro hlt
    rw [Nat.mod_eq_of_lt hlt]

/-- Witness of C4 (amended): `v = 0x0000000000000102` gives `pb_type = 0x02`
and `data_source_key = 0x100`. -/
theorem ReadDataHeader_lagrangex_decode_witness :
    ReadDataHeader ⟨true, false, false, false⟩ (readerAt [] (EncodeFixed64 0x0000000000000102 ++ []))
        ⟨0, 0⟩
      = .done Status.OK ⟨0x0000000000000102 &&& 0xff, ((0x0000000000000102 % 2 ^ 32) >>> 8) <<< 8⟩
          (readerAt ([] ++ EncodeFixed64 0x0000000000000102) [])
    ∧ 0x0000000000000102 &&& 0xff = 0x0000000000000102 % 256
    ∧ ((0x0000000000000102 % 2 ^ 32) >>> 8) <<< 8 = 0x0000000000000102 % 2 ^ 32 / 256 * 256
    ∧ (0x0000000000000102 < 2 ^ 32 →
        ((0x0000000000000102 % 2 ^ 32) >>> 8) <<< 8 = (0x0000000000000102 >>> 8) <<< 8) :=
  ReadDataHeader_lagrangex_decode false false false 0x0000000000000102 [] [] ⟨0, 0⟩
    (by decide) (by decide)

/-! ## The data source key without the legacy header -/

/-- With `lagrangex_header` false no path of `ReadDataHeader` assigns
`*data_source_key`: whatever the status, the value handed back is the one the
caller's variable held. -/
theorem ReadDataHeader_data_source_key_kept (kp hs kd : Bool) (r : StringStreamReader)
    (out : HeaderOut) (st : Status) (h : HeaderOut) (r1 : StringStreamReader)
    (hh : ReadDataHeader ⟨false, kp, hs, kd⟩ r out = .done st h r1) :
    h.data_source_key = out.data_source_key := by
  simp only [ReadDataHeader, Bool.false_eq_true, if_false] at hh
  repeat' split at hh
  all_goals first
    | (cases hh; rfl)
    | (exact absurd hh (by simp))

/-- C6 (evaluation at the failing input): all flags false, content
`LE64(5) ++ "Hello"`, and the caller's `data_source_key` variable holding 7:
`ReadPBBytes` returns OK and `data_source_key` is still 7, not 0. -/
theorem ReadPBBytes_data_source_key_not_reset :
    ReadPBBytes ⟨false, false, false, false⟩
        (StringStreamReader.mk0 [5, 0, 0, 0, 0, 0, 0, 0, 72, 101, 108, 108, 111]) ⟨3, 7, []⟩
      = .done Status.OK ⟨0, 7, [72, 101, 108, 108, 111]⟩
          ⟨[5, 0, 0, 0, 0, 0, 0, 0, 72, 101, 108, 108, 111], 13⟩
    ∧ (7 : Nat) ≠ 0 := by
  decide

/-- C5: when `lagrangex_header` is true the flags `kafka_dump_prefix`,
`has_sort_id` and `kafka_dump` have no effect: for every content (a byte
string that `tstring` can hold) and every starting offset, `ReadPBBytes`
yields the same outcome (status, `pb_type`, `data_source_key`, record and
final offset) under all settings of the three flags; and whenever it returns
OK, the bytes consumed from the starting offset are
`header(8) ++ payloadLen(8) ++ payload`, with `pb_type` and `data_source_key`
decoded from the header; and every such frame at the cursor is read with OK. -/
theorem ReadPBBytes_lagrangex_ignores_flags (kp hs kd kp2 hs2 kd2 : Bool)
    (r : StringStreamReader) (out : PBOut) (hsize : r.content_.length < 2 ^ 63) :
    ReadPBBytes ⟨true, kp, hs, kd⟩ r out = ReadPBBytes ⟨true, kp2, hs2, kd2⟩ r out
    ∧ (∀ (st : Status) (res : PBOut) (r1 : StringStreamReader),
        ReadPBBytes ⟨true, kp, hs, kd⟩ r out = .done st res r1 → st.ok = true →
        ∃ header : Nat, header < 2 ^ 64 ∧
          (r.content_.drop r.cur_).take (8 + (8 + res.record.length))
            = EncodeFixed64 header ++ (EncodeFixed64 res.record.length ++ res.record)
          ∧ r1 = ⟨r.content_, r.cur_ + (8 + (8 + res.record.length))⟩
          ∧ res.pb_type = header % 256
          ∧ res.data_source_key = header % 2 ^ 32 / 256 * 256)
    ∧ (∀ (header : Nat) (payload rest : Bytes), header < 2 ^ 64 →
        payload.length ≠ 0xfefefefe → r.cur_ ≤ r.content_.length →
        r.content_.drop r.cur_
          = EncodeFixed64 header ++ (EncodeFixed64 payload.length ++ (payload ++ rest)) →
        ReadPBBytes ⟨true, kp, hs, kd⟩ r out
          = .done Status.OK ⟨header % 256, header % 2 ^ 32 / 256 * 256, payload⟩
              ⟨r.content_, r.cur_ + (8 + (8 + payload.length))⟩) := by
  refine ⟨by simp [ReadPBBytes, ReadDataHeader], ?_, ?_⟩
  · intro st res r1 h hok
    simp only [ReadPBBytes, ReadDataHeader, if_true] at h
    cases h1 : ReadBinarySize r 0 with
    | undefined => rw [h1] at h; cases h
    | done st1 v1 ra =>
      rw [h1] at h
      by_cases hst1 : st1.ok = true
      · obtain ⟨-, hv1, rfl, hle1⟩ := ReadBinarySize_done_ok r 0 st1 v1 ra hsize h1 hst1
        have hst1c : (st1.code == Code.OK) = true := hst1
        simp only [Status.ok, hst1c, Bool.not_true, Bool.false_eq_true, if_false, Status.OK,
          beq_self_eq_true] at h
        cases h2 : ReadBinarySize ⟨r.content_, r.cur_ + 8⟩ 0 with
        | undefined => rw [h2] at h; cases h
        | done st2 v2 rb =>
          rw [h2] at h
          by_cases hst2 : st2.ok = true
          · obtain ⟨-, hv2, rfl, hle2⟩ :=
              ReadBinarySize_done_ok ⟨r.content_, r.cur_ + 8⟩ 0 st2 v2 rb hsize h2 hst2
            have hst2c : (st2.code == Code.OK) = true := hst2
            simp only [hst2c, Bool.not_true, Bool.false_eq_true, if_false] at h
            by_cases hsent : v2 = 0xfefefefe
            · simp only [hsent, if_true] at h
              cases h
              exact absurd hok (by decide)
            · simp only [hsent, if_false] at h
              cases h3 : StringStreamReader.ReadNBytes ⟨r.content_, r.cur_ + 8 + 8⟩ v2 out.record with
              | undefined => rw [h3] at h; cases h
              | done st3 rec rc =>
                rw [h3] at h
                cases h
                obtain ⟨-, hrec, rfl, hle3⟩ :=
                  ReadNBytes_done_ok ⟨r.content_, r.cur_ + 8 + 8⟩ v2 out.record st rec _ hsize h3 hok
                simp only at hv2 hle2 hrec hle3 hv1
                have hl1 : ((r.content_.drop r.cur_).take 8).length = 8 := by
                  simp only [List.length_take, List.length_drop]; omega
                have hl2 : ((r.content_.drop (r.cur_ + 8)).take 8).length = 8 := by
                  simp only [List.length_take, List.length_drop]; omega
                have hl3 : rec.length = v2 := by
                  rw [hrec]; simp only [List.length_take, List.length_drop]; omega
                have he1 := EncodeFixed64_DecodeFixed64 _ hl1
                have he2 := EncodeFixed64_DecodeFixed64 _ hl2
                refine ⟨v1, by rw [hv1]; exact he1.2, ?_, ?_, ?_, ?_⟩
                · simp only [hl3]
                  rw [List.take_add, List.take_add, List.drop_drop, List.drop_drop, hv1, he1.1,
                    hrec, hv2, he2.1]
                · simp only [hl3, Nat.add_assoc]
                · exact lgx_pb_type_eq v1
                · exact lgx_source_eq v1
          · have hst2c : (st2.code == Code.OK) = false := by
              simpa [Status.ok] using hst2
            simp only [hst2c, Bool.not_false, if_true] at h
            cases h
            exact absurd hok hst2
      · have hst1c : (st1.code == Code.OK) = false := by
          simpa [Status.ok] using hst1
        simp only [Status.ok, hst1c, Bool.not_false, if_true] at h
        cases h
        exact absurd hok hst1
  · intro header payload rest hh hL hcur hdrop
    have hc : r = readerAt (r.content_.take r.cur_)
        (wireFrame ⟨true, kp, hs, kd⟩ ⟨header, 0, 0, [], 0, payload⟩ ++ rest) := by
      obtain ⟨c, cur⟩ := r
      simp only [readerAt, wireFrame, wireHeader, if_true, List.append_assoc] at hdrop ⊢
      rw [← hdrop, List.take_append_drop, List.length_take]
      simp only at hcur
      rw [Nat.min_eq_left hcur]
    have hlen : r.content_.length = r.cur_ + (8 + (8 + (payload.length + rest.length))) := by
      have := congrArg List.length hdrop
      simp only [List.length_drop, List.length_append, EncodeFixed64_length] at this
      omega
    have htake : (r.content_.take r.cur_).length = r.cur_ := by
      rw [List.length_take, Nat.min_eq_left hcur]
    have h := ReadPBBytes_wireFrame ⟨true, kp, hs, kd⟩ ⟨header, 0, 0, [], 0, payload⟩
      (r.content_.take r.cur_) rest out ⟨hh, by norm_num, by norm_num, by norm_num, by simp⟩ hL
      (by simp only [wireFrame, wireHeader, if_true, List.length_append, EncodeFixed64_length,
            htake]; omega)
    rw [← hc] at h
    rw [h]
    simp only [headerOut, if_true, readerAt, wireFrame, wireHeader, List.append_assoc,
      List.length_append, EncodeFixed64_length, htake]
    rw [← hdrop, List.take_append_drop]

/-- Witness of C5: the frame `header = 0x102, payloadLen = 2, "Hi"` is read
alike with the three flags all set and all clear, as `pb_type = 2`,
`data_source_key = 0x100`, record "Hi" and final offset 18. -/
theorem ReadPBBytes_lagrangex_ignores_flags_witness :
    ReadPBBytes ⟨true, true, true, true⟩
        ⟨[2, 1, 0, 0, 0, 0, 0, 0, 2, 0, 0, 0, 0, 0, 0, 0, 72, 105], 0⟩ ⟨9, 7, []⟩
      = ReadPBBytes ⟨true, false, false, false⟩
          ⟨[2, 1, 0, 0, 0, 0, 0, 0, 2, 0, 0, 0, 0, 0, 0, 0, 72, 105], 0⟩ ⟨9, 7, []⟩
    ∧ ReadPBBytes ⟨true, true, true, true⟩
        ⟨[2, 1, 0, 0, 0, 0, 0, 0, 2, 0, 0, 0, 0, 0, 0, 0, 72, 105], 0⟩ ⟨9, 7, []⟩
      = .done Status.OK ⟨2, 0x100, [72, 105]⟩
          ⟨[2, 1, 0, 0, 0, 0, 0, 0, 2, 0, 0, 0, 0, 0, 0, 0, 72, 105], 18⟩ :=
  have h := ReadPBBytes_lagrangex_ignores_flags true true true false false false
    ⟨[2, 1, 0, 0, 0, 0, 0, 0, 2, 0, 0, 0, 0, 0, 0, 0, 72, 105], 0⟩ ⟨9, 7, []⟩ (by decide)
  ⟨h.1, h.2.2 0x102 [72, 105] [] (by decide) (by decide) (by decide) (by decide)⟩

/-! ## The in-memory reader -/

/-- C7: for the in-memory reader, for every content (a byte string that
`tstring` can hold), every cursor `cur ≤ size` and every `n` with `cur + n`
not overflowing 64 bits: when `cur + n ≤ size`, `ReadNBytes(n)` returns OK
with exactly the `n` bytes `content[cur .. cur+n)` and the cursor becomes
`cur + n`; when `cur + n > size` it fails, and the cursor, the content and
the caller's result are unchanged.  So it succeeds exactly when
`cur + n ≤ size`. -/
theorem ReadNBytes_exact_or_unchanged (r : StringStreamReader) (n : Nat) (res : Bytes)
    (hcur : r.cur_ ≤ r.content_.length) (hsize : r.content_.length < 2 ^ 63)
    (hn : r.cur_ + n < 2 ^ 64) :
    (r.cur_ + n ≤ r.content_.length →
      ∃ out : Bytes,
        r.ReadNBytes n res = .done Status.OK out ⟨r.content_, r.cur_ + n⟩ ∧
        out.length = n ∧ ∀ i, i < n → out[i]? = r.content_[r.cur_ + i]?) ∧
    (r.content_.length < r.cur_ + n →
      ∃ st : Status, st.ok = false ∧ r.ReadNBytes n res = .done st res r) := by
  constructor
  · intro h
    refine ⟨(r.content_.drop r.cur_).take n, ReadNBytes_ok_of_le r n res h hsize, ?_, ?_⟩
    · simp only [List.length_take, List.length_drop]; omega
    · intro i hi
      rw [List.getElem?_take_of_lt hi, List.getElem?_drop]
  · intro h
    exact ⟨_, by decide, ReadNBytes_fail_of_gt r n res h hn⟩

/-- Witness of C7: reading 2 bytes at cursor 1 of a 3-byte content. -/
theorem ReadNBytes_exact_or_unchanged_witness :
    ((1 + 2 ≤ ([1, 2, 3] : Bytes).length →
      ∃ out : Bytes,
        (⟨[1, 2, 3], 1⟩ : StringStreamReader).ReadNBytes 2 [] = .done Status.OK out ⟨[1, 2, 3], 1 + 2⟩ ∧
        out.length = 2 ∧ ∀ i, i < 2 → out[i]? = ([1, 2, 3] : Bytes)[1 + i]?) ∧
    (([1, 2, 3] : Bytes).length < 1 + 2 →
      ∃ st : Status, st.ok = false ∧
        (⟨[1, 2, 3], 1⟩ : StringStreamReader).ReadNBytes 2 [] = .done st [] ⟨[1, 2, 3], 1⟩)) :=
  ReadNBytes_exact_or_unchanged ⟨[1, 2, 3], 1⟩ 2 [] (by decide) (by decide) (by decide)

/-- C8 (evaluation at the failing input): after the one frame of the content
`LE64(3) ++ "abc"` has been read, the reader stands at the end of the content,
and the next 8-byte read returns `FailedPrecondition`, whose code is not
`OUT_OF_RANGE`. -/
theorem ReadNBytes_at_end_is_FailedPrecondition :
    ReadPBBytes ⟨false, false, false, false⟩
        (StringStreamReader.mk0 [3, 0, 0, 0, 0, 0, 0, 0, 97, 98, 99]) ⟨0, 0, []⟩
      = .done Status.OK ⟨0, 0, [97, 98, 99]⟩ ⟨[3, 0, 0, 0, 0, 0, 0, 0, 97, 98, 99], 11⟩
    ∧ (⟨[3, 0, 0, 0, 0, 0, 0, 0, 97, 98, 99], 11⟩ : StringStreamReader).ReadNBytes 8 []
      = .done (errors.FailedPrecondition "request n error") []
          ⟨[3, 0, 0, 0, 0, 0, 0, 0, 97, 98, 99], 11⟩
    ∧ (errors.FailedPrecondition "request n error").code ≠ Code.OUT_OF_RANGE := by
  decide

/-- C9 (counterexample): with all four flags false and a content of only 4
bytes, `ReadPBBytes` returns `FailedPrecondition`, whose code is not
`OUT_OF_RANGE`, the code of the clean end-of-stream class. -/
theorem ReadPBBytes_four_bytes_not_OutOfRange :
    ReadPBBytes ⟨false, false, false, false⟩ (StringStreamReader.mk0 [5, 0, 0, 0]) ⟨9, 7, [1]⟩
      = .done (errors.FailedPrecondition "request n error") ⟨0, 7, [1]⟩
          (StringStreamReader.mk0 [5, 0, 0, 0])
    ∧ (errors.FailedPrecondition "request n error").code ≠ Code.OUT_OF_RANGE := by
  decide

/-- C9 (amended): with all four flags false, `ReadPBBytes` on an in-memory
reader that has at least one and fewer than 8 bytes left fails with
`FailedPrecondition`; no record is returned (the caller's record is as it
was) and the reader is unchanged. -/
theorem ReadPBBytes_short_length_field (r : StringStreamReader) (out : PBOut)
    (h1 : r.cur_ < r.content_.length) (h2 : r.content_.length < r.cur_ + 8)
    (hsize : r.content_.length < 2 ^ 63) :
    ReadPBBytes ⟨false, false, false, false⟩ r out
      = .done (errors.FailedPrecondition "request n error")
          ⟨0, out.data_source_key, out.record⟩ r := by
  have h := ReadNBytes_fail_of_gt r 8 [] h2 (by omega)
  simp [ReadPBBytes, ReadDataHeader, ReadBinarySize, h, Status.ok, Status.OK,
    errors.FailedPrecondition]

/-- Witness of C9 (amended): four bytes left of a length field. -/
theorem ReadPBBytes_short_length_field_witness :
    ReadPBBytes ⟨false, false, false, false⟩ ⟨[5, 0, 0, 0], 0⟩ ⟨9, 7, [1]⟩
      = .done (errors.FailedPrecondition "request n error") ⟨0, 7, [1]⟩ ⟨[5, 0, 0, 0], 0⟩ :=
  ReadPBBytes_short_length_field ⟨[5, 0, 0, 0], 0⟩ ⟨9, 7, [1]⟩ (by decide) (by decide) (by decide)

/-! ## Round trip of a frame -/

theorem specFrame_eq_wireFrame (o : DataFormatOptions) (f : FrameFields)
    (h : ¬ (DataFormatOptions.kafka_dump_prefix o = true ∧ o.has_sort_id = true ∧ f.prefixLen = 0)) :
    specFrame o f = wireFrame o f := by
  obtain ⟨lg, kp, hs, kd⟩ := o
  by_cases hp : f.prefixLen = 0 <;>
  cases lg <;> cases kp <;> cases hs <;> cases kd <;>
    simp [specFrame, wireFrame, wireHeader, hp] at h ⊢

/-- C2 (counterexample): with `kafka_dump_prefix` and `has_sort_id` set, the
frame `prefixLen = 0, freshLen = 1, sortId = [1], payloadLen = 5, "Hello"`
written per the wire layout of the spec is valid, and `ReadPBBytes` does not
return its payload: after the fresh length the reader takes the next 8 bytes
as one more length field and fails with `FailedPrecondition`. -/
theorem ReadPBBytes_specFrame_zero_prefix_fails :
    specFrame ⟨false, true, true, false⟩ ⟨0, 0, 1, [1], 0, [72, 101, 108, 108, 111]⟩
      = [0, 0, 0, 0, 0, 0, 0, 0, 1, 0, 0, 0, 0, 0, 0, 0, 1, 5, 0, 0, 0, 0, 0, 0, 0,
         72, 101, 108, 108, 111]
    ∧ specValid ⟨false, true, true, false⟩ ⟨0, 0, 1, [1], 0, [72, 101, 108, 108, 111]⟩
    ∧ ReadPBBytes ⟨false, true, true, false⟩
        (StringStreamReader.mk0
          (specFrame ⟨false, true, true, false⟩ ⟨0, 0, 1, [1], 0, [72, 101, 108, 108, 111]⟩))
        ⟨0, 0, []⟩
      = .done (errors.FailedPrecondition "request n error") ⟨0, 0, []⟩
          ⟨specFrame ⟨false, true, true, false⟩ ⟨0, 0, 1, [1], 0, [72, 101, 108, 108, 111]⟩, 24⟩
    ∧ (errors.FailedPrecondition "request n error").ok = false := by
  decide

/-- C2 (amended): for every setting of the four flags and all valid frame
fields with payload length `≠ 0xfefefefe`, `ReadPBBytes` on an in-memory
reader standing at a frame written in the layout `wireFrame` returns OK with a
record identical to the payload and consumes exactly the whole frame.
`wireFrame` is the wire layout of the spec, `specFrame`, except when
`kafka_dump_prefix` and `has_sort_id` are set and `prefixLen = 0`: there the
sort-id block has an 8-byte length field of its own after the fresh length. -/
theorem ReadPBBytes_wireFrame_roundtrip (o : DataFormatOptions) (f : FrameFields)
    (a rest : Bytes) (out : PBOut) (hv : wireValid o f) (hL : f.payload.length ≠ 0xfefefefe)
    (hlen : a.length + (wireFrame o f).length + rest.length < 2 ^ 63) :
    (∃ pb_type data_source_key : Nat,
      ReadPBBytes o (readerAt a (wireFrame o f ++ rest)) out
        = .done Status.OK ⟨pb_type, data_source_key, f.payload⟩
            (readerAt (a ++ wireFrame o f) rest))
    ∧ StringStreamReader.GetOffset (readerAt (a ++ wireFrame o f) rest)
        = StringStreamReader.GetOffset (readerAt a (wireFrame o f ++ rest))
          + (wireFrame o f).length
    ∧ (¬ (DataFormatOptions.kafka_dump_prefix o = true ∧ o.has_sort_id = true ∧ f.prefixLen = 0) →
        specFrame o f = wireFrame o f) := by
  refine ⟨⟨_, _, ReadPBBytes_wireFrame o f a rest out hv hL hlen⟩, ?_, specFrame_eq_wireFrame o f⟩
  simp [StringStreamReader.GetOffset, readerAt]

/-- Witness of C2 (amended): all of prefix, sort id and trailing field, with
a zero prefix, and one byte after the frame. -/
theorem ReadPBBytes_wireFrame_roundtrip_witness :
    (∃ pb_type data_source_key : Nat,
      ReadPBBytes ⟨false, true, true, true⟩
          (readerAt [9] (wireFrame ⟨false, true, true, true⟩ ⟨0, 0, 4, [1, 2], 6, [72, 105]⟩ ++ [8]))
          ⟨0, 0, []⟩
        = .done Status.OK ⟨pb_type, data_source_key, [72, 105]⟩
            (readerAt ([9] ++ wireFrame ⟨false, true, true, true⟩ ⟨0, 0, 4, [1, 2], 6, [72, 105]⟩)
              [8]))
    ∧ StringStreamReader.GetOffset
        (readerAt ([9] ++ wireFrame ⟨false, true, true, true⟩ ⟨0, 0, 4, [1, 2], 6, [72, 105]⟩) [8])
        = StringStreamReader.GetOffset
            (readerAt [9] (wireFrame ⟨false, true, true, true⟩ ⟨0, 0, 4, [1, 2], 6, [72, 105]⟩ ++ [8]))
          + (wireFrame ⟨false, true, true, true⟩ ⟨0, 0, 4, [1, 2], 6, [72, 105]⟩).length
    ∧ (¬ (DataFormatOptions.kafka_dump_prefix (⟨false, true, true, true⟩ : DataFormatOptions) = true ∧
          (⟨false, true, true, true⟩ : DataFormatOptions).has_sort_id = true ∧
          (⟨0, 0, 4, [1, 2], 6, [72, 105]⟩ : FrameFields).prefixLen = 0) →
        specFrame ⟨false, true, true, true⟩ ⟨0, 0, 4, [1, 2], 6, [72, 105]⟩
          = wireFrame ⟨false, true, true, true⟩ ⟨0, 0, 4, [1, 2], 6, [72, 105]⟩) :=
  ReadPBBytes_wireFrame_roundtrip ⟨false, true, true, true⟩ ⟨0, 0, 4, [1, 2], 6, [72, 105]⟩ [9] [8]
    ⟨0, 0, []⟩ (by decide) (by decide) (by decide)

/-! ## A non-zero prefix is the sort-id length -/

/-- C10: with `lagrangex_header` false and both `kafka_dump_prefix` and
`has_sort_id` true, for every non-zero prefix value `p` and every `p`-byte
sort-id block, `ReadDataHeader` consumes exactly the 8-byte prefix field, the
`p` bytes of the block (no separate sort-id length field) and the 8-byte
trailing field if `kafka_dump` is set; `ReadPBBytes` then returns the payload
that follows, with no sort-id byte in it. -/
theorem ReadDataHeader_nonzero_prefix (kd : Bool) (p t : Nat) (sortId payload a rest : Bytes)
    (out : PBOut) (hp0 : p ≠ 0) (hp : sortId.length = p) (ht : t < 2 ^ 64)
    (hL : payload.length ≠ 0xfefefefe)
    (hlen : a.length + 8 + p + 8 + 8 + payload.length + rest.length < 2 ^ 63) :
    ReadDataHeader ⟨false, true, true, kd⟩
        (readerAt a (EncodeFixed64 p ++ (sortId ++ ((if kd then EncodeFixed64 t else [])
          ++ (EncodeFixed64 payload.length ++ (payload ++ rest))))))
        ⟨out.pb_type, out.data_source_key⟩
      = .done Status.OK ⟨0, out.data_source_key⟩
          (readerAt (a ++ (EncodeFixed64 p ++ (sortId ++ (if kd then EncodeFixed64 t else []))))
            (EncodeFixed64 payload.length ++ (payload ++ rest)))
    ∧ StringStreamReader.GetOffset
        (readerAt (a ++ (EncodeFixed64 p ++ (sortId ++ (if kd then EncodeFixed64 t else []))))
          (EncodeFixed64 payload.length ++ (payload ++ rest)))
      = a.length + 8 + p + (if kd then 8 else 0)
    ∧ ReadPBBytes ⟨false, true, true, kd⟩
        (readerAt a (EncodeFixed64 p ++ (sortId ++ ((if kd then EncodeFixed64 t else [])
          ++ (EncodeFixed64 payload.length ++ (payload ++ rest))))))
        out
      = .done Status.OK ⟨0, out.data_source_key, payload⟩
          (readerAt (a ++ (EncodeFixed64 p ++ (sortId ++ ((if kd then EncodeFixed64 t else [])
            ++ (EncodeFixed64 payload.length ++ payload))))) rest) := by
  subst hp
  have hv : wireValid ⟨false, true, true, kd⟩ ⟨0, sortId.length, 0, sortId, t, payload⟩ :=
    ⟨by norm_num, by show sortId.length < 2 ^ 64; omega, by norm_num, ht, by simp⟩
  have hkd : (if kd then EncodeFixed64 t else ([] : Bytes)).length ≤ 8 := by
    cases kd <;> simp [EncodeFixed64_length]
  have h1 := ReadDataHeader_wireHeader ⟨false, true, true, kd⟩
    ⟨0, sortId.length, 0, sortId, t, payload⟩ a (EncodeFixed64 payload.length ++ (payload ++ rest))
    ⟨out.pb_type, out.data_source_key⟩ hv
    (by simp [wireHeader, hp0, EncodeFixed64_length]; omega)
  have h2 := ReadPBBytes_wireFrame ⟨false, true, true, kd⟩
    ⟨0, sortId.length, 0, sortId, t, payload⟩ a rest out hv hL
    (by simp [wireFrame, wireHeader, hp0, EncodeFixed64_length]; omega)
  simp only [wireFrame, wireHeader, headerOut, hp0, if_true, if_false, Bool.false_eq_true,
    true_and, ne_eq, not_false_eq_true, List.nil_append, List.append_assoc] at h1 h2
  refine ⟨h1, ?_, h2⟩
  cases kd <;> simp [StringStreamReader.GetOffset, readerAt, EncodeFixed64_length] <;> omega

/-- Witness of C10: prefix 2, sort id `[7, 8]`, trailing field, payload "Hi". -/
theorem ReadDataHeader_nonzero_prefix_witness :
    ReadDataHeader ⟨false, true, true, true⟩
        (readerAt [] (EncodeFixed64 2 ++ ([7, 8] ++ ((if true then EncodeFixed64 0 else [])
          ++ (EncodeFixed64 ([72, 105] : Bytes).length ++ ([72, 105] ++ []))))))
        ⟨(⟨5, 6, []⟩ : PBOut).pb_type, (⟨5, 6, []⟩ : PBOut).data_source_key⟩
      = .done Status.OK ⟨0, (⟨5, 6, []⟩ : PBOut).data_source_key⟩
          (readerAt ([] ++ (EncodeFixed64 2 ++ ([7, 8] ++ (if true then EncodeFixed64 0 else []))))
            (EncodeFixed64 ([72, 105] : Bytes).length ++ ([72, 105] ++ [])))
    ∧ StringStreamReader.GetOffset
        (readerAt ([] ++ (EncodeFixed64 2 ++ ([7, 8] ++ (if true then EncodeFixed64 0 else []))))
          (EncodeFixed64 ([72, 105] : Bytes).length ++ ([72, 105] ++ [])))
      = ([] : Bytes).length + 8 + 2 + (if true then 8 else 0)
    ∧ ReadPBBytes ⟨false, true, true, true⟩
        (readerAt [] (EncodeFixed64 2 ++ ([7, 8] ++ ((if true then EncodeFixed64 0 else [])
          ++ (EncodeFixed64 ([72, 105] : Bytes).length ++ ([72, 105] ++ []))))))
        ⟨5, 6, []⟩
      = .done Status.OK ⟨0, (⟨5, 6, []⟩ : PBOut).data_source_key, [72, 105]⟩
          (readerAt ([] ++ (EncodeFixed64 2 ++ ([7, 8] ++ ((if true then EncodeFixed64 0 else [])
            ++ (EncodeFixed64 ([72, 105] : Bytes).length ++ [72, 105]))))) []) :=
  ReadDataHeader_nonzero_prefix true 2 0 [7, 8] [72, 105] [] [] ⟨5, 6, []⟩
    (by decide) (by decide) (by decide) (by decide) (by decide)

/-! ## The sentinel length -/

/-- C3: for every setting of the four flags, whenever the header fields are
read successfully and the payload length field decodes to `0xfefefefe`,
`ReadPBBytes` fails with `InvalidArgument`; the reader is left where the read
of the length field left it, so no payload byte is read whatever follows, and
the caller's record is as it was. -/
theorem ReadPBBytes_sentinel (o : DataFormatOptions) (r : StringStreamReader) (out : PBOut)
    (st : Status) (h : HeaderOut) (r1 : StringStreamReader) (st2 : Status)
    (r2 : StringStreamReader)
    (hh : ReadDataHeader o r ⟨out.pb_type, out.data_source_key⟩ = .done st h r1)
    (hst : st.ok = true)
    (hs : ReadBinarySize r1 0 = .done st2 0xfefefefe r2) (hst2 : st2.ok = true) :
    ReadPBBytes o r out
      = .done (errors.InvalidArgument "DEADBEEF value found")
          ⟨h.pb_type, h.data_source_key, out.record⟩ r2
    ∧ (errors.InvalidArgument "DEADBEEF value found").code = Code.INVALID_ARGUMENT
    ∧ (r1.content_.length < 2 ^ 63 → r2 = ⟨r1.content_, r1.cur_ + 8⟩) := by
  refine ⟨?_, rfl, ?_⟩
  · simp [ReadPBBytes, hh, hst, hs, hst2]
  · intro hsize
    exact (ReadBinarySize_done_ok r1 0 st2 _ r2 hsize hs hst2).2.2.1

/-- Witness of C3: all flags false, the length field `0xfefefefe` followed by
three more bytes. -/
theorem ReadPBBytes_sentinel_witness :
    ReadPBBytes ⟨false, false, false, false⟩
        ⟨[0xfe, 0xfe, 0xfe, 0xfe, 0, 0, 0, 0, 1, 2, 3], 0⟩ ⟨9, 7, [4]⟩
      = .done (errors.InvalidArgument "DEADBEEF value found")
          ⟨(⟨0, 7⟩ : HeaderOut).pb_type, (⟨0, 7⟩ : HeaderOut).data_source_key,
            (⟨9, 7, [4]⟩ : PBOut).record⟩
          ⟨[0xfe, 0xfe, 0xfe, 0xfe, 0, 0, 0, 0, 1, 2, 3], 8⟩
    ∧ (errors.InvalidArgument "DEADBEEF value found").code = Code.INVALID_ARGUMENT
    ∧ ((⟨[0xfe, 0xfe, 0xfe, 0xfe, 0, 0, 0, 0, 1, 2, 3], 0⟩ : StringStreamReader).content_.length
          < 2 ^ 63 →
        (⟨[0xfe, 0xfe, 0xfe, 0xfe, 0, 0, 0, 0, 1, 2, 3], 8⟩ : StringStreamReader)
          = ⟨(⟨[0xfe, 0xfe, 0xfe, 0xfe, 0, 0, 0, 0, 1, 2, 3], 0⟩ : StringStreamReader).content_,
              (⟨[0xfe, 0xfe, 0xfe, 0xfe, 0, 0, 0, 0, 1, 2, 3], 0⟩ : StringStreamReader).cur_ + 8⟩) :=
  ReadPBBytes_sentinel ⟨false, false, false, false⟩
    ⟨[0xfe, 0xfe, 0xfe, 0xfe, 0, 0, 0, 0, 1, 2, 3], 0⟩ ⟨9, 7, [4]⟩
    Status.OK ⟨0, 7⟩ ⟨[0xfe, 0xfe, 0xfe, 0xfe, 0, 0, 0, 0, 1, 2, 3], 0⟩
    Status.OK ⟨[0xfe, 0xfe, 0xfe, 0xfe, 0, 0, 0, 0, 1, 2, 3], 8⟩
    (by decide) (by decide) (by decide) (by decide)

/-! ## A zero prefix -/

/-- C11 (counterexample): with `kafka_dump_prefix`, `has_sort_id` and
`kafka_dump` set, the frame `prefixLen = 0, freshLen = 2, sortId = [7, 8],
trailingLen = 0, payloadLen = 2, "Hi"` is not read as its payload: after the
fresh length the reader takes the next 8 bytes, which begin with the sort id,
as one more length field (2055) and fails with `FailedPrecondition`. -/
theorem ReadPBBytes_zero_prefix_fresh_is_not_sort_id_length :
    ReadPBBytes ⟨false, true, true, true⟩
        (StringStreamReader.mk0
          (EncodeFixed64 0 ++ (EncodeFixed64 2 ++ ([7, 8] ++ (EncodeFixed64 0
            ++ (EncodeFixed64 2 ++ [72, 105]))))))
        ⟨0, 0, []⟩
      = .done (errors.FailedPrecondition "request n error") ⟨0, 0, []⟩
          ⟨EncodeFixed64 0 ++ (EncodeFixed64 2 ++ ([7, 8] ++ (EncodeFixed64 0
            ++ (EncodeFixed64 2 ++ [72, 105])))), 24⟩
    ∧ (errors.FailedPrecondition "request n error").ok = false
    ∧ DecodeFixed64 ([7, 8] ++ (EncodeFixed64 0 ++ (EncodeFixed64 2 ++ [72, 105]))) = 2055 := by
  decide

/-- C11 (amended): with `lagrangex_header` false and both `kafka_dump_prefix`
and `has_sort_id` true, a frame laid out as `prefixLen(8) = 0`, `freshLen(8)`
(any value), `sortIdLen(8) = s`, `sortId` (`s` bytes), `trailingLen(8)` if
`kafka_dump`, `payloadLen(8)`, `payload` is read by `ReadPBBytes` as exactly
that payload, for every `s` and payload: the fresh length re-read after a zero
prefix is discarded, and one more length field, the sort-id length, is
consumed before the sort-id block. -/
theorem ReadPBBytes_zero_prefix_layout (kd : Bool) (fresh t : Nat)
    (sortId payload a rest : Bytes) (out : PBOut) (hf : fresh < 2 ^ 64) (ht : t < 2 ^ 64)
    (hL : payload.length ≠ 0xfefefefe)
    (hlen : a.length + 8 + 8 + 8 + sortId.length + 8 + 8 + payload.length + rest.length
      < 2 ^ 63) :
    ReadPBBytes ⟨false, true, true, kd⟩
        (readerAt a (EncodeFixed64 0 ++ (EncodeFixed64 fresh ++ (EncodeFixed64 sortId.length
          ++ (sortId ++ ((if kd then EncodeFixed64 t else [])
          ++ (EncodeFixed64 payload.length ++ (payload ++ rest))))))))
        out
      = .done Status.OK ⟨0, out.data_source_key, payload⟩
          (readerAt (a ++ (EncodeFixed64 0 ++ (EncodeFixed64 fresh ++ (EncodeFixed64 sortId.length
            ++ (sortId ++ ((if kd then EncodeFixed64 t else [])
            ++ (EncodeFixed64 payload.length ++ payload))))))) rest) := by
  have hv : wireValid ⟨false, true, true, kd⟩ ⟨0, 0, fresh, sortId, t, payload⟩ :=
    ⟨by norm_num, by norm_num, hf, ht, by simp⟩
  have hkd : (if kd then EncodeFixed64 t else ([] : Bytes)).length ≤ 8 := by
    cases kd <;> simp [EncodeFixed64_length]
  have h2 := ReadPBBytes_wireFrame ⟨false, true, true, kd⟩
    ⟨0, 0, fresh, sortId, t, payload⟩ a rest out hv hL
    (by simp [wireFrame, wireHeader, EncodeFixed64_length]; omega)
  simp only [wireFrame, wireHeader, headerOut, if_true, if_false, Bool.false_eq_true,
    true_and, ne_eq, not_true_eq_false, List.nil_append, List.append_assoc] at h2
  exact h2

/-- Witness of C11 (amended): zero prefix, fresh length 2, sort id `[7, 8]`
behind its own length field, trailing field, payload "Hi". -/
theorem ReadPBBytes_zero_prefix_layout_witness :
    ReadPBBytes ⟨false, true, true, true⟩
        (readerAt [] (EncodeFixed64 0 ++ (EncodeFixed64 2 ++ (EncodeFixed64 ([7, 8] : Bytes).length
          ++ ([7, 8] ++ ((if true then EncodeFixed64 0 else [])
          ++ (EncodeFixed64 ([72, 105] : Bytes).length ++ ([72, 105] ++ []))))))))
        ⟨5, 6, []⟩
      = .done Status.OK ⟨0, (⟨5, 6, []⟩ : PBOut).data_source_key, [72, 105]⟩
          (readerAt ([] ++ (EncodeFixed64 0 ++ (EncodeFixed64 2
            ++ (EncodeFixed64 ([7, 8] : Bytes).length
            ++ ([7, 8] ++ ((if true then EncodeFixed64 0 else [])
            ++ (EncodeFixed64 ([72, 105] : Bytes).length ++ [72, 105]))))))) []) :=
  ReadPBBytes_zero_prefix_layout true 2 0 [7, 8] [72, 105] [] [] ⟨5, 6, []⟩
    (by decide) (by decide) (by decide) (by decide)

/-! ## Failures of the source -/

theorem ReadBinarySize_asBase (r : StringStreamReader) (size : Nat) :
    StringStreamReader.asBase.ReadBinarySize r size = (ReadBinarySize r size).toOn := by
  unfold BaseStreamReaderTmpl.ReadBinarySize ReadBinarySize StringStreamReader.asBase
  cases h : r.ReadNBytes 8 [] with
  | undefined => simp [Outcome.toOn, OutcomeOn.andThen, h]
  | done st x r1 =>
    by_cases hst : st.ok = true <;> simp [Outcome.toOn, OutcomeOn.andThen, hst, h]

theorem ReadBinarySize_ok_status (r : StringStreamReader) (size : Nat) (st : Status) (v : Nat)
    (r1 : StringStreamReader) (h : ReadBinarySize r size = .done st v r1) (hst : st.ok = true) :
    st = Status.OK := by
  unfold ReadBinarySize at h
  cases h1 : r.ReadNBytes 8 [] with
  | undefined => rw [h1] at h; cases h
  | done st1 x r2 =>
    rw [h1] at h
    by_cases hst1 : st1.ok = true
    · simp only [hst1, if_true] at h
      cases h; rfl
    · simp only [hst1, if_false] at h
      cases h
      exact absurd hst hst1

theorem LogInv_ReadNBytes {σ : Type} (src : BaseStreamReaderTmpl σ)
    (s : σ × List (Nat × Status)) (n : Nat) (res : Bytes) (hs : allOk s.2) :
    LogInv (src.logged.ReadNBytes s n res) := by
  simp only [BaseStreamReaderTmpl.logged]
  cases h : src.ReadNBytes s.1 n res with
  | undefined => trivial
  | fatal msg => trivial
  | done st out s1 =>
    simp only [LogInv]
    by_cases hst : st.ok = true
    · simp only [hst, if_true]
      intro e he
      rcases List.mem_append.1 he with h1 | h1
      · exact hs e h1
      · simp only [List.mem_singleton] at h1
        subst h1
        exact hst
    · simp only [hst, if_false]
      exact ⟨s.2, n, rfl, hs⟩

theorem LogInv_andThen {σ α β : Type} (x : OutcomeOn (σ × List (Nat × Status)) α)
    (e : α → β) (k : α → σ × List (Nat × Status) → OutcomeOn (σ × List (Nat × Status)) β)
    (hx : LogInv x) (hk : ∀ a s, allOk s.2 → LogInv (k a s)) :
    LogInv (x.andThen e k) := by
  cases x with
  | undefined => trivial
  | fatal msg => trivial
  | done st a s =>
    simp only [OutcomeOn.andThen]
    simp only [LogInv] at hx
    by_cases hst : st.ok = true
    · rw [if_pos hst] at hx ⊢
      exact hk a s hx
    · rw [if_neg hst] at hx ⊢
      simp only [LogInv]
      rw [if_neg hst]
      exact hx

theorem LogInv_done_OK {σ α : Type} (a : α) (s : σ × List (Nat × Status)) (hs : allOk s.2) :
    LogInv (OutcomeOn.done Status.OK a s) := by
  simpa [LogInv, Status.ok, Status.OK] using hs

theorem LogInv_ReadBinarySize {σ : Type} (src : BaseStreamReaderTmpl σ)
    (s : σ × List (Nat × Status)) (size : Nat) (hs : allOk s.2) :
    LogInv (src.logged.ReadBinarySize s size) := by
  unfold BaseStreamReaderTmpl.ReadBinarySize
  exact LogInv_andThen _ _ _ (LogInv_ReadNBytes src s 8 [] hs)
    (fun a s1 h1 => LogInv_done_OK _ s1 h1)

theorem LogInv_ReadDataHeader {σ : Type} (src : BaseStreamReaderTmpl σ)
    (o : DataFormatOptions) (s : σ × List (Nat × Status)) (out : HeaderOut) (hs : allOk s.2) :
    LogInv (src.logged.ReadDataHeader o s out) := by
  obtain ⟨lg, kp, hsi, kd⟩ := o
  cases lg <;> cases kp <;> cases hsi <;> cases kd <;>
    simp only [BaseStreamReaderTmpl.ReadDataHeader, if_true, if_false, Bool.false_eq_true] <;>
    repeat (first
      | exact LogInv_done_OK _ _ (by assumption)
      | exact LogInv_ReadBinarySize _ _ _ (by assumption)
      | exact LogInv_ReadNBytes _ _ _ _ (by assumption)
      | refine LogInv_andThen _ _ _ ?_ ?_
      | rintro ⟨_, _⟩ _ _
      | intro _ _ _
      | split_ifs)

/-- The sentinel branch of `ReadPBBytes` apart, the log invariant holds for
`ReadPBBytes` over a logged source. -/
theorem LogInv_ReadPBBytes {σ : Type} (src : BaseStreamReaderTmpl σ)
    (o : DataFormatOptions) (s : σ × List (Nat × Status)) (out : PBOut) (hs : allOk s.2) :
    match src.logged.ReadPBBytes o s out with
    | .done st _ s1 =>
      if st.ok then allOk s1.2
      else FirstFailure st s1.2
        ∨ (st = errors.InvalidArgument "DEADBEEF value found" ∧ allOk s1.2)
    | .undefined => True
    | .fatal _ => True := by
  unfold BaseStreamReaderTmpl.ReadPBBytes
  have hh := LogInv_ReadDataHeader src o s ⟨out.pb_type, out.data_source_key⟩ hs
  cases h1 : src.logged.ReadDataHeader o s ⟨out.pb_type, out.data_source_key⟩ with
  | undefined => trivial
  | fatal msg => trivial
  | done st h s1 =>
    rw [h1] at hh
    simp only [LogInv] at hh
    simp only [OutcomeOn.andThen]
    by_cases hst : st.ok = true
    · rw [if_pos hst] at hh ⊢
      have hb := LogInv_ReadBinarySize src s1 0 hh
      cases h2 : src.logged.ReadBinarySize s1 0 with
      | undefined => trivial
      | fatal msg => trivial
      | done st2 size s2 =>
        rw [h2] at hb
        simp only [LogInv] at hb
        simp only []
        by_cases hst2 : st2.ok = true
        · rw [if_pos hst2] at hb ⊢
          by_cases hsz : size = 0xfefefefe
          · rw [if_pos hsz]
            simp only []
            rw [if_neg (by decide)]
            first
              | exact Or.inr ⟨rfl, hb⟩
              | exact Or.inr ⟨trivial, hb⟩
          · rw [if_neg hsz]
            have hn := LogInv_ReadNBytes src s2 size out.record hb
            cases h3 : src.logged.ReadNBytes s2 size out.record with
            | undefined => trivial
            | fatal msg => trivial
            | done st3 rec s3 =>
              rw [h3] at hn
              simp only [LogInv] at hn
              simp only []
              by_cases hst3 : st3.ok = true
              · rw [if_pos hst3] at hn ⊢
                simp only []
                rw [if_pos (by decide)]
                exact hn
              · rw [if_neg hst3] at hn ⊢
                simp only []
                rw [if_neg hst3]
                exact Or.inl hn
        · rw [if_neg hst2] at hb ⊢
          simp only []
          rw [if_neg hst2]
          exact Or.inl hb
    · rw [if_neg hst] at hh ⊢
      simp only []
      rw [if_neg hst]
      exact Or.inl hh

theorem mapState_andThen {σ τ α β : Type} (f : σ → τ) (x : OutcomeOn σ α)
    (y : OutcomeOn τ α) (e : α → β) (k : α → σ → OutcomeOn σ β) (k2 : α → τ → OutcomeOn τ β)
    (hx : x.mapState f = y) (hk : ∀ a s, (k a s).mapState f = k2 a (f s)) :
    (x.andThen e k).mapState f = y.andThen e k2 := by
  subst hx
  cases x with
  | undefined => rfl
  | fatal msg => rfl
  | done st a s =>
    simp only [OutcomeOn.andThen, OutcomeOn.mapState]
    by_cases hst : st.ok = true
    · rw [if_pos hst, if_pos hst]
      exact hk a s
    · rw [if_neg hst, if_neg hst]

theorem logged_ReadNBytes_erase {σ : Type} (src : BaseStreamReaderTmpl σ)
    (s : σ × List (Nat × Status)) (n : Nat) (res : Bytes) :
    (src.logged.ReadNBytes s n res).mapState Prod.fst = src.ReadNBytes s.1 n res := by
  simp only [BaseStreamReaderTmpl.logged]
  cases src.ReadNBytes s.1 n res <;> rfl

theorem logged_ReadBinarySize_erase {σ : Type} (src : BaseStreamReaderTmpl σ)
    (s : σ × List (Nat × Status)) (size : Nat) :
    (src.logged.ReadBinarySize s size).mapState Prod.fst = src.ReadBinarySize s.1 size := by
  unfold BaseStreamReaderTmpl.ReadBinarySize
  exact mapState_andThen _ _ _ _ _ _ (logged_ReadNBytes_erase src s 8 []) (fun _ _ => rfl)

theorem logged_ReadDataHeader_erase {σ : Type} (src : BaseStreamReaderTmpl σ)
    (o : DataFormatOptions) (s : σ × List (Nat × Status)) (out : HeaderOut) :
    (src.logged.ReadDataHeader o s out).mapState Prod.fst = src.ReadDataHeader o s.1 out := by
  obtain ⟨lg, kp, hsi, kd⟩ := o
  cases lg <;> cases kp <;> cases hsi <;> cases kd <;>
    simp only [BaseStreamReaderTmpl.ReadDataHeader, if_true, if_false, Bool.false_eq_true] <;>
    repeat (first
      | rfl
      | exact logged_ReadBinarySize_erase _ _ _
      | exact logged_ReadNBytes_erase _ _ _ _
      | refine mapState_andThen _ _ _ _ _ _ ?_ ?_
      | rintro ⟨_, _⟩ _
      | intro _ _
      | split_ifs)

theorem logged_ReadPBBytes_erase {σ : Type} (src : BaseStreamReaderTmpl σ)
    (o : DataFormatOptions) (s : σ × List (Nat × Status)) (out : PBOut) :
    (src.logged.ReadPBBytes o s out).mapState Prod.fst = src.ReadPBBytes o s.1 out := by
  unfold BaseStreamReaderTmpl.ReadPBBytes
  refine mapState_andThen _ _ _ _ _ _ (logged_ReadDataHeader_erase src o s _) ?_
  intro h s1
  refine mapState_andThen _ _ _ _ _ _ (logged_ReadBinarySize_erase src s1 0) ?_
  intro size s2
  split_ifs
  · rfl
  · exact mapState_andThen _ _ _ _ _ _ (logged_ReadNBytes_erase src s2 size _) (fun _ _ => rfl)

/-- C12: for every source, every flag setting and every input, when
`ReadPBBytes` fails, either the failure is the `0xfefefefe` sentinel (every
read returned OK), or the last `ReadNBytes` call made on the source is the
first one that failed and the status returned is exactly the status of that
call: every call before it returned OK and no call was made after it.  The
calls are read off a source that logs them; logging does not change the
outcome. -/
theorem ReadPBBytes_failure_is_first_failing_read {σ : Type} (src : BaseStreamReaderTmpl σ)
    (o : DataFormatOptions) (s : σ) (out : PBOut) (st : Status) (res : PBOut) (s1 : σ)
    (log : List (Nat × Status))
    (h : src.logged.ReadPBBytes o (s, []) out = .done st res (s1, log))
    (hfail : st.ok = false) :
    ((∃ (pre : List (Nat × Status)) (n : Nat),
        log = pre ++ [(n, st)] ∧ ∀ e ∈ pre, e.2.ok = true)
      ∨ (st = errors.InvalidArgument "DEADBEEF value found" ∧ ∀ e ∈ log, e.2.ok = true))
    ∧ src.ReadPBBytes o s out = .done st res s1 := by
  constructor
  · have hinv := LogInv_ReadPBBytes src o (s, []) out (by intro e he; cases he)
    rw [h] at hinv
    simp only [] at hinv
    rw [if_neg (by simp [hfail])] at hinv
    exact hinv
  · have he := logged_ReadPBBytes_erase src o (s, []) out
    rw [h] at he
    exact he.symm

/-- Witness of C12: all flags false, the in-memory source over
`LE64(5) ++ "He"`; the length field is read, the 5-byte payload read fails
with `FailedPrecondition`, and that status is returned. -/
theorem ReadPBBytes_failure_is_first_failing_read_witness :
    ((∃ (pre : List (Nat × Status)) (n : Nat),
        [(8, Status.OK), (5, errors.FailedPrecondition "request n error")]
          = pre ++ [(n, errors.FailedPrecondition "request n error")]
        ∧ ∀ e ∈ pre, e.2.ok = true)
      ∨ (errors.FailedPrecondition "request n error"
            = errors.InvalidArgument "DEADBEEF value found"
          ∧ ∀ e ∈ [(8, Status.OK), (5, errors.FailedPrecondition "request n error")],
              e.2.ok = true))
    ∧ StringStreamReader.asBase.ReadPBBytes ⟨false, false, false, false⟩
        ⟨[5, 0, 0, 0, 0, 0, 0, 0, 72, 101], 0⟩ ⟨9, 7, []⟩
      = .done (errors.FailedPrecondition "request n error") ⟨0, 7, []⟩
          ⟨[5, 0, 0, 0, 0, 0, 0, 0, 72, 101], 8⟩ :=
  ReadPBBytes_failure_is_first_failing_read StringStreamReader.asBase
    ⟨false, false, false, false⟩ ⟨[5, 0, 0, 0, 0, 0, 0, 0, 72, 101], 0⟩ ⟨9, 7, []⟩
    (errors.FailedPrecondition "request n error") ⟨0, 7, []⟩
    ⟨[5, 0, 0, 0, 0, 0, 0, 0, 72, 101], 8⟩
    [(8, Status.OK), (5, errors.FailedPrecondition "request n error")]
    (by decide) (by decide)

/-! ## Routing of `GetNext` -/

/-- C13: `GetNext` chooses what it does from the (input, output) pair alone, by
the table `routeOf`, and does the following, spelt out on the `next` overloads
of the iterator, the conversion functions and the handler.  Output PLAINTEXT
reads raw bytes with the `tstring` overload; (EXAMPLE, INSTANCE) decodes an
Example and hands to `HandleResult` the Instance that `ExampleToInstance` wrote
from it; (INSTANCE, EXAMPLE) decodes an Instance and hands on the Example that
`InstanceToExample` wrote; any other pair with output EXAMPLE decodes an
Example and hands it on as it is, with output INSTANCE an Instance, and every
remaining output type an ExampleBatch.  On every route the status of the read
is stored in `reader_status`, a status of `HandleReaderNextStauts` that is not
OK is returned at once, and otherwise the status and the output are those of
`HandleResult`.  Equal input and output types never take a converting route,
and for every pair but the two mixed ones the result does not depend on the
conversion functions. -/
theorem GetNext_routes_by_type_pair {ρ Out I E B : Type} (P : PBIterator ρ I E B)
    (M : Messages I E B) (H : THanler Out I E B) (input output : DataFormat)
    (reader : ρ) (out : Out) (offset : Nat) :
    GetNext P M H input output reader out offset
      = (match routeOf input output with
        | .plaintext =>
          let r := P.next_tstring reader offset []
          let s := H.HandleReaderNextStauts_tstring r.status r.value
          if !s.ok then ⟨s, r.reader, H.set_reader_status out r.status, r.offset⟩
          else
            ⟨(H.HandleResult_tstring r.value (H.set_reader_status out r.status)).1, r.reader,
              (H.HandleResult_tstring r.value (H.set_reader_status out r.status)).2, r.offset⟩
        | .exampleToInstance =>
          let r := P.next_Example reader offset M.Example_new
          let s := H.HandleReaderNextStauts_Example r.status r.value
          let ins_pb := (M.ExampleToInstance r.value M.Instance_new).2.2
          if !s.ok then ⟨s, r.reader, H.set_reader_status out r.status, r.offset⟩
          else
            ⟨(H.HandleResult_Instance ins_pb (H.set_reader_status out r.status)).1, r.reader,
              (H.HandleResult_Instance ins_pb (H.set_reader_status out r.status)).2, r.offset⟩
        | .instanceToExample =>
          let r := P.next_Instance reader offset M.Instance_new
          let s := H.HandleReaderNextStauts_Instance r.status r.value
          let exa_pb := (M.InstanceToExample r.value M.Example_new).2.2
          if !s.ok then ⟨s, r.reader, H.set_reader_status out r.status, r.offset⟩
          else
            ⟨(H.HandleResult_Example exa_pb (H.set_reader_status out r.status)).1, r.reader,
              (H.HandleResult_Example exa_pb (H.set_reader_status out r.status)).2, r.offset⟩
        | .decodeExample =>
          let r := P.next_Example reader offset M.Example_new
          let s := H.HandleReaderNextStauts_Example r.status r.value
          if !s.ok then ⟨s, r.reader, H.set_reader_status out r.status, r.offset⟩
          else
            ⟨(H.HandleResult_Example r.value (H.set_reader_status out r.status)).1, r.reader,
              (H.HandleResult_Example r.value (H.set_reader_status out r.status)).2, r.offset⟩
        | .decodeInstance =>
          let r := P.next_Instance reader offset M.Instance_new
          let s := H.HandleReaderNextStauts_Instance r.status r.value
          if !s.ok then ⟨s, r.reader, H.set_reader_status out r.status, r.offset⟩
          else
            ⟨(H.HandleResult_Instance r.value (H.set_reader_status out r.status)).1, r.reader,
              (H.HandleResult_Instance r.value (H.set_reader_status out r.status)).2, r.offset⟩
        | .decodeExampleBatch =>
          let r := P.next_ExampleBatch reader offset M.ExampleBatch_new
          let s := H.HandleReaderNextStauts_ExampleBatch r.status r.value
          if !s.ok then ⟨s, r.reader, H.set_reader_status out r.status, r.offset⟩
          else
            ⟨(H.HandleResult_ExampleBatch r.value (H.set_reader_status out r.status)).1, r.reader,
              (H.HandleResult_ExampleBatch r.value (H.set_reader_status out r.status)).2,
              r.offset⟩)
    ∧ (routeOf input output = .plaintext ↔ output = DataFormat.PLAINTEXT)
    ∧ (routeOf input output = .exampleToInstance
        ↔ input = DataFormat.EXAMPLE ∧ output = DataFormat.INSTANCE)
    ∧ (routeOf input output = .instanceToExample
        ↔ input = DataFormat.INSTANCE ∧ output = DataFormat.EXAMPLE)
    ∧ (routeOf input output = .decodeExample
        ↔ input ≠ DataFormat.INSTANCE ∧ output = DataFormat.EXAMPLE)
    ∧ (routeOf input output = .decodeInstance
        ↔ input ≠ DataFormat.EXAMPLE ∧ output = DataFormat.INSTANCE)
    ∧ (routeOf input output = .decodeExampleBatch
        ↔ output = DataFormat.UNKNOW ∨ output = DataFormat.EXAMPLEBATCH)
    ∧ (input = output → routeOf input output ≠ .exampleToInstance
        ∧ routeOf input output ≠ .instanceToExample)
    ∧ (∀ (c1 : E → I → Status × E × I) (c2 : I → E → Status × I × E),
        routeOf input output ≠ .exampleToInstance →
        routeOf input output ≠ .instanceToExample →
        GetNext P { M with ExampleToInstance := c1, InstanceToExample := c2 } H input output
            reader out offset
          = GetNext P M H input output reader out offset) := by
  refine ⟨?_, ?_, ?_, ?_, ?_, ?_, ?_, ?_, ?_⟩
  · cases input <;> cases output <;> rfl
  · cases input <;> cases output <;> simp [routeOf]
  · cases input <;> cases output <;> simp [routeOf]
  · cases input <;> cases output <;> simp [routeOf]
  · cases input <;> cases output <;> simp [routeOf]
  · cases input <;> cases output <;> simp [routeOf]
  · cases input <;> cases output <;> simp [routeOf]
  · intro h
    subst h
    cases input <;> simp [routeOf]
  · intro c1 c2 h1 h2
    cases input <;> cases output <;>
      first
      | rfl
      | exact absurd rfl h1
      | exact absurd rfl h2

/-! ## The plain path with the Kafka handler -/

/-- C14: with output type PLAINTEXT and the Kafka handler, for every input
type: when `GetNext` returns OK it has appended to `string_list` exactly the
bytes the reader returned, as one element, and the Example, Instance and
ExampleBatch lists are as before; when the reader fails, `GetNext` returns the
reader's status, stores it in `output->reader_status` and leaves all four
lists as they were.  A reader status OK with a non-empty payload makes
`GetNext` return OK. -/
theorem GetNext_plaintext_kafka {ρ I E B : Type} (P : PBIterator ρ I E B)
    (M : Messages I E B) (bI : I → Nat) (bE : E → Nat) (bB : B → Nat) (input : DataFormat)
    (reader : ρ) (output : CurOutput I E B) (offset : Nat) :
    ((GetNext P M (CurPBIteratorHandler bI bE bB) input DataFormat.PLAINTEXT reader output
          offset).status.ok = true →
      (GetNext P M (CurPBIteratorHandler bI bE bB) input DataFormat.PLAINTEXT reader output
          offset).output.string_list
        = output.string_list ++ [(P.next_tstring reader offset []).value]
      ∧ (GetNext P M (CurPBIteratorHandler bI bE bB) input DataFormat.PLAINTEXT reader output
          offset).output.exa_pb_list = output.exa_pb_list
      ∧ (GetNext P M (CurPBIteratorHandler bI bE bB) input DataFormat.PLAINTEXT reader output
          offset).output.ins_pb_list = output.ins_pb_list
      ∧ (GetNext P M (CurPBIteratorHandler bI bE bB) input DataFormat.PLAINTEXT reader output
          offset).output.eb_pb_list = output.eb_pb_list)
    ∧ ((P.next_tstring reader offset []).status.ok = false →
      GetNext P M (CurPBIteratorHandler bI bE bB) input DataFormat.PLAINTEXT reader output
          offset
        = ⟨(P.next_tstring reader offset []).status, (P.next_tstring reader offset []).reader,
            { output with reader_status := (P.next_tstring reader offset []).status },
            (P.next_tstring reader offset []).offset⟩)
    ∧ ((P.next_tstring reader offset []).status = Status.OK →
        (P.next_tstring reader offset []).value ≠ [] →
      GetNext P M (CurPBIteratorHandler bI bE bB) input DataFormat.PLAINTEXT reader output
          offset
        = ⟨Status.OK, (P.next_tstring reader offset []).reader,
            { output with
              reader_status := Status.OK
              string_list := output.string_list ++ [(P.next_tstring reader offset []).value] },
            (P.next_tstring reader offset []).offset⟩) := by
  generalize hr : P.next_tstring reader offset [] = r
  obtain ⟨st, reader1, offset1, value⟩ := r
  simp only [GetNext, GetNext.plaintext, GetNext.finish, CurPBIteratorHandler, hr, if_true,
    CurPBIteratorHandler.HandleReaderNextStauts_tstring]
  have hOK : Status.OK.ok = true := rfl
  have hFP : (errors.FailedPrecondition "tstring size=0").ok = false := rfl
  refine ⟨?_, ?_, ?_⟩
  · intro hok
    by_cases h1 : st = Status.OK
    · subst h1
      by_cases h2 : value.length = 0
      · simp only [ne_eq, not_true_eq_false, if_false, h2, if_true, hFP, Bool.not_false] at hok
        exact absurd hok (by decide)
      · simp only [ne_eq, not_true_eq_false, if_false, h2, hOK, Bool.not_true,
          Bool.false_eq_true, and_self]
    · by_cases h3 : st.ok = true
      · simp only [ne_eq, h1, not_false_eq_true, if_true, h3, Bool.not_true,
          Bool.false_eq_true, if_false, and_self]
      · simp only [ne_eq, h1, not_false_eq_true, if_true, h3, Bool.not_false] at hok
        exact absurd hok (by decide)
  · intro hfail
    have h1 : st ≠ Status.OK := by
      intro h
      subst h
      exact absurd hOK (by simp [hfail])
    simp only [ne_eq, h1, not_false_eq_true, if_true, hfail, Bool.not_false]
  · intro h1 h2
    have h1b : st = Status.OK := h1
    subst h1b
    have h3 : value.length ≠ 0 := by
      intro h
      exact h2 (List.length_eq_zero.1 h)
    simp only [ne_eq, not_true_eq_false, if_false, h3, hOK, Bool.not_true, Bool.false_eq_true]

/-! ## The pattern of line-id column names -/

theorem regClass_rmatch_iff (x : List Char) :
    regClass.rmatch x = true ↔ ∃ c ∈ regClassChars, x = [c] := by
  have key : ∀ l : List Char,
      (l.foldr (fun c r => RegularExpression.char c + r) 0).rmatch x = true
        ↔ ∃ c ∈ l, x = [c] := by
    intro l
    induction l with
    | nil => simp
    | cons a l ih =>
      rw [List.foldr_cons, RegularExpression.add_rmatch_iff, ih,
        RegularExpression.char_rmatch_iff]
      simp
  exact key regClassChars

theorem star_regClass_rmatch_iff (x : List Char) :
    (RegularExpression.star regClass).rmatch x = true ↔ ∀ c ∈ x, c ∈ regClassChars := by
  rw [RegularExpression.star_rmatch_iff]
  constructor
  · rintro ⟨S, rfl, hS⟩ c hc
    rw [List.mem_flatten] at hc
    obtain ⟨t, ht, hct⟩ := hc
    obtain ⟨c2, hc2, rfl⟩ := (regClass_rmatch_iff t).1 (hS t ht).2
    rw [List.mem_singleton] at hct
    subst hct
    exact hc2
  · intro h
    refine ⟨x.map (fun c => [c]), ?_, ?_⟩
    · induction x with
      | nil => rfl
      | cons a l ih =>
        simp only [List.map_cons, List.flatten_cons, List.singleton_append, List.cons.injEq,
          true_and]
        exact ih (fun c hc => h c (List.mem_cons_of_mem _ hc))
    · intro t ht
      rw [List.mem_map] at ht
      obtain ⟨c, hc, rfl⟩ := ht
      exact ⟨by simp, (regClass_rmatch_iff [c]).2 ⟨c, h c hc, rfl⟩⟩

theorem reg_rmatch_iff (x : List Char) :
    reg.rmatch x = true
      ↔ ∃ mid : List Char, mid ≠ [] ∧ (∀ c ∈ mid, c ∈ regClassChars)
          ∧ x = '_' :: '_' :: (mid ++ ['_', '_']) := by
  unfold reg
  simp only [RegularExpression.mul_rmatch_iff, RegularExpression.char_rmatch_iff,
    regClass_rmatch_iff, star_regClass_rmatch_iff]
  constructor
  · rintro ⟨t1, u1, rfl, rfl, t2, u2, rfl, rfl, t3, u3, rfl, ⟨t4, u4, rfl, ⟨c, hc, rfl⟩, h4⟩,
      t5, u5, rfl, rfl, rfl⟩
    refine ⟨c :: u4, by simp, ?_, by simp⟩
    intro d hd
    rcases List.mem_cons.1 hd with h | h
    · subst h; exact hc
    · exact h4 d h
  · rintro ⟨mid, hne, hall, rfl⟩
    obtain ⟨c, rest, rfl⟩ := List.exists_cons_of_ne_nil hne
    exact ⟨['_'], _, rfl, rfl, ['_'], _, rfl, rfl, c :: rest, ['_', '_'], by simp,
      ⟨[c], rest, rfl, ⟨c, hall c (List.mem_cons_self _ _), rfl⟩,
        fun d hd => hall d (List.mem_cons_of_mem _ hd)⟩,
      ['_'], ['_'], rfl, rfl, rfl⟩

theorem GetLineIdFieldByName_of_match (descriptor_ : List FieldDescriptor) (name : String)
    (mid : List Char) (hlen : name.length < 2 ^ 64)
    (hname : name.toList = '_' :: '_' :: (mid ++ ['_', '_'])) (hne : mid ≠ [])
    (hall : ∀ c ∈ mid, c ∈ regClassChars) :
    GetLineIdFieldByName descriptor_ name
      = .ok (FindFieldByName descriptor_ ⟨mid.map Char.toLower⟩) := by
  have hm : regex_match name reg = true := (reg_rmatch_iff _).2 ⟨mid, hne, hall, hname⟩
  have hl : name.length = mid.length + 4 := by
    have h := congrArg List.length hname
    simp only [List.length_cons, List.length_append, List.length_nil] at h
    rw [show name.length = name.toList.length from rfl, h]
  have hn : (name.length + 2 ^ 64 - 4) % 2 ^ 64 = mid.length := by omega
  have hs : substr name 2 mid.length = some ⟨mid⟩ := by
    unfold substr
    rw [if_neg (by omega), hname]
    simp
  simp only [GetLineIdFieldByName, hm, hn, hs, AsciiStrToLower, Bool.not_true,
    Bool.false_eq_true, if_false]
  rfl

/-- C17: `GetLineIdFieldByName(name)` returns a field exactly when the whole
name matches `__[A-Z_]+__`, that is `name = "__" ++ mid ++ "__"` with `mid`
non-empty over `[A-Z_]`, and the ASCII-lower-cased `mid` (the name without its
first two and last two characters) is the name of a `LineId` field, and then it
returns that field; for every name that does not match the pattern as a whole
it returns null whatever the schema is. -/
theorem GetLineIdFieldByName_iff (descriptor_ : List FieldDescriptor) (name : String)
    (hlen : name.length < 2 ^ 64) :
    (∀ f : FieldDescriptor,
      GetLineIdFieldByName descriptor_ name = .ok (some f)
        ↔ ∃ mid : List Char, mid ≠ [] ∧ (∀ c ∈ mid, c ∈ regClassChars)
            ∧ name.toList = '_' :: '_' :: (mid ++ ['_', '_'])
            ∧ FindFieldByName descriptor_ ⟨mid.map Char.toLower⟩ = some f)
    ∧ ((¬ ∃ mid : List Char, mid ≠ [] ∧ (∀ c ∈ mid, c ∈ regClassChars)
            ∧ name.toList = '_' :: '_' :: (mid ++ ['_', '_'])) →
        ∀ d : List FieldDescriptor, GetLineIdFieldByName d name = .ok none)
    ∧ (∀ (k : String) (f : FieldDescriptor),
        FindFieldByName descriptor_ k = some f → f ∈ descriptor_ ∧ f.name = k) := by
  refine ⟨?_, ?_, ?_⟩
  · intro f
    constructor
    · intro h
      by_cases hm : regex_match name reg = true
      · obtain ⟨mid, hne, hall, hname⟩ := (reg_rmatch_iff _).1 hm
        rw [GetLineIdFieldByName_of_match descriptor_ name mid hlen hname hne hall] at h
        exact ⟨mid, hne, hall, hname, by simpa using h⟩
      · simp [GetLineIdFieldByName, hm] at h
    · rintro ⟨mid, hne, hall, hname, hf⟩
      rw [GetLineIdFieldByName_of_match descriptor_ name mid hlen hname hne hall, hf]
  · intro hno d
    have hm : ¬ regex_match name reg = true := fun h => hno ((reg_rmatch_iff _).1 h)
    simp [GetLineIdFieldByName, hm]
  · intro k f hf
    unfold FindFieldByName at hf
    have h1 := List.find?_some hf
    have h2 := List.mem_of_find?_eq_some hf
    exact ⟨h2, by simpa using h1⟩

/-- Witness of C17: `__REQ_TIME__` finds the field `req_time`, and the
lower-case name `__req_time__` finds nothing. -/
theorem GetLineIdFieldByName_iff_witness :
    GetLineIdFieldByName [⟨"uid", .CPPTYPE_UINT64, false⟩, ⟨"req_time", .CPPTYPE_INT64, false⟩]
        "__REQ_TIME__"
      = .ok (some ⟨"req_time", .CPPTYPE_INT64, false⟩)
    ∧ GetLineIdFieldByName [⟨"uid", .CPPTYPE_UINT64, false⟩, ⟨"req_time", .CPPTYPE_INT64, false⟩]
        "__req_time__"
      = .ok none :=
  have h := GetLineIdFieldByName_iff
    [⟨"uid", .CPPTYPE_UINT64, false⟩, ⟨"req_time", .CPPTYPE_INT64, false⟩] "__REQ_TIME__"
    (by decide)
  ⟨(h.1 ⟨"req_time", .CPPTYPE_INT64, false⟩).2
      ⟨['R', 'E', 'Q', '_', 'T', 'I', 'M', 'E'], by decide, by decide, by decide, by decide⟩,
    rfl⟩

/-! ## Parquet reader: the table of `SetSelectedCols` -/

theorem parse_ok_iff (t : ParquetType) (d n : String) (p : ParsedDataType) :
    SetSelectedCols.parse t d n = .ok p ↔ (t, d) ∈ specTypeTable ∧ specParsedType d = some p := by
  have h1 : ("fid_v1" : String) ≠ "int" := by decide
  have h2 : ("fid_v2" : String) ≠ "int" := by decide
  have h3 : ("fid_v2" : String) ≠ "fid_v1" := by decide
  have h4 : ("float" : String) ≠ "int" := by decide
  have h5 : ("float" : String) ≠ "fid_v1" := by decide
  have h6 : ("float" : String) ≠ "fid_v2" := by decide
  have h7 : ("bytes" : String) ≠ "int" := by decide
  have h8 : ("bytes" : String) ≠ "fid_v1" := by decide
  have h9 : ("bytes" : String) ≠ "fid_v2" := by decide
  have h10 : ("bytes" : String) ≠ "float" := by decide
  cases t <;> simp only [SetSelectedCols.parse, specTypeTable, specParsedType, List.mem_cons,
    Prod.mk.injEq, List.mem_singleton, false_and, or_false, false_or, true_and, reduceCtorEq,
    List.not_mem_nil] <;> split_ifs <;> simp_all

theorem parse_error (t : ParquetType) (d n : String) (st : Status)
    (h : SetSelectedCols.parse t d n = .error st) :
    (t, d) ∉ specTypeTable ∧ st.code = Code.INVALID_ARGUMENT := by
  refine ⟨fun hmem => ?_, ?_⟩
  · simp only [specTypeTable, List.mem_cons, Prod.mk.injEq, List.mem_singleton, List.not_mem_nil,
      or_false] at hmem
    rcases hmem with ⟨rfl, rfl⟩ | ⟨rfl, rfl⟩ | ⟨rfl, rfl⟩ | ⟨rfl, rfl⟩ | ⟨rfl, rfl⟩ | ⟨rfl, rfl⟩ | ⟨rfl, rfl⟩ <;>
      simp [SetSelectedCols.parse] at h
  · cases t <;> simp only [SetSelectedCols.parse] at h <;>
      first
      | (injection h with h; subst h; rfl)
      | (split_ifs at h; injection h with h; subst h; rfl)

theorem parse_total (t : ParquetType) (d n : String) :
    (∃ p, SetSelectedCols.parse t d n = .ok p) ∨ ∃ st, SetSelectedCols.parse t d n = .error st := by
  cases h : SetSelectedCols.parse t d n
  · exact Or.inr ⟨_, rfl⟩
  · exact Or.inl ⟨_, rfl⟩

theorem specTable_supported (t : ParquetType) (d : String) (h : (t, d) ∈ specTypeTable) :
    t ∈ supportedTypes := by
  simp only [specTypeTable, List.mem_cons, Prod.mk.injEq, List.mem_singleton, List.not_mem_nil,
    or_false] at h
  rcases h with ⟨rfl, _⟩ | ⟨rfl, _⟩ | ⟨rfl, _⟩ | ⟨rfl, _⟩ | ⟨rfl, _⟩ | ⟨rfl, _⟩ | ⟨rfl, _⟩ <;>
    simp [supportedTypes]

/-! ## Parquet reader: the loops of `SetSelectedCols` -/

theorem SetSelectedCols_names_ok (m : List (String × Nat)) :
    ∀ (names : List String) (ids set : List Nat) (self : ParquetExampleReader),
      self.columns_index_map_ = m → names.map m.lookup = ids.map some →
      SetSelectedCols.names set names self =
        .done Status.OK (ids.foldl (fun s x => List.insert x s) set)
          { self with selected_col_ids_ := self.selected_col_ids_ ++ ids } := by
  intro names
  induction names with
  | nil =>
    intro ids set self _ h
    cases ids with
    | nil => simp [SetSelectedCols.names]
    | cons a l => simp at h
  | cons name rest ih =>
    intro ids set self hm h
    cases ids with
    | nil => simp at h
    | cons col_id l =>
      simp only [List.map_cons, List.cons.injEq] at h
      rw [SetSelectedCols.names, hm, h.1]
      simp only
      rw [ih l _ _ rfl h.2]
      simp

theorem SetSelectedCols_names_fail (m : List (String × Nat)) :
    ∀ (names : List String) (set : List Nat) (self : ParquetExampleReader),
      self.columns_index_map_ = m → (∃ name ∈ names, m.lookup name = none) →
      ∃ msg set1 s1, SetSelectedCols.names set names self
        = .done (errors.InvalidArgument msg) set1 s1 := by
  intro names
  induction names with
  | nil => intro set self _ h; simp at h
  | cons name rest ih =>
    intro set self hm h
    rw [SetSelectedCols.names, hm]
    cases hl : m.lookup name with
    | none => exact ⟨_, _, _, rfl⟩
    | some col_id =>
      simp only
      refine ih _ _ rfl ?_
      obtain ⟨n, hn, hnone⟩ := h
      rcases List.mem_cons.1 hn with rfl | hn
      · rw [hl] at hnone; cases hnone
      · exact ⟨n, hn, hnone⟩

theorem insert_foldl_mem (ids : List Nat) : ∀ (set : List Nat) (x : Nat),
    x ∈ ids.foldl (fun s x => List.insert x s) set ↔ x ∈ set ∨ x ∈ ids := by
  induction ids with
  | nil => intro set x; simp
  | cons a l ih =>
    intro set x
    simp only [List.foldl_cons, ih, List.mem_insert_iff, List.mem_cons]
    tauto

theorem insert_foldl_nodup (ids : List Nat) : ∀ (set : List Nat), set.Nodup →
    (ids.foldl (fun s x => List.insert x s) set).Nodup := by
  induction ids with
  | nil => intro set h; simpa using h
  | cons a l ih =>
    intro set h
    simp only [List.foldl_cons]
    exact ih _ h.insert

theorem insert_foldl_length (ids : List Nat) :
    (ids.foldl (fun s x => List.insert x s) []).length = ids.length ↔ ids.Nodup := by
  have h1 : (ids.foldl (fun s x => List.insert x s) []).toFinset = ids.toFinset := by
    ext x
    simp [insert_foldl_mem]
  have h2 : (ids.foldl (fun s x => List.insert x s) []).length = ids.dedup.length := by
    rw [← List.toFinset_card_of_nodup (insert_foldl_nodup ids [] List.nodup_nil), h1,
      List.card_toFinset]
  rw [h2]
  constructor
  · intro h
    exact List.dedup_eq_self.1 ((List.dedup_sublist ids).eq_of_length h)
  · intro h
    rw [List.dedup_eq_self.2 h]

theorem SetSelectedCols_types_loop (names types : List String) :
    ∀ (is : List Nat) (self : ParquetExampleReader),
      (∀ i ∈ is, ∃ col_id ft name t, self.selected_col_ids_[i]? = some col_id ∧
        types[i]? = some ft ∧ names[i]? = some name ∧ self.file.physical_type col_id = some t) →
      (∃ ps, forEach (SetSelectedCols.type names types) is () self
            = .done Status.OK ()
                { self with selected_col_feature_type_ := self.selected_col_feature_type_ ++ ps } ∧
          List.Forall₂ (fun i p => ∃ col_id ft name t, self.selected_col_ids_[i]? = some col_id ∧
            types[i]? = some ft ∧ names[i]? = some name ∧ self.file.physical_type col_id = some t ∧
            SetSelectedCols.parse t ft name = .ok p) is ps)
      ∨ (∃ i ∈ is, ∃ col_id ft name t st, self.selected_col_ids_[i]? = some col_id ∧
            types[i]? = some ft ∧ names[i]? = some name ∧ self.file.physical_type col_id = some t ∧
            SetSelectedCols.parse t ft name = .error st ∧
            ∃ s1, forEach (SetSelectedCols.type names types) is () self = .done st () s1) := by
  intro is
  induction is with
  | nil =>
    intro self _
    exact Or.inl ⟨[], by simp [forEach], List.Forall₂.nil⟩
  | cons i rest ih =>
    intro self h
    obtain ⟨col_id, ft, name, t, h1, h2, h3, h4⟩ := h i (List.mem_cons_self _ _)
    have hbody : SetSelectedCols.type names types i () self =
          match SetSelectedCols.parse t ft name with
          | .ok p => .done Status.OK ()
              { self with selected_col_feature_type_ := self.selected_col_feature_type_ ++ [p] }
          | .error st => .done st () self := by
      simp only [SetSelectedCols.type, h1, h2, h3, h4]
    rcases parse_total t ft name with ⟨p, hp⟩ | ⟨st, hst⟩
    · have hrest := ih { self with
          selected_col_feature_type_ := self.selected_col_feature_type_ ++ [p] }
        (fun j hj => h j (List.mem_cons_of_mem _ hj))
      rcases hrest with ⟨ps, hps, hall⟩ | ⟨j, hj, c, f, n, t2, st, g1, g2, g3, g4, g5, s1, hs1⟩
      · refine Or.inl ⟨p :: ps, ?_, List.Forall₂.cons ⟨col_id, ft, name, t, h1, h2, h3, h4, hp⟩ hall⟩
        rw [forEach, hbody, hp]
        simp only [OutcomeOn.andThen]
        have hOK : Status.OK.ok = true := rfl
        rw [if_pos hOK, hps]
        simp
      · refine Or.inr ⟨j, List.mem_cons_of_mem _ hj, c, f, n, t2, st, g1, g2, g3, g4, g5, s1, ?_⟩
        rw [forEach, hbody, hp]
        simp only [OutcomeOn.andThen]
        have hOK : Status.OK.ok = true := rfl
        rw [if_pos hOK, hs1]
    · refine Or.inr ⟨i, List.mem_cons_self _ _, col_id, ft, name, t, st, h1, h2, h3, h4, hst, self, ?_⟩
      rw [forEach, hbody, hst]
      simp only [OutcomeOn.andThen]
      have hne : st.ok = false := by
        have := (parse_error t ft name st hst).2
        simp [Status.ok, this]
      simp [hne]

theorem all_found_or_missing (m : List (String × Nat)) (names : List String) :
    (∃ ids : List Nat, names.map m.lookup = ids.map some) ∨ ∃ name ∈ names, m.lookup name = none := by
  induction names with
  | nil => exact Or.inl ⟨[], rfl⟩
  | cons name rest ih =>
    cases h : m.lookup name with
    | none => exact Or.inr ⟨name, List.mem_cons_self _ _, h⟩
    | some col_id =>
      rcases ih with ⟨ids, hids⟩ | ⟨n, hn, hnone⟩
      · exact Or.inl ⟨col_id :: ids, by simp [h, hids]⟩
      · exact Or.inr ⟨n, List.mem_cons_of_mem _ hn, hnone⟩

theorem lookup_mem {m : List (String × Nat)} {name : String} {col_id : Nat}
    (h : m.lookup name = some col_id) : (name, col_id) ∈ m := by
  obtain ⟨l1, l2, rfl, _⟩ := List.lookup_eq_some_iff.1 h
  simp

theorem physical_type_of_lt (file : ParquetFile) (col_id : Nat)
    (h : col_id < file.columns.length) : ∃ t, file.physical_type col_id = some t := by
  simp [ParquetFile.physical_type, List.getElem?_eq_getElem h]

/-- The outcomes of `SetSelectedCols` from cleared selection vectors: a status
with the code of InvalidArgument together with the reason, or OK together with
the vectors filled. -/
theorem SetSelectedCols_cases (self : ParquetExampleReader) (names types : List String)
    (hids : self.selected_col_ids_ = []) (hft : self.selected_col_feature_type_ = [])
    (hwf : ∀ e ∈ self.columns_index_map_, e.2 < self.file.columns.length) :
    (∃ st s1, self.SetSelectedCols names types = .done st () s1 ∧
        st.code = Code.INVALID_ARGUMENT ∧
        (names.length ≠ types.length
          ∨ (∃ name ∈ names, self.columns_index_map_.lookup name = none)
          ∨ (∃ ids : List Nat, names.map self.columns_index_map_.lookup = ids.map some ∧ ¬ ids.Nodup)
          ∨ (∃ (i : Nat) (name ft : String) (col_id : Nat) (t : ParquetType),
              names[i]? = some name ∧ types[i]? = some ft ∧
              self.columns_index_map_.lookup name = some col_id ∧
              self.file.physical_type col_id = some t ∧ (t, ft) ∉ specTypeTable)))
    ∨ (∃ (ids : List Nat) (ps : List ParsedDataType), self.SetSelectedCols names types = .done Status.OK ()
          { self with selected_col_ids_ := ids, selected_col_feature_type_ := ps } ∧
        names.length = types.length ∧
        names.map self.columns_index_map_.lookup = ids.map some ∧ ids.Nodup ∧
        ps.length = ids.length ∧
        ∀ i : Nat, i < ids.length → ∃ col_id ft name t p, ids[i]? = some col_id ∧
          types[i]? = some ft ∧ names[i]? = some name ∧
          self.columns_index_map_.lookup name = some col_id ∧
          self.file.physical_type col_id = some t ∧ (t, ft) ∈ specTypeTable ∧
          specParsedType ft = some p ∧ ps[i]? = some p) := by
  have hOK : Status.OK.ok = true := rfl
  by_cases hlen : names.length = types.length
  swap
  · exact Or.inl ⟨errors.InvalidArgument
      "list selected_col_names should have the same size as list selected_col_types", self,
      by simp only [ParquetExampleReader.SetSelectedCols, hlen, ne_eq, not_false_eq_true, if_true], rfl, Or.inl hlen⟩
  rcases all_found_or_missing self.columns_index_map_ names with ⟨ids, hmap⟩ | hmiss
  swap
  · obtain ⟨msg, set1, s1, hn⟩ := SetSelectedCols_names_fail _ names [] self rfl hmiss
    refine Or.inl ⟨errors.InvalidArgument msg, s1, ?_, rfl, Or.inr (Or.inl hmiss)⟩
    simp only [ParquetExampleReader.SetSelectedCols, hlen, ne_eq, not_true_eq_false, if_false, hn,
      OutcomeOn.andThen]
    rfl
  have hn := SetSelectedCols_names_ok _ names ids [] self rfl hmap
  rw [hids, List.nil_append] at hn
  have hidlen : ids.length = names.length := by
    have := congrArg List.length hmap
    simpa using this.symm
  by_cases hnodup : ids.Nodup
  swap
  · refine Or.inl ⟨errors.InvalidArgument "selected_col_names have duplicate columns",
      { self with selected_col_ids_ := ids }, ?_, rfl,
      Or.inr (Or.inr (Or.inl ⟨ids, hmap, hnodup⟩))⟩
    simp only [ParquetExampleReader.SetSelectedCols, hlen, ne_eq, not_true_eq_false, if_false, hn,
      OutcomeOn.andThen, hOK, if_true]
    rw [if_pos]
    intro h
    exact hnodup ((insert_foldl_length ids).1 h.symm)
  -- the operands of every pass of the second loop are there
  have hops : ∀ i, i < ids.length → ∃ col_id ft name t, ids[i]? = some col_id ∧
      types[i]? = some ft ∧ names[i]? = some name ∧
      self.columns_index_map_.lookup name = some col_id ∧
      self.file.physical_type col_id = some t := by
    intro i hi
    have h1 : ids[i]? = some ids[i] := List.getElem?_eq_getElem hi
    have hi2 : i < names.length := hidlen ▸ hi
    have hi3 : i < types.length := hlen ▸ hi2
    have h2 : names[i]? = some names[i] := List.getElem?_eq_getElem hi2
    have h3 : types[i]? = some types[i] := List.getElem?_eq_getElem hi3
    have h4 : self.columns_index_map_.lookup names[i] = some ids[i] := by
      have := congrArg (fun l => l[i]?) hmap
      simpa [List.getElem?_map, h1, h2] using this
    obtain ⟨t, ht⟩ := physical_type_of_lt self.file ids[i] (hwf _ (lookup_mem h4))
    exact ⟨_, _, _, t, h1, h3, h2, h4, ht⟩
  have hloop := SetSelectedCols_types_loop names types (List.range ids.length)
    { self with selected_col_ids_ := ids }
    (fun i hi => by
      obtain ⟨c, f, n, t, g1, g2, g3, _, g5⟩ := hops i (List.mem_range.1 hi)
      exact ⟨c, f, n, t, g1, g2, g3, g5⟩)
  have hrun : self.SetSelectedCols names types
      = forEach (SetSelectedCols.type names types) (List.range ids.length) ()
          { self with selected_col_ids_ := ids } := by
    simp only [ParquetExampleReader.SetSelectedCols, hlen, ne_eq, not_true_eq_false, if_false, hn,
      OutcomeOn.andThen, hOK, if_true]
    rw [if_neg]
    intro h
    exact h ((insert_foldl_length ids).2 hnodup).symm
  rcases hloop with ⟨ps, hps, hall⟩ | ⟨i, hi, c, f, n, t, st, g1, g2, g3, g4, g5, s1, hs1⟩
  · refine Or.inr ⟨ids, ps, ?_, hlen, hmap, hnodup, ?_, ?_⟩
    · rw [hrun, hps]
      simp [hft]
    · have := hall.length_eq
      simpa using this.symm
    · intro i hi
      have hlen2 : i < ps.length := by
        have := hall.length_eq
        simp only [List.length_range] at this
        omega
      have hget := hall.get (by simpa using hi) hlen2
      simp only [List.get_eq_getElem, List.getElem_range] at hget
      obtain ⟨c, f, n, t, g1, g2, g3, g4, g5⟩ := hget
      have hp := (parse_ok_iff t f n _).1 g5
      obtain ⟨c2, f2, n2, t2, k1, k2, k3, k4, k5⟩ := hops i hi
      have hc : c = c2 := Option.some.inj (g1.symm.trans k1)
      have hn2 : n = n2 := Option.some.inj (g3.symm.trans k3)
      subst hc hn2
      exact ⟨c, f, n, t, _, g1, g2, g3, k4, g4, hp.1, hp.2, List.getElem?_eq_getElem hlen2⟩
  · have herr := parse_error t f n st g5
    refine Or.inl ⟨st, s1, by rw [hrun, hs1], herr.2, Or.inr (Or.inr (Or.inr ?_))⟩
    obtain ⟨c2, f2, n2, t2, k1, k2, k3, k4, k5⟩ := hops i (List.mem_range.1 hi)
    have hc : c = c2 := by
      have : some c = some c2 := g1.symm.trans k1
      exact Option.some.inj this
    have hf : f = f2 := Option.some.inj (g2.symm.trans k2)
    have hn2 : n = n2 := Option.some.inj (g3.symm.trans k3)
    subst hc hf hn2
    exact ⟨i, n, f, c, t, g3, g2, k4, g4, herr.1⟩

theorem getElem?_of_map_lookup {m : List (String × Nat)} {names : List String} {ids : List Nat}
    (hmap : names.map m.lookup = ids.map some) (i : Nat) :
    (names[i]?).map m.lookup = (ids[i]?).map some := by
  have := congrArg (fun l => l[i]?) hmap
  simpa [List.getElem?_map] using this

theorem duplicate_iff_not_nodup {m : List (String × Nat)} {names : List String} {ids : List Nat}
    (hmap : names.map m.lookup = ids.map some) :
    (∃ (i j : Nat) (name1 name2 : String) (col_id : Nat), i < j ∧
      names[i]? = some name1 ∧ names[j]? = some name2 ∧
      m.lookup name1 = some col_id ∧ m.lookup name2 = some col_id) ↔ ¬ ids.Nodup := by
  have hlen : ids.length = names.length := by
    have := congrArg List.length hmap
    simpa using this.symm
  rw [List.nodup_iff_getElem?_ne_getElem?]
  constructor
  · rintro ⟨i, j, n1, n2, c, hij, h1, h2, h3, h4⟩ hno
    have hj : j < ids.length := by
      rw [hlen]
      exact (List.getElem?_eq_some_iff.1 h2).1
    have hi : i < ids.length := lt_trans hij hj
    have e1 := getElem?_of_map_lookup hmap i
    have e2 := getElem?_of_map_lookup hmap j
    rw [h1, List.getElem?_eq_getElem hi] at e1
    rw [h2, List.getElem?_eq_getElem hj] at e2
    simp only [Option.map_some', h3, h4, Option.some.injEq] at e1 e2
    apply hno i j hij hj
    rw [List.getElem?_eq_getElem hi, List.getElem?_eq_getElem hj, ← e1, ← e2]
  · intro hno
    push_neg at hno
    obtain ⟨i, j, hij, hj, heq⟩ := hno
    have hi : i < ids.length := lt_trans hij hj
    have e1 := getElem?_of_map_lookup hmap i
    have e2 := getElem?_of_map_lookup hmap j
    rw [List.getElem?_eq_getElem (hlen ▸ hi), List.getElem?_eq_getElem hi] at e1
    rw [List.getElem?_eq_getElem (hlen ▸ hj), List.getElem?_eq_getElem hj] at e2
    simp only [Option.map_some', Option.some.injEq] at e1 e2
    refine ⟨i, j, names[i], names[j], ids[i], hij, List.getElem?_eq_getElem _,
      List.getElem?_eq_getElem _, e1, ?_⟩
    rw [e2]
    rw [List.getElem?_eq_getElem hi, List.getElem?_eq_getElem hj] at heq
    exact (Option.some.inj heq).symm ▸ rfl

/-! ## C19: when `SetSelectedCols` rejects a selection -/

/-- C19: starting from cleared selection vectors, with every index of
`columns_index_map_` a column of the file, `SetSelectedCols(names, types)`
returns, and its status is OK or has the code of InvalidArgument; it has the
code of InvalidArgument exactly when the two lists differ in length, or some
name is not a key of `columns_index_map_`, or two names select the same
column, or the pair of some column's physical type and declared type is
outside the table; with OK both `selected_col_ids_` and
`selected_col_feature_type_` have the length of `names` and hold, position by
position, the column index of the name and the parsed type of the declared
type. -/
theorem SetSelectedCols_InvalidArgument_iff (self : ParquetExampleReader)
    (names types : List String)
    (hids : self.selected_col_ids_ = []) (hft : self.selected_col_feature_type_ = [])
    (hwf : ∀ e ∈ self.columns_index_map_, e.2 < self.file.columns.length) :
    ∃ st s1, self.SetSelectedCols names types = .done st () s1 ∧
      (st = Status.OK ∨ st.code = Code.INVALID_ARGUMENT) ∧
      (st.code = Code.INVALID_ARGUMENT ↔ specRejected self names types) ∧
      (st = Status.OK →
        s1.selected_col_ids_.length = names.length ∧
        s1.selected_col_feature_type_.length = names.length ∧
        ∀ (i : Nat) (name declared : String), names[i]? = some name → types[i]? = some declared →
          ∃ col_id t p, self.columns_index_map_.lookup name = some col_id ∧
            s1.selected_col_ids_[i]? = some col_id ∧
            self.file.physical_type col_id = some t ∧ (t, declared) ∈ specTypeTable ∧
            specParsedType declared = some p ∧ s1.selected_col_feature_type_[i]? = some p) := by
  rcases SetSelectedCols_cases self names types hids hft hwf with
    ⟨st, s1, hrun, hcode, hwhy⟩ | ⟨ids, ps, hrun, hlen, hmap, hnodup, hpslen, hpos⟩
  · refine ⟨st, s1, hrun, Or.inr hcode, ⟨fun _ => ?_, fun _ => hcode⟩, fun hOK => ?_⟩
    · rcases hwhy with h | h | ⟨ids, hmap, hdup⟩ | h
      · exact Or.inl h
      · exact Or.inr (Or.inl h)
      · exact Or.inr (Or.inr (Or.inl ((duplicate_iff_not_nodup hmap).2 hdup)))
      · exact Or.inr (Or.inr (Or.inr h))
    · rw [hOK] at hcode
      cases hcode
  · have hidlen : ids.length = names.length := by
      have := congrArg List.length hmap
      simpa using this.symm
    have hat : ∀ (i : Nat) (name declared : String), names[i]? = some name →
        types[i]? = some declared →
        ∃ col_id t p, self.columns_index_map_.lookup name = some col_id ∧
          ids[i]? = some col_id ∧
          self.file.physical_type col_id = some t ∧ (t, declared) ∈ specTypeTable ∧
          specParsedType declared = some p ∧ ps[i]? = some p := by
      intro i name declared h1 h2
      have hi : i < ids.length := by
        rw [hidlen]
        exact (List.getElem?_eq_some_iff.1 h1).1
      obtain ⟨c, f, n, t, p, g1, g2, g3, g4, g5, g6, g7, g8⟩ := hpos i hi
      have hn : n = name := Option.some.inj (g3.symm.trans h1)
      have hf : f = declared := Option.some.inj (g2.symm.trans h2)
      subst hn hf
      exact ⟨c, t, p, g4, g1, g5, g6, g7, g8⟩
    refine ⟨Status.OK, _, hrun, Or.inl rfl, ⟨fun h => (by cases h), fun h => ?_⟩,
      fun _ => ⟨hidlen, hpslen.trans hidlen, hat⟩⟩
    exfalso
    rcases h with h | ⟨name, hname, hnone⟩ | h | ⟨i, name, declared, col_id, t, h1, h2, h3, h4, h5⟩
    · exact h hlen
    · have : self.columns_index_map_.lookup name ∈ names.map self.columns_index_map_.lookup :=
        List.mem_map_of_mem _ hname
      rw [hmap, hnone] at this
      simp at this
    · exact (duplicate_iff_not_nodup hmap).1 h hnodup
    · obtain ⟨c, t2, p, g1, g2, g3, g4, g5, g6⟩ := hat i name declared h1 h2
      have hc : c = col_id := Option.some.inj (g1.symm.trans h3)
      subst hc
      have ht : t2 = t := Option.some.inj (g3.symm.trans h4)
      subst ht
      exact h5 g4

/-- Witness of C19: on `sampleRegistered` the selection of `__LABEL__`, `f` and
`__SOME_FIELD__` as `int`, `fid_v1` and `bytes` is not rejected and returns OK
with the indices 0, 1, 2 and the parsed types INT, FIDV1, BYTES. -/
theorem SetSelectedCols_InvalidArgument_iff_witness :
    sampleRegistered.selected_col_ids_ = []
    ∧ sampleRegistered.selected_col_feature_type_ = []
    ∧ (∀ e ∈ sampleRegistered.columns_index_map_, e.2 < sampleRegistered.file.columns.length)
    ∧ sampleRegistered.SetSelectedCols ["__LABEL__", "f", "__SOME_FIELD__"]
          ["int", "fid_v1", "bytes"]
        = .done Status.OK ()
            { sampleRegistered with
              selected_col_ids_ := [0, 1, 2],
              selected_col_feature_type_ := [.INT, .FIDV1, .BYTES] }
    ∧ ∃ st s1, sampleRegistered.SetSelectedCols ["__LABEL__", "f", "__SOME_FIELD__"]
          ["int", "fid_v1", "bytes"] = .done st () s1
        ∧ (st = Status.OK ∨ st.code = Code.INVALID_ARGUMENT)
        ∧ (st.code = Code.INVALID_ARGUMENT ↔
            specRejected sampleRegistered ["__LABEL__", "f", "__SOME_FIELD__"]
              ["int", "fid_v1", "bytes"])
        ∧ (st = Status.OK →
            s1.selected_col_ids_.length = ["__LABEL__", "f", "__SOME_FIELD__"].length
            ∧ s1.selected_col_feature_type_.length = ["__LABEL__", "f", "__SOME_FIELD__"].length
            ∧ ∀ (i : Nat) (name declared : String),
                ["__LABEL__", "f", "__SOME_FIELD__"][i]? = some name →
                ["int", "fid_v1", "bytes"][i]? = some declared →
                ∃ col_id t p, sampleRegistered.columns_index_map_.lookup name = some col_id
                  ∧ s1.selected_col_ids_[i]? = some col_id
                  ∧ sampleRegistered.file.physical_type col_id = some t
                  ∧ (t, declared) ∈ specTypeTable
                  ∧ specParsedType declared = some p
                  ∧ s1.selected_col_feature_type_[i]? = some p) :=
  ⟨rfl, rfl, by decide, rfl,
    SetSelectedCols_InvalidArgument_iff sampleRegistered ["__LABEL__", "f", "__SOME_FIELD__"]
      ["int", "fid_v1", "bytes"] rfl rfl (by decide)⟩

/-! ## Parquet reader: what holds of every outcome that returns -/

theorem Sat_mono {σ α : Type} (x : OutcomeOn σ α) (P Q : Status → α → σ → Prop)
    (h : ∀ st a s, P st a s → Q st a s) (hx : x.Sat P) : x.Sat Q := by
  cases x with
  | done st a s => exact h _ _ _ hx
  | undefined => trivial
  | fatal msg => trivial

theorem Sat_andThen {σ α β : Type} (x : OutcomeOn σ α) (errOut : α → β)
    (rest : α → σ → OutcomeOn σ β) (P : Status → α → σ → Prop) (Q : Status → β → σ → Prop)
    (hx : x.Sat P)
    (hok : ∀ st a s, P st a s → st.ok = true → (rest a s).Sat Q)
    (herr : ∀ st a s, P st a s → st.ok = false → Q st (errOut a) s) :
    (x.andThen errOut rest).Sat Q := by
  cases x with
  | undefined => trivial
  | fatal msg => trivial
  | done st a s =>
    simp only [OutcomeOn.andThen]
    cases hst : st.ok with
    | true => simpa using hok st a s hx hst
    | false => simpa [OutcomeOn.Sat] using herr st a s hx hst

theorem Sat_forEach {σ α ι : Type} (body : ι → α → σ → OutcomeOn σ α) (I : α → σ → Prop)
    (R : Status → Prop) (hR : R Status.OK) :
    ∀ (xs : List ι) (a : α) (s : σ), I a s →
      (∀ x ∈ xs, ∀ a s, I a s → (body x a s).Sat (fun st a1 s1 => R st ∧ I a1 s1)) →
      (forEach body xs a s).Sat (fun st a1 s1 => R st ∧ I a1 s1) := by
  intro xs
  induction xs with
  | nil => intro a s h _; exact ⟨hR, h⟩
  | cons x rest ih =>
    intro a s h hbody
    rw [forEach]
    refine Sat_andThen _ _ _ _ _ (hbody x (List.mem_cons_self _ _) a s h) ?_ ?_
    · intro st a1 s1 h1 _
      exact ih a1 s1 h1.2 (fun y hy => hbody y (List.mem_cons_of_mem _ hy))
    · intro st a1 s1 h1 _
      exact h1

/-! ## Parquet reader: the read paths never take the `default:` branch -/

theorem ColumnBuffer_GetNextValues_statuses (buf : ColumnBuffer) :
    buf.GetNextValues.1 ∈ buf.column_reader.statuses ∧
    ∀ st ∈ buf.GetNextValues.2.2.column_reader.statuses, st ∈ buf.column_reader.statuses := by
  unfold ColumnBuffer.GetNextValues ColumnReader.statuses
  cases h : buf.column_reader.pending with
  | nil => simp [h]
  | cons e rest =>
    obtain ⟨st, values⟩ := e
    simp only [List.map_cons, List.mem_cons, true_or, or_true, true_and]
    intro st1 h1
    rcases h1 with h1 | h1
    · exact Or.inl h1
    · exact Or.inr (Or.inr h1)

theorem GetNextValues_MidStream (s0 s : ParquetExampleReader) (T : ParquetType) (i : Nat)
    (h : MidStream s0 s) :
    (s.GetNextValues T i).Sat (fun st _ s1 => st ≠ notSupportColumnType ∧ MidStream s0 s1) := by
  unfold ParquetExampleReader.GetNextValues
  cases hbuf : s.col_buffers_[i]? with
  | none => trivial
  | some buf =>
    simp only
    split_ifs
    · trivial
    · have hmem : buf ∈ s.col_buffers_ := List.getElem?_mem hbuf
      have hst := ColumnBuffer_GetNextValues_statuses buf
      refine ⟨fun heq => h.2.2.2 buf hmem (heq ▸ hst.1), h.1, h.2.1, h.2.2.1, ?_⟩
      intro b hb hbad
      rcases List.mem_or_eq_of_mem_set hb with hb | rfl
      · exact h.2.2.2 b hb hbad
      · exact h.2.2.2 buf hmem (hst.2 _ hbad)

theorem OK_ne_notSupportColumnType : Status.OK ≠ notSupportColumnType := by decide

theorem FillValueList_MidStream (s0 s : ParquetExampleReader) (T : ParquetType) (i : Nat)
    (feature : Feature) (kind : FeatureKind) (h : MidStream s0 s) :
    (s.FillValueList T i feature kind).Sat
      (fun st _ s1 => st ≠ notSupportColumnType ∧ MidStream s0 s1) := by
  unfold ParquetExampleReader.FillValueList
  refine Sat_andThen _ _ _ _ _ (GetNextValues_MidStream s0 s T i h) ?_ ?_
  · intro st a s1 h1 _
    exact ⟨OK_ne_notSupportColumnType, h1.2⟩
  · intro st a s1 h1 _
    exact h1

theorem FillLabel_MidStream (s0 s : ParquetExampleReader) (T : ParquetType) (i : Nat)
    (exa : Example) (h : MidStream s0 s) :
    (s.FillLabel T i exa).Sat (fun st _ s1 => st ≠ notSupportColumnType ∧ MidStream s0 s1) := by
  unfold ParquetExampleReader.FillLabel
  refine Sat_andThen _ _ _ _ _ (GetNextValues_MidStream s0 s T i h) ?_ ?_
  · intro st a s1 h1 _
    exact ⟨OK_ne_notSupportColumnType, h1.2⟩
  · intro st a s1 h1 _
    exact h1

theorem GetSingleValue_MidStream (s0 s : ParquetExampleReader) (T : ParquetType) (i : Nat)
    (h : MidStream s0 s) :
    (s.GetSingleValue T i).Sat (fun st _ s1 => st ≠ notSupportColumnType ∧ MidStream s0 s1) := by
  have h1 := GetNextValues_MidStream s0 s T i h
  unfold ParquetExampleReader.GetSingleValue
  cases hx : s.GetNextValues T i with
  | undefined => trivial
  | fatal msg => trivial
  | done st values s1 =>
    rw [hx] at h1
    simp only
    split_ifs
    · trivial
    · trivial
    · exact ⟨OK_ne_notSupportColumnType, h1.2⟩

theorem set_line_id_MidStream (s0 s : ParquetExampleReader) (line_field : FieldDescriptor)
    (col_name : String) (col_type expected : ParquetType) (i : Nat) (exa : Example)
    (h : MidStream s0 s) :
    (GetNextExample.set_line_id line_field col_name col_type expected i exa s).Sat
      (fun st _ s1 => st ≠ notSupportColumnType ∧ MidStream s0 s1) := by
  have h1 := GetSingleValue_MidStream s0 s expected i h
  unfold GetNextExample.set_line_id
  split_ifs
  · trivial
  · cases hx : s.GetSingleValue expected i with
    | undefined => trivial
    | fatal msg => trivial
    | done st values s1 =>
      rw [hx] at h1
      cases values with
      | nil => trivial
      | cons v rest => exact h1

theorem fillFeature_MidStream (s0 s : ParquetExampleReader) (col_type : ParquetType) (i : Nat)
    (feature : Feature) (h : MidStream s0 s) (ht : col_type ∈ supportedTypes) :
    (s.fillFeature col_type i feature).Sat
      (fun st _ s1 => st ≠ notSupportColumnType ∧ MidStream s0 s1) := by
  unfold ParquetExampleReader.fillFeature
  cases col_type <;> simp [supportedTypes] at ht <;> simp only
  · exact FillValueList_MidStream s0 s _ i feature _ h
  · cases s.selected_col_feature_type_[i]? with
    | none => trivial
    | some t =>
      simp only
      split_ifs <;> exact FillValueList_MidStream s0 s _ i feature _ h
  · exact FillValueList_MidStream s0 s _ i feature _ h
  · exact FillValueList_MidStream s0 s _ i feature _ h
  · refine Sat_andThen _ _ _ _ _ (GetNextValues_MidStream s0 s _ i h) ?_ ?_
    · intro st a s1 h1 _
      exact ⟨OK_ne_notSupportColumnType, h1.2⟩
    · intro st a s1 h1 _
      exact h1

theorem MidStream_supported (s0 s : ParquetExampleReader) (h : MidStream s0 s)
    (hsup : Supported s0) (i col_id : Nat) (hi : s.selected_col_ids_[i]? = some col_id) :
    ∃ t, s.file.physical_type col_id = some t ∧ t ∈ supportedTypes := by
  have hmem : col_id ∈ s.selected_col_ids_ := List.getElem?_mem hi
  rw [h.2.1] at hmem
  rw [h.1]
  exact hsup col_id hmem

theorem GetNextExample_column_MidStream (s0 s : ParquetExampleReader) (i : Nat) (exa : Example)
    (h : MidStream s0 s) (hsup : Supported s0) :
    (GetNextExample.column i exa s).Sat
      (fun st _ s1 => st ≠ notSupportColumnType ∧ MidStream s0 s1) := by
  unfold GetNextExample.column
  cases hi : s.selected_col_ids_[i]? with
  | none => trivial
  | some col_id =>
    obtain ⟨t, ht, hts⟩ := MidStream_supported s0 s h hsup i col_id hi
    simp only [ht]
    split_ifs
    · cases t <;> first | trivial | exact FillLabel_MidStream s0 s _ i exa h
    · cases (s.line_id_discriptor_map_.lookup col_id).join with
      | some line_field =>
        simp only
        split_ifs
        · trivial
        · cases line_field.cpp_type <;>
            first | trivial | exact set_line_id_MidStream s0 s _ _ _ _ i exa h
      | none =>
        simp only
        have h1 := fillFeature_MidStream s0 s t i ⟨none, []⟩ h hts
        cases hx : s.fillFeature t i ⟨none, []⟩ with
        | undefined => trivial
        | fatal msg => trivial
        | done st feature s1 =>
          rw [hx] at h1
          exact h1

theorem NextRowGroup_column_MidStream (s0 s : ParquetExampleReader) (row_group : RowGroup)
    (col_id : Nat) (h : MidStream s0 s) (hsup : Supported s0)
    (hrg : ∀ c ∈ row_group.columns, notSupportColumnType ∉ c.statuses)
    (hcol : col_id ∈ s0.selected_col_ids_) :
    (NextRowGroup.column row_group col_id () s).Sat
      (fun st _ s1 => st ≠ notSupportColumnType ∧ MidStream s0 s1) := by
  unfold NextRowGroup.column
  obtain ⟨t, ht, hts⟩ := hsup col_id hcol
  have ht1 : s.file.physical_type col_id = some t := by rw [h.1]; exact ht
  rw [ht1]
  cases hc : row_group.columns[col_id]? with
  | none => trivial
  | some column_reader =>
    have hgood : MidStream s0
        { s with col_buffers_ := s.col_buffers_ ++ [⟨t, column_reader⟩] } := by
      refine ⟨h.1, h.2.1, h.2.2.1, ?_⟩
      intro b hb
      rcases List.mem_append.1 hb with hb | hb
      · exact h.2.2.2 b hb
      · rw [List.mem_singleton.1 hb]
        exact hrg _ (List.getElem?_mem hc)
    cases t <;> simp [supportedTypes] at hts <;>
      exact ⟨OK_ne_notSupportColumnType, hgood⟩

theorem OutOfRange_ne_notSupportColumnType (msg : String) :
    errors.OutOfRange msg ≠ notSupportColumnType := by
  intro h
  have := congrArg Status.code h
  cases this

theorem NextRowGroup_MidStream (s0 s : ParquetExampleReader) (h : MidStream s0 s)
    (hsup : Supported s0) (hfile : FileNeverReturns s0.file) :
    s.NextRowGroup.Sat (fun st _ s1 => st ≠ notSupportColumnType ∧ MidStream s0 s1) := by
  unfold ParquetExampleReader.NextRowGroup
  split_ifs
  · exact ⟨OutOfRange_ne_notSupportColumnType _, h⟩
  · simp only
    split
    · trivial
    · rename_i row_group hrg
      have hmem : row_group ∈ s0.file.row_groups := by
        rw [← h.1]
        unfold ParquetFile.RowGroup at hrg
        split_ifs at hrg
        exact List.getElem?_mem hrg
      refine Sat_forEach _ (fun _ s1 => MidStream s0 s1) (fun st => st ≠ notSupportColumnType)
        OK_ne_notSupportColumnType _ _ _ ?_ ?_
      · exact ⟨h.1, h.2.1, h.2.2.1, fun b hb => by cases hb⟩
      · intro col_id hcol _ s1 h1
        exact NextRowGroup_column_MidStream s0 s1 row_group col_id h1 hsup (hfile _ hmem)
          (h.2.1 ▸ hcol)

theorem skipRowGroups_MidStream (s0 : ParquetExampleReader) (hsup : Supported s0)
    (hfile : FileNeverReturns s0.file) :
    ∀ (fuel : Nat) (s : ParquetExampleReader), MidStream s0 s →
      (s.skipRowGroups fuel).Sat (fun st _ s1 => st ≠ notSupportColumnType ∧ MidStream s0 s1) := by
  intro fuel
  induction fuel with
  | zero =>
    intro s h
    rw [ParquetExampleReader.skipRowGroups]
    trivial
  | succ fuel ih =>
    intro s h
    rw [ParquetExampleReader.skipRowGroups]
    cases s.row_group_reader_ with
    | none => trivial
    | some rg =>
      simp only
      split_ifs
      · refine Sat_andThen _ _ _ _ _ (NextRowGroup_MidStream s0 s h hsup hfile) ?_ ?_
        · intro st a s1 h1 _
          exact ih s1 h1.2
        · intro st a s1 h1 _
          exact h1
      · exact ⟨OK_ne_notSupportColumnType, h⟩

theorem GetNextExample_MidStream (s0 s : ParquetExampleReader) (exa : Example)
    (h : MidStream s0 s) (hsup : Supported s0) (hfile : FileNeverReturns s0.file) :
    (s.GetNextExample exa).Sat (fun st _ s1 => st ≠ notSupportColumnType ∧ MidStream s0 s1) := by
  unfold ParquetExampleReader.GetNextExample
  split_ifs
  · exact ⟨OutOfRange_ne_notSupportColumnType _, h⟩
  · refine Sat_andThen _ _ _ _ _ (skipRowGroups_MidStream s0 hsup hfile _ s h) ?_ ?_
    · intro st a s1 h1 _
      refine Sat_andThen _ _ _ _ _
        (Sat_forEach _ (fun _ s2 => MidStream s0 s2) (fun st => st ≠ notSupportColumnType)
          OK_ne_notSupportColumnType _ exa s1 h1.2
          (fun i _ exa1 s2 h2 => GetNextExample_column_MidStream s0 s2 i exa1 h2 hsup)) ?_ ?_
      · intro st2 a2 s2 h2 _
        exact ⟨OK_ne_notSupportColumnType, h2.2.1, h2.2.2.1, h2.2.2.2.1, h2.2.2.2.2⟩
      · intro st2 a2 s2 h2 _
        exact h2
    · intro st a s1 h1 _
      exact h1

theorem GetNextExampleBatch_row_MidStream (s0 s : ParquetExampleReader) (col_type : ParquetType)
    (i k : Nat) (named_feature_list : NamedFeatureList) (h : MidStream s0 s)
    (ht : col_type ∈ supportedTypes) :
    (GetNextExampleBatch.row col_type i k named_feature_list s).Sat
      (fun st _ s1 => st ≠ notSupportColumnType ∧ MidStream s0 s1) := by
  unfold GetNextExampleBatch.row
  have h1 := fillFeature_MidStream s0 s col_type i ⟨none, []⟩ h ht
  cases hx : s.fillFeature col_type i ⟨none, []⟩ with
  | undefined => trivial
  | fatal msg => trivial
  | done st feature s1 =>
    rw [hx] at h1
    exact h1

theorem GetNextExampleBatch_column_MidStream (s0 s : ParquetExampleReader)
    (rows_in_row_group : Int) (i : Nat) (example_batch : ExampleBatch) (h : MidStream s0 s)
    (hsup : Supported s0) :
    (GetNextExampleBatch.column rows_in_row_group i example_batch s).Sat
      (fun st _ s1 => st ≠ notSupportColumnType ∧ MidStream s0 s1) := by
  unfold GetNextExampleBatch.column
  cases hi : s.selected_col_ids_[i]? with
  | none => trivial
  | some col_id =>
    obtain ⟨t, ht, hts⟩ := MidStream_supported s0 s h hsup i col_id hi
    simp only [ht]
    cases example_batch.named_feature_list[i]? with
    | none => trivial
    | some named_feature_list =>
      simp only
      have h1 := Sat_forEach (GetNextExampleBatch.row t i) (fun _ s1 => MidStream s0 s1)
        (fun st => st ≠ notSupportColumnType) OK_ne_notSupportColumnType
        (List.range rows_in_row_group.toNat) named_feature_list s h
        (fun k _ l s1 h1 => GetNextExampleBatch_row_MidStream s0 s1 t i k l h1 hts)
      cases hx : forEach (GetNextExampleBatch.row t i) (List.range rows_in_row_group.toNat)
          named_feature_list s with
      | undefined => trivial
      | fatal msg => trivial
      | done st l s1 =>
        rw [hx] at h1
        exact h1

theorem GetNextExampleBatch_rows_MidStream (s0 : ParquetExampleReader) (hsup : Supported s0)
    (hfile : FileNeverReturns s0.file) :
    ∀ (fuel : Nat) (rows_to_read_left : Int) (example_batch : ExampleBatch)
      (s : ParquetExampleReader), MidStream s0 s →
      (GetNextExampleBatch.rows fuel rows_to_read_left example_batch s).Sat
        (fun st _ s1 => st ≠ notSupportColumnType ∧ MidStream s0 s1) := by
  intro fuel
  induction fuel with
  | zero =>
    intro n eb s h
    rw [GetNextExampleBatch.rows]
    trivial
  | succ fuel ih =>
    intro n eb s h
    rw [GetNextExampleBatch.rows]
    split_ifs
    · refine Sat_andThen _ _ _ _ _ (skipRowGroups_MidStream s0 hsup hfile _ s h) ?_ ?_
      · intro st a s1 h1 _
        cases s1.row_group_reader_ with
        | none => trivial
        | some rg =>
          simp only
          refine Sat_andThen _ _ _ _ _
            (Sat_forEach _ (fun _ s2 => MidStream s0 s2) (fun st => st ≠ notSupportColumnType)
              OK_ne_notSupportColumnType _ eb s1 h1.2
              (fun i _ eb1 s2 h2 =>
                GetNextExampleBatch_column_MidStream s0 s2 _ i eb1 h2 hsup)) ?_ ?_
          · intro st2 a2 s2 h2 _
            exact ih _ _ _ ⟨h2.2.1, h2.2.2.1, h2.2.2.2.1, h2.2.2.2.2⟩
          · intro st2 a2 s2 h2 _
            exact h2
      · intro st a s1 h1 _
        exact h1
    · exact ⟨OK_ne_notSupportColumnType, h⟩

theorem GetNextExampleBatch_MidStream (s0 s : ParquetExampleReader) (example_batch : ExampleBatch)
    (batch_size : Int) (h : MidStream s0 s) (hsup : Supported s0)
    (hfile : FileNeverReturns s0.file) :
    (s.GetNextExampleBatch example_batch batch_size).Sat
      (fun st _ s1 => st ≠ notSupportColumnType ∧ MidStream s0 s1) := by
  unfold ParquetExampleReader.GetNextExampleBatch
  by_cases heof : s.IsEOF = true
  · rw [if_pos heof]
    exact ⟨OutOfRange_ne_notSupportColumnType _, h⟩
  · rw [if_neg heof]
    exact GetNextExampleBatch_rows_MidStream s0 hsup hfile _ _ _ s h

/-! ## C20: unsupported column types are rejected by `SetSelectedCols` -/

/-- C20: when `SetSelectedCols` has succeeded from cleared selection vectors,
every selected column has a physical type among INT32, INT64, FLOAT, DOUBLE
and BYTE_ARRAY, and `selected_col_feature_type_[i]` is defined for every
index `i` of `selected_col_ids_`; and for every reader later in the stream
(same file, selection and parsed types), unless a column reader itself returns
that status, none of `NextRowGroup`, `GetNextExample` and `GetNextExampleBatch`
returns the InvalidArgument of the `not support column type` branches, and the
reader they leave is again such a reader. -/
theorem unsupported_types_rejected_by_SetSelectedCols (self : ParquetExampleReader)
    (names types : List String) (st : Status) (s0 : ParquetExampleReader)
    (hids : self.selected_col_ids_ = []) (hft : self.selected_col_feature_type_ = [])
    (hwf : ∀ e ∈ self.columns_index_map_, e.2 < self.file.columns.length)
    (hrun : self.SetSelectedCols names types = .done st () s0) (hok : st.ok = true) :
    (∀ col_id ∈ s0.selected_col_ids_,
      ∃ t, s0.file.physical_type col_id = some t ∧ t ∈ supportedTypes)
    ∧ (∀ i : Nat, i < s0.selected_col_ids_.length →
        ∃ p, s0.selected_col_feature_type_[i]? = some p)
    ∧ (FileNeverReturns s0.file → ∀ s : ParquetExampleReader, MidStream s0 s →
        s.NextRowGroup.Sat (fun st1 _ s1 => st1 ≠ notSupportColumnType ∧ MidStream s0 s1)
        ∧ (∀ exa : Example, (s.GetNextExample exa).Sat
            (fun st1 _ s1 => st1 ≠ notSupportColumnType ∧ MidStream s0 s1))
        ∧ (∀ (example_batch : ExampleBatch) (batch_size : Int),
            (s.GetNextExampleBatch example_batch batch_size).Sat
              (fun st1 _ s1 => st1 ≠ notSupportColumnType ∧ MidStream s0 s1))) := by
  have hsup : Supported s0 ∧ ∀ i : Nat, i < s0.selected_col_ids_.length →
      ∃ p, s0.selected_col_feature_type_[i]? = some p := by
    rcases SetSelectedCols_cases self names types hids hft hwf with
      ⟨st1, s1, hrun1, hcode, _⟩ | ⟨ids, ps, hrun1, _, _, _, hpslen, hpos⟩
    · rw [hrun] at hrun1
      injection hrun1 with h1 _ _
      subst h1
      simp [Status.ok, hcode] at hok
    · rw [hrun] at hrun1
      injection hrun1 with _ _ h3
      subst h3
      constructor
      · intro col_id hmem
        obtain ⟨i, hi, hget⟩ := List.getElem_of_mem hmem
        obtain ⟨c, f, n, t, p, g1, _, _, _, g5, g6, _, _⟩ := hpos i hi
        have hc : c = col_id := by
          have h1 : ids[i]? = some col_id := by
            rw [List.getElem?_eq_getElem hi]
            exact congrArg some hget
          exact Option.some.inj (g1.symm.trans h1)
        subst hc
        exact ⟨t, g5, specTable_supported t f g6⟩
      · intro i hi
        obtain ⟨c, f, n, t, p, _, _, _, _, _, _, _, g8⟩ := hpos i hi
        exact ⟨p, g8⟩
  refine ⟨hsup.1, hsup.2, ?_⟩
  intro hfile s hs
  exact ⟨NextRowGroup_MidStream s0 s hs hsup.1 hfile,
    fun exa => GetNextExample_MidStream s0 s exa hs hsup.1 hfile,
    fun eb n => GetNextExampleBatch_MidStream s0 s eb n hs hsup.1 hfile⟩

/-- Witness of C20: the selection of the three columns of `sampleFile` succeeds
on `sampleRegistered`; `sampleReader` is that reader later in the stream, and
its `GetNextExample` does not return the status of the `default:` branches. -/
theorem unsupported_types_rejected_by_SetSelectedCols_witness :
    sampleRegistered.SetSelectedCols ["__LABEL__", "f", "__SOME_FIELD__"] ["int", "fid_v1", "bytes"]
      = .done Status.OK ()
          { sampleRegistered with
            selected_col_ids_ := [0, 1, 2], selected_col_feature_type_ := [.INT, .FIDV1, .BYTES] }
    ∧ (sampleReader.GetNextExample ⟨[], none, []⟩).Sat
        (fun st1 _ s1 => st1 ≠ notSupportColumnType ∧
          MidStream { sampleRegistered with
            selected_col_ids_ := [0, 1, 2], selected_col_feature_type_ := [.INT, .FIDV1, .BYTES] }
            s1) :=
  ⟨rfl,
    ((unsupported_types_rejected_by_SetSelectedCols sampleRegistered
        ["__LABEL__", "f", "__SOME_FIELD__"] ["int", "fid_v1", "bytes"] Status.OK
        { sampleRegistered with
          selected_col_ids_ := [0, 1, 2], selected_col_feature_type_ := [.INT, .FIDV1, .BYTES] }
        rfl rfl (by decide) rfl rfl).2.2
      (by unfold FileNeverReturns; decide) sampleReader
      ⟨rfl, rfl, rfl, by decide⟩).2.1 ⟨[], none, []⟩⟩

/-! ## Parquet reader: one read of a column buffer -/

theorem GetNextValues_of_buffer (s : ParquetExampleReader) (T : ParquetType) (i : Nat)
    (buf : ColumnBuffer) (hbuf : s.col_buffers_[i]? = some buf) (htype : buf.type = T) :
    s.GetNextValues T i = .done buf.GetNextValues.1 buf.GetNextValues.2.1
      { s with col_buffers_ := s.col_buffers_.set i buf.GetNextValues.2.2 } := by
  simp [ParquetExampleReader.GetNextValues, hbuf, htype]

theorem FillValueList_of_buffer (s : ParquetExampleReader) (T : ParquetType) (i : Nat)
    (kind : FeatureKind) (buf : ColumnBuffer) (hbuf : s.col_buffers_[i]? = some buf)
    (htype : buf.type = T) :
    s.FillValueList T i ⟨none, []⟩ kind = .done (if buf.GetNextValues.1.ok then Status.OK else buf.GetNextValues.1)
      ⟨some kind, if buf.GetNextValues.1.ok then buf.GetNextValues.2.1 else []⟩
      { s with col_buffers_ := s.col_buffers_.set i buf.GetNextValues.2.2 } := by
  rw [ParquetExampleReader.FillValueList, GetNextValues_of_buffer s T i buf hbuf htype]
  simp only [OutcomeOn.andThen, Feature.mutable_list]
  cases buf.GetNextValues.1.ok <;> simp

theorem fillFeature_of_buffer (s : ParquetExampleReader) (t : ParquetType) (i : Nat)
    (buf : ColumnBuffer) (hsup : t ∈ supportedTypes)
    (hbuf : s.col_buffers_[i]? = some buf) (htype : buf.type = t)
    (hft : ∃ p, s.selected_col_feature_type_[i]? = some p) :
    ∃ feature, s.fillFeature t i ⟨none, []⟩
      = .done (if buf.GetNextValues.1.ok then Status.OK else buf.GetNextValues.1) feature
          { s with col_buffers_ := s.col_buffers_.set i buf.GetNextValues.2.2 } := by
  obtain ⟨p, hp⟩ := hft
  cases t <;> simp [supportedTypes] at hsup <;> simp only [ParquetExampleReader.fillFeature, hp]
  · exact ⟨_, FillValueList_of_buffer s _ i _ buf hbuf htype⟩
  · by_cases h1 : p = ParsedDataType.INT
    · rw [if_pos h1]
      exact ⟨_, FillValueList_of_buffer s _ i _ buf hbuf htype⟩
    · rw [if_neg h1]
      by_cases h2 : p = ParsedDataType.FIDV1
      · rw [if_pos h2]
        exact ⟨_, FillValueList_of_buffer s _ i _ buf hbuf htype⟩
      · rw [if_neg h2]
        exact ⟨_, FillValueList_of_buffer s _ i _ buf hbuf htype⟩
  · exact ⟨_, FillValueList_of_buffer s _ i _ buf hbuf htype⟩
  · exact ⟨_, FillValueList_of_buffer s _ i _ buf hbuf htype⟩
  · rw [GetNextValues_of_buffer s _ i buf hbuf htype]
    simp only [OutcomeOn.andThen]
    cases buf.GetNextValues.1.ok <;> simp

/-! ## C18: the value list of an INT64 column -/

/-- C18: for a selected INT64 column whose declared type was parsed at selection,
the kind of the value list of the feature emitted depends on the declared type
alone: int64_list for int, fid_v1_list for fid_v1 and fid_v2_list for fid_v2,
whatever values and status the column buffer returns; the list holds the values
of the row in order when the read is OK; and the same feature is emitted by
`GetNextExample` (for a column that is neither `__LABEL__` nor a line-id field)
and by `GetNextExampleBatch`. -/
theorem INT64_value_list_kind_by_declared_type (s : ParquetExampleReader) (i col_id : Nat)
    (declared : String) (p : ParsedDataType) (buf : ColumnBuffer)
    (hparse : SetSelectedCols.parse .INT64 declared (s.col_pure_name col_id) = .ok p)
    (hp : s.selected_col_feature_type_[i]? = some p)
    (hid : s.selected_col_ids_[i]? = some col_id)
    (ht : s.file.physical_type col_id = some .INT64)
    (hbuf : s.col_buffers_[i]? = some buf) (htype : buf.type = .INT64) :
    ∃ kind, specValueListKind declared = some kind ∧
      (∀ (exa : Example), s.col_pure_name col_id ≠ "__LABEL__" →
        (s.line_id_discriptor_map_.lookup col_id).join = none →
        GetNextExample.column i exa s = .done (if buf.GetNextValues.1.ok then Status.OK else buf.GetNextValues.1)
          { exa with named_feature := exa.named_feature ++
              [⟨(col_id : Int) + 10000, s.col_pure_name col_id,
                ⟨some kind, if buf.GetNextValues.1.ok then buf.GetNextValues.2.1 else []⟩⟩] }
          { s with col_buffers_ := s.col_buffers_.set i buf.GetNextValues.2.2 }) ∧
      (∀ (k : Nat) (named_feature_list : NamedFeatureList),
        GetNextExampleBatch.row .INT64 i k named_feature_list s = .done (if buf.GetNextValues.1.ok then Status.OK else buf.GetNextValues.1)
          { named_feature_list with feature := named_feature_list.feature ++
              [⟨some kind, if buf.GetNextValues.1.ok then buf.GetNextValues.2.1 else []⟩] }
          { s with col_buffers_ := s.col_buffers_.set i buf.GetNextValues.2.2 }) := by
  have hfill : ∀ kind, specValueListKind declared = some kind →
      s.fillFeature .INT64 i ⟨none, []⟩ = .done (if buf.GetNextValues.1.ok then Status.OK else buf.GetNextValues.1)
        ⟨some kind, if buf.GetNextValues.1.ok then buf.GetNextValues.2.1 else []⟩
        { s with col_buffers_ := s.col_buffers_.set i buf.GetNextValues.2.2 } := by
    intro kind hkind
    have hpp := (parse_ok_iff _ _ _ _).1 hparse
    simp only [ParquetExampleReader.fillFeature, hp]
    simp only [specValueListKind] at hkind
    have hpt := hpp.2
    simp only [specParsedType] at hpt
    split_ifs at hkind hpt <;> simp only [Option.some.injEq] at hkind hpt <;> subst hkind hpt <;>
      simp [FillValueList_of_buffer s .INT64 i _ buf hbuf htype]
  have hk : ∃ kind, specValueListKind declared = some kind := by
    have hpp := (parse_ok_iff _ _ _ _).1 hparse
    have := hpp.1
    simp only [specTypeTable, List.mem_cons, Prod.mk.injEq, List.mem_singleton, List.not_mem_nil,
      or_false, reduceCtorEq, false_and, false_or, true_and, or_false] at this
    rcases this with h | h | h <;> simp [specValueListKind, h]
  obtain ⟨kind, hkind⟩ := hk
  refine ⟨kind, hkind, ?_, ?_⟩
  · intro exa hname hline
    simp only [GetNextExample.column, hid, ht, hname, if_false, hline, hfill kind hkind]
  · intro k l
    simp only [GetNextExampleBatch.row, hfill kind hkind]

/-- Witness of C18: the second selected column of `sampleReader` is the INT64
column `f` declared `fid_v1`; both paths emit for its first row the feature
with the fid_v1_list of 7 and 8. -/
theorem INT64_value_list_kind_by_declared_type_witness :
    SetSelectedCols.parse .INT64 "fid_v1" (sampleReader.col_pure_name 1) = .ok .FIDV1
    ∧ sampleReader.selected_col_feature_type_[1]? = some .FIDV1
    ∧ ∃ kind, specValueListKind "fid_v1" = some kind
      ∧ (GetNextExample.column 1 ⟨[], none, []⟩ sampleReader).mapState (fun _ => ())
          = .done Status.OK ⟨[], none, [⟨10001, "f", ⟨some kind, [.int64 7, .int64 8]⟩⟩]⟩ ()
      ∧ (GetNextExampleBatch.row .INT64 1 0 ⟨1, "f", []⟩ sampleReader).mapState (fun _ => ())
          = .done Status.OK ⟨1, "f", [⟨some kind, [.int64 7, .int64 8]⟩]⟩ () :=
  ⟨rfl, rfl,
    (INT64_value_list_kind_by_declared_type sampleReader 1 1 "fid_v1" .FIDV1
      ⟨.INT64, ⟨[(Status.OK, [.int64 7, .int64 8]), (Status.OK, [])],
        errors.OutOfRange "end of column"⟩⟩ rfl rfl rfl rfl rfl rfl).imp
      fun _ h => ⟨h.1,
        by rw [h.2.1 ⟨[], none, []⟩ (by decide) rfl]; rfl,
        by rw [h.2.2 0 ⟨1, "f", []⟩]; rfl⟩⟩

/-! ## C16: a reserved name without a line-id field -/

/-- C16: in `GetNextExample`, for a selected column whose name is not
`__LABEL__` and for which the line-identifier lookup yields no field (the entry
of `line_id_discriptor_map_` is absent or null, which is what `Init` stores when
`GetLineIdFieldByName` of the column name returns null), the pass of the loop
returns, without a fatal error, the example with exactly one `NamedFeature`
appended, of id `col_id + 10000` and of name the literal column name, the
label and the `line_id` sub-message as they were, and the status is OK when the
read of the column buffer is OK (and the status of that read otherwise). -/
theorem GetNextExample_fallback_to_named_feature (s : ParquetExampleReader) (i col_id : Nat)
    (t : ParquetType) (buf : ColumnBuffer) (exa : Example)
    (hid : s.selected_col_ids_[i]? = some col_id)
    (ht : s.file.physical_type col_id = some t) (hsup : t ∈ supportedTypes)
    (hbuf : s.col_buffers_[i]? = some buf) (htype : buf.type = t)
    (hft : ∃ p, s.selected_col_feature_type_[i]? = some p)
    (hname : s.col_pure_name col_id ≠ "__LABEL__")
    (hline : (s.line_id_discriptor_map_.lookup col_id).join = none) :
    (∃ feature, GetNextExample.column i exa s
      = .done (if buf.GetNextValues.1.ok then Status.OK else buf.GetNextValues.1)
          { label := exa.label, line_id := exa.line_id,
            named_feature := exa.named_feature ++
              [⟨(col_id : Int) + 10000, s.col_pure_name col_id, feature⟩] }
          { s with col_buffers_ := s.col_buffers_.set i buf.GetNextValues.2.2 })
    ∧ ∀ (s1 : ParquetExampleReader),
        GetLineIdFieldByName s1.descriptor_ (s1.col_pure_name col_id) = .ok none →
        ∃ s2, Init.line_id col_id () s1 = .done Status.OK () s2 ∧
          (s2.line_id_discriptor_map_.lookup col_id).join = none := by
  constructor
  · obtain ⟨feature, hfill⟩ := fillFeature_of_buffer s t i buf hsup hbuf htype hft
    exact ⟨feature, by
      simp only [GetNextExample.column, hid, ht, hname, if_false, hline, hfill]⟩
  · intro s1 h1
    refine ⟨{ s1 with
      line_id_discriptor_map_ := mapSet s1.line_id_discriptor_map_ col_id none }, ?_, ?_⟩
    · simp only [Init.line_id, h1]
    · simp [mapSet, List.lookup]

/-- Witness of C16: the third selected column of `sampleReader` is
`__SOME_FIELD__`, and `LineId` has no field `some_field`; the pass of
`GetNextExample` appends the named feature of id 10002 and of name
`__SOME_FIELD__` and leaves the label and `line_id` alone. -/
theorem GetNextExample_fallback_to_named_feature_witness :
    sampleReader.col_pure_name 2 = "__SOME_FIELD__"
    ∧ GetLineIdFieldByName sampleReader.descriptor_ "__SOME_FIELD__" = .ok none
    ∧ (sampleReader.line_id_discriptor_map_.lookup 2).join = none
    ∧ ∃ feature, GetNextExample.column 2 ⟨[⟨.int64 1⟩], none, []⟩ sampleReader
        = .done Status.OK ⟨[⟨.int64 1⟩], none, [⟨10002, "__SOME_FIELD__", feature⟩]⟩
            { sampleReader with
              col_buffers_ := sampleReader.col_buffers_.set 2
                ⟨.BYTE_ARRAY, ⟨[(Status.OK, [.byteArray [98]])],
                  errors.OutOfRange "end of column"⟩⟩ } :=
  ⟨rfl, rfl, rfl,
    (GetNextExample_fallback_to_named_feature sampleReader 2 2 .BYTE_ARRAY
      ⟨.BYTE_ARRAY, ⟨[(Status.OK, [.byteArray [97]]), (Status.OK, [.byteArray [98]])],
        errors.OutOfRange "end of column"⟩⟩ ⟨[⟨.int64 1⟩], none, []⟩
      rfl rfl (by decide) rfl rfl ⟨.BYTES, rfl⟩ (by decide) rfl).1⟩

/-! ## Parquet reader: the named feature lists of a batch -/

theorem map_set_same {α β : Type} (f : α → β) (l : List α) (i : Nat) (a b : α)
    (h : l[i]? = some a) (hf : f b = f a) : (l.set i b).map f = l.map f := by
  apply List.ext_getElem?
  intro j
  simp only [List.getElem?_map, List.getElem?_set']
  by_cases hij : i = j
  · subst hij
    simp [h, hf]
  · simp [hij]

theorem GetNextExampleBatch_row_key (col_type : ParquetType) (i k : Nat)
    (l : NamedFeatureList) (s : ParquetExampleReader) :
    (GetNextExampleBatch.row col_type i k l s).Sat
      (fun _ l1 _ => (l1.id, l1.name) = (l.id, l.name)) := by
  unfold GetNextExampleBatch.row
  cases s.fillFeature col_type i ⟨none, []⟩ with
  | undefined => trivial
  | fatal msg => trivial
  | done st feature s1 => exact rfl

theorem GetNextExampleBatch_column_keys (rows_in_row_group : Int) (i : Nat)
    (eb : ExampleBatch) (s : ParquetExampleReader) :
    (GetNextExampleBatch.column rows_in_row_group i eb s).Sat
      (fun _ eb1 _ => eb1.named_feature_list.map (fun l => (l.id, l.name))
        = eb.named_feature_list.map (fun l => (l.id, l.name))) := by
  unfold GetNextExampleBatch.column
  cases s.selected_col_ids_[i]? with
  | none => trivial
  | some col_id =>
    simp only
    cases s.file.physical_type col_id with
    | none => trivial
    | some t =>
      cases hl : eb.named_feature_list[i]? with
      | none => trivial
      | some l =>
        simp only
        have h1 := Sat_forEach (GetNextExampleBatch.row t i)
          (fun (l1 : NamedFeatureList) (_ : ParquetExampleReader) => (l1.id, l1.name) = (l.id, l.name))
          (fun _ => True) trivial (List.range rows_in_row_group.toNat) l s rfl
          (fun k _ l1 s1 h1 => by
            have := GetNextExampleBatch_row_key t i k l1 s1
            exact Sat_mono _ _ _ (fun _ l2 _ h2 => ⟨trivial, h2.trans h1⟩) this)
        cases hx : forEach (GetNextExampleBatch.row t i) (List.range rows_in_row_group.toNat) l s with
        | undefined => trivial
        | fatal msg => trivial
        | done st l1 s1 =>
          rw [hx] at h1
          exact map_set_same _ _ i l l1 hl h1.2

theorem GetNextExampleBatch_rows_keys :
    ∀ (fuel : Nat) (rows_to_read_left : Int) (eb : ExampleBatch) (s : ParquetExampleReader),
      (GetNextExampleBatch.rows fuel rows_to_read_left eb s).Sat
        (fun _ eb1 _ => eb1.named_feature_list.map (fun l => (l.id, l.name))
          = eb.named_feature_list.map (fun l => (l.id, l.name))) := by
  intro fuel
  induction fuel with
  | zero =>
    intro n eb s
    rw [GetNextExampleBatch.rows]
    trivial
  | succ fuel ih =>
    intro n eb s
    rw [GetNextExampleBatch.rows]
    split_ifs
    · refine Sat_andThen _ _ _ (fun _ _ _ => True) _ ?_ ?_ ?_
      · cases s.skipRowGroups (s.file.row_groups.length + 1) <;> trivial
      · intro st a s1 _ _
        cases s1.row_group_reader_ with
        | none => trivial
        | some rg =>
          simp only
          refine Sat_andThen _ _ _ _ _
            (Sat_forEach _
              (fun (eb1 : ExampleBatch) (_ : ParquetExampleReader) =>
                eb1.named_feature_list.map (fun l => (l.id, l.name))
                  = eb.named_feature_list.map (fun l => (l.id, l.name)))
              (fun _ => True) trivial _ eb s1 rfl
              (fun i _ eb1 s2 h2 =>
                Sat_mono _ _ _ (fun _ eb2 _ h3 => ⟨trivial, h3.trans h2⟩)
                  (GetNextExampleBatch_column_keys _ i eb1 s2))) ?_ ?_
          · intro st2 eb2 s2 h2 _
            exact Sat_mono _ _ _ (fun _ eb3 _ h3 => h3.trans h2.2) (ih _ eb2 _)
          · intro st2 eb2 s2 h2 _
            exact h2.2
      · intro st a s1 _ _
        rfl
    · exact rfl

/-! ## C15: the column `__LABEL__` -/

/-- C15, against the claim: in the batch path a selected `__LABEL__` column of
physical type INT64 gets a `NamedFeatureList` like every other column.  The
reader is the one `Init` leaves on `sampleFile`; `GetNextExampleBatch` with an
empty batch and `batch_size` 1 returns OK and the batch has the list of id 0 and
name `__LABEL__`, holding the label of the row as an int64_list. -/
theorem GetNextExampleBatch_LABEL_gets_NamedFeatureList :
    ParquetExampleReader.new.Init sampleFile [⟨"req_time", .CPPTYPE_INT64, false⟩]
        ["__LABEL__", "f", "__SOME_FIELD__"] ["int", "fid_v1", "bytes"]
      = .done Status.OK () sampleReader
    ∧ (sampleReader.GetNextExampleBatch ⟨[], 0⟩ 1).mapState (fun _ => ())
      = .done Status.OK
          ⟨[⟨0, "__LABEL__", [⟨some .int64_list, [.int64 1]⟩]⟩,
            ⟨1, "f", [⟨some .fid_v1_list, [.int64 7, .int64 8]⟩]⟩,
            ⟨2, "__SOME_FIELD__", [⟨some .bytes_list, [.byteArray [97]]⟩]⟩], 1⟩ () :=
  ⟨rfl, rfl⟩

/-- C15, amended: a selected column named `__LABEL__` of physical type INT64 is
routed into the label list in the per-row path only.  The pass of
`GetNextExample` for it adds the values of the row to `example.label`, whatever
the line-id lookup gives, and leaves the named features and `line_id` as they
were; `GetNextExampleBatch`, which has no label list, adds past its end-of-file
test one `NamedFeatureList` per selected column, of id the column index and of
name the column name, so one of name `__LABEL__` for this column as well. -/
theorem LABEL_routed_to_label_in_GetNextExample_only (s : ParquetExampleReader)
    (i col_id : Nat) (buf : ColumnBuffer)
    (hid : s.selected_col_ids_[i]? = some col_id)
    (ht : s.file.physical_type col_id = some .INT64)
    (hname : s.col_pure_name col_id = "__LABEL__")
    (hbuf : s.col_buffers_[i]? = some buf) (htype : buf.type = .INT64) :
    (∀ exa : Example, GetNextExample.column i exa s
      = .done (if buf.GetNextValues.1.ok then Status.OK else buf.GetNextValues.1)
          { label := exa.label ++
              (if buf.GetNextValues.1.ok then buf.GetNextValues.2.1.map FloatOf.mk else []),
            line_id := exa.line_id, named_feature := exa.named_feature }
          { s with col_buffers_ := s.col_buffers_.set i buf.GetNextValues.2.2 })
    ∧ (∀ (example_batch : ExampleBatch) (batch_size : Int), s.IsEOF = false →
        (s.GetNextExampleBatch example_batch batch_size).Sat (fun _ example_batch1 _ =>
          example_batch1.named_feature_list.map (fun l => (l.id, l.name))
            = example_batch.named_feature_list.map (fun l => (l.id, l.name))
              ++ s.selected_col_ids_.map (fun (c : Nat) => ((c : Int), s.col_pure_name c))
          ∧ ((col_id : Int), "__LABEL__")
              ∈ example_batch1.named_feature_list.map (fun l => (l.id, l.name)))) := by
  constructor
  · intro exa
    simp only [GetNextExample.column, hid, ht, hname, if_true, ParquetExampleReader.FillLabel,
      GetNextValues_of_buffer s .INT64 i buf hbuf htype, OutcomeOn.andThen]
    cases buf.GetNextValues.1.ok <;> simp
  · intro eb n heof
    unfold ParquetExampleReader.GetNextExampleBatch
    rw [if_neg (by simp [heof])]
    refine Sat_mono _ _ _ ?_ (GetNextExampleBatch_rows_keys _ _ _ s)
    intro st eb1 s1 h1
    have h2 : eb1.named_feature_list.map (fun l => (l.id, l.name))
        = eb.named_feature_list.map (fun l => (l.id, l.name))
          ++ s.selected_col_ids_.map (fun (c : Nat) => ((c : Int), s.col_pure_name c)) := by
      rw [h1]
      simp [List.map_append, Function.comp_def]
    refine ⟨h2, ?_⟩
    rw [h2, List.mem_append]
    right
    rw [List.mem_map]
    exact ⟨col_id, List.getElem?_mem hid, by rw [hname]⟩

/-- Witness of C15: the first selected column of `sampleReader` is `__LABEL__`;
the pass of `GetNextExample` puts the label 1 of the first row in the label
list and adds no named feature. -/
theorem LABEL_routed_to_label_in_GetNextExample_only_witness :
    sampleReader.selected_col_ids_[0]? = some 0
    ∧ sampleReader.file.physical_type 0 = some .INT64
    ∧ sampleReader.col_pure_name 0 = "__LABEL__"
    ∧ (GetNextExample.column 0 ⟨[], none, []⟩ sampleReader).mapState (fun _ => ())
        = .done Status.OK ⟨[⟨.int64 1⟩], none, []⟩ () :=
  ⟨rfl, rfl, rfl,
    congrArg (OutcomeOn.mapState (fun _ => ()))
      ((LABEL_routed_to_label_in_GetNextExample_only sampleReader 0 0
        ⟨.INT64, ⟨[(Status.OK, [.int64 1]), (Status.OK, [.int64 0])],
          errors.OutOfRange "end of column"⟩⟩ rfl rfl rfl rfl rfl).1 ⟨[], none, []⟩)⟩

/-! ## C25: the offset after a failed `ReadPBBytes` -/

theorem bytesRead_append (log : List (Nat × Status)) (n : Nat) (st : Status) :
    bytesRead (log ++ [(n, st)]) = bytesRead log + (if st.ok then n else 0) := by
  unfold bytesRead
  cases h : st.ok <;> simp [List.filter_append, h]

theorem bytesRead_cons (e : Nat × Status) (log : List (Nat × Status)) :
    bytesRead (e :: log) = (if e.2.ok then e.1 else 0) + bytesRead log := by
  unfold bytesRead
  cases h : e.2.ok <;> simp [List.filter_cons, h]

theorem OffsetInv_ReadNBytes (r0 : StringStreamReader) (hsize : r0.content_.length < 2 ^ 63)
    (s : StringStreamReader × List (Nat × Status)) (n : Nat) (res : Bytes)
    (hs : OffsetInv r0 s) (hn : s.2 ≠ [] ∨ n = 8) :
    (StringStreamReader.asBase.logged.ReadNBytes s n res).Sat
      (fun _ _ s1 => OffsetInv r0 s1 ∧ s1.2 ≠ []) := by
  obtain ⟨h1, h2, h3, h4⟩ := hs
  have hhead : ∀ (e : Nat × Status), e.1 = n → ∀ x ∈ (s.2 ++ [e]).head?, x.1 = 8 := by
    intro e he x hx
    cases hl : s.2 with
    | nil =>
      rw [hl] at hx
      simp only [List.nil_append, List.head?_cons, Option.mem_def, Option.some.injEq] at hx
      subst hx
      rcases hn with hn | hn
      · exact absurd hl hn
      · rw [he, hn]
    | cons y tl =>
      rw [hl] at hx h4
      simp only [List.cons_append, List.head?_cons, Option.mem_def, Option.some.injEq] at hx h4
      subst hx
      exact h4 _ rfl
  simp only [BaseStreamReaderTmpl.logged, StringStreamReader.asBase]
  unfold StringStreamReader.ReadNBytes
  split_ifs with c1 c2 c3
  · refine ⟨⟨h1, ?_, h3, hhead _ rfl⟩, by simp⟩
    show s.1.cur_ = r0.cur_ + bytesRead (s.2 ++ [(n, errors.FailedPrecondition "request n error")])
    rw [bytesRead_append, h2]
    rfl
  · refine ⟨⟨h1, ?_, h3, hhead _ rfl⟩, by simp⟩
    show s.1.cur_ = r0.cur_ + bytesRead (s.2 ++ [(n, errors.OutOfRange "Size exceeds he content size.")])
    rw [bytesRead_append, h2]
    rfl
  · have hlen : s.1.content_.length < 2 ^ 63 := by rw [h1]; exact hsize
    have h5 : (s.1.cur_ + n) % 2 ^ 64 = s.1.cur_ + n := by omega
    refine ⟨⟨h1, ?_, ?_, hhead _ rfl⟩, by simp⟩
    · show (s.1.cur_ + n) % 2 ^ 64 = r0.cur_ + bytesRead (s.2 ++ [(n, Status.OK)])
      rw [bytesRead_append, h5, h2]
      have hOK : Status.OK.ok = true := rfl
      rw [if_pos hOK]
      omega
    · show (s.1.cur_ + n) % 2 ^ 64 ≤ s.1.content_.length
      rw [h5]
      exact c3.2
  · trivial

theorem OffsetInv_ReadBinarySize (r0 : StringStreamReader) (hsize : r0.content_.length < 2 ^ 63)
    (s : StringStreamReader × List (Nat × Status)) (size : Nat) (hs : OffsetInv r0 s) :
    (StringStreamReader.asBase.logged.ReadBinarySize s size).Sat
      (fun _ _ s1 => OffsetInv r0 s1 ∧ s1.2 ≠ []) := by
  unfold BaseStreamReaderTmpl.ReadBinarySize
  refine Sat_andThen _ _ _ _ _ (OffsetInv_ReadNBytes r0 hsize s 8 [] hs (Or.inr rfl)) ?_ ?_
  · intro st a s1 h1 _
    exact h1
  · intro st a s1 h1 _
    exact h1

theorem OffsetInv_ReadDataHeader (r0 : StringStreamReader) (hsize : r0.content_.length < 2 ^ 63)
    (o : DataFormatOptions) (s : StringStreamReader × List (Nat × Status)) (out : HeaderOut)
    (hs : OffsetInv r0 s) :
    (StringStreamReader.asBase.logged.ReadDataHeader o s out).Sat
      (fun _ _ s1 => OffsetInv r0 s1 ∧ (s1.2 = [] → s.2 = [])) := by
  unfold BaseStreamReaderTmpl.ReadDataHeader
  by_cases hlg : o.lagrangex_header = true
  · rw [if_pos hlg]
    refine Sat_andThen _ _ _ _ _ (OffsetInv_ReadBinarySize r0 hsize s 0 hs) ?_ ?_
    · intro st a s1 h1 _
      exact ⟨h1.1, fun h => absurd h h1.2⟩
    · intro st a s1 h1 _
      exact ⟨h1.1, fun h => absurd h h1.2⟩
  · rw [if_neg hlg]
    simp only
    refine Sat_andThen _ _ _
      (fun _ (p : Nat × Nat) s1 => OffsetInv r0 s1 ∧ (p.2 ≠ 0 → s1.2 ≠ [])
        ∧ (s1.2 = [] → s.2 = [])) _ ?_ ?_ ?_
    · by_cases hkp : DataFormatOptions.kafka_dump_prefix o = true
      · rw [if_pos hkp]
        refine Sat_andThen _ _ _ _ _ (OffsetInv_ReadBinarySize r0 hsize s 0 hs) ?_ ?_
        · intro st size s1 h1 _
          by_cases h0 : size = 0
          · rw [if_pos h0]
            refine Sat_andThen _ _ _ _ _ (OffsetInv_ReadBinarySize r0 hsize s1 size h1.1) ?_ ?_
            · intro st2 size2 s2 h2 _
              exact ⟨h2.1, fun _ => h2.2, fun h => absurd h h2.2⟩
            · intro st2 size2 s2 h2 _
              exact ⟨h2.1, fun _ => h2.2, fun h => absurd h h2.2⟩
          · rw [if_neg h0]
            exact ⟨h1.1, fun _ => h1.2, fun h => absurd h h1.2⟩
        · intro st size s1 h1 _
          exact ⟨h1.1, fun _ => h1.2, fun h => absurd h h1.2⟩
      · rw [if_neg hkp]
        exact ⟨hs, fun h => absurd rfl h, fun h => h⟩
    · rintro st ⟨size, agg⟩ s1 h1 _
      refine Sat_andThen _ _ _ (fun _ _ s2 => OffsetInv r0 s2 ∧ (s2.2 = [] → s.2 = [])) _
        ?_ ?_ ?_
      · by_cases hsi : o.has_sort_id = true
        · rw [if_pos hsi]
          refine Sat_andThen _ _ _
            (fun _ _ s2 => OffsetInv r0 s2 ∧ s2.2 ≠ []) _ ?_ ?_ ?_
          · by_cases hagg : agg = 0
            · rw [if_pos hagg]
              exact OffsetInv_ReadBinarySize r0 hsize s1 size h1.1
            · rw [if_neg hagg]
              exact ⟨h1.1, h1.2.1 hagg⟩
          · intro st2 size2 s2 h2 _
            refine Sat_andThen _ _ _ _ _
              (OffsetInv_ReadNBytes r0 hsize s2 size2 [] h2.1 (Or.inl h2.2)) ?_ ?_
            · intro st3 _ s3 h3 _
              exact ⟨h3.1, fun h => absurd h h3.2⟩
            · intro st3 _ s3 h3 _
              exact ⟨h3.1, fun h => absurd h h3.2⟩
          · intro st2 size2 s2 h2 _
            exact ⟨h2.1, fun h => absurd h h2.2⟩
        · rw [if_neg hsi]
          exact ⟨h1.1, h1.2.2⟩
      · intro st2 size2 s2 h2 _
        by_cases hkd : o.kafka_dump = true
        · rw [if_pos hkd]
          refine Sat_andThen _ _ _ _ _ (OffsetInv_ReadBinarySize r0 hsize s2 size2 h2.1) ?_ ?_
          · intro st3 _ s3 h3 _
            exact ⟨h3.1, fun h => absurd h h3.2⟩
          · intro st3 _ s3 h3 _
            exact ⟨h3.1, fun h => absurd h h3.2⟩
        · rw [if_neg hkd]
          exact h2
      · intro st2 size2 s2 h2 _
        exact h2
    · rintro st ⟨size, agg⟩ s1 h1 _
      exact ⟨h1.1, h1.2.2⟩

theorem Sat_and {σ α : Type} (x : OutcomeOn σ α) (P Q : Status → α → σ → Prop)
    (hP : x.Sat P) (hQ : x.Sat Q) : x.Sat (fun st a s => P st a s ∧ Q st a s) := by
  cases x with
  | done st a s => exact ⟨hP, hQ⟩
  | undefined => trivial
  | fatal msg => trivial

theorem LogInv_Sat {σ α : Type} (x : OutcomeOn (σ × List (Nat × Status)) α) (h : LogInv x) :
    x.Sat (fun st _ s => st.ok = false → s.2 ≠ []) := by
  cases x with
  | undefined => trivial
  | fatal msg => trivial
  | done st a s =>
    intro hst
    simp only [LogInv, hst, Bool.false_eq_true, if_false] at h
    obtain ⟨pre, n, hlog, _⟩ := h
    show s.2 ≠ []
    rw [hlog]
    simp

theorem OffsetInv_ReadPBBytes (r0 : StringStreamReader) (hsize : r0.content_.length < 2 ^ 63)
    (o : DataFormatOptions) (s : StringStreamReader × List (Nat × Status)) (out : PBOut)
    (hs : OffsetInv r0 s) (hall : allOk s.2) :
    (StringStreamReader.asBase.logged.ReadPBBytes o s out).Sat
      (fun _ _ s1 => OffsetInv r0 s1 ∧ s1.2 ≠ []) := by
  unfold BaseStreamReaderTmpl.ReadPBBytes
  refine Sat_andThen _ _ _ (fun st _ s1 => OffsetInv r0 s1 ∧ (st.ok = false → s1.2 ≠ [])) _
    ?_ ?_ ?_
  · exact Sat_and _ _ _
      (Sat_mono _ _ _ (fun _ _ _ h => h.1) (OffsetInv_ReadDataHeader r0 hsize o s _ hs))
      (LogInv_Sat _ (LogInv_ReadDataHeader _ o s _ hall))
  · intro st h s1 h1 _
    simp only
    refine Sat_andThen _ _ _ _ _ (OffsetInv_ReadBinarySize r0 hsize s1 0 h1.1) ?_ ?_
    · intro st2 size s2 h2 _
      split_ifs
      · exact h2
      · refine Sat_andThen _ _ _ _ _
          (OffsetInv_ReadNBytes r0 hsize s2 size _ h2.1 (Or.inl h2.2)) ?_ ?_
        · intro st3 _ s3 h3 _
          exact h3
        · intro st3 _ s3 h3 _
          exact h3
    · intro st2 size s2 h2 _
      exact h2
  · intro st h s1 h1 hst
    exact ⟨h1.1, h1.2 hst⟩

theorem bytesRead_ge_8 (log : List (Nat × Status)) (hne : log ≠ [])
    (hhead : ∀ e ∈ log.head?, e.1 = 8 ∧ e.2.ok = true) : 8 ≤ bytesRead log := by
  cases log with
  | nil => exact absurd rfl hne
  | cons e tl =>
    have h := hhead e rfl
    rw [bytesRead_cons, h.2, if_pos rfl, h.1]
    omega

/-- C25: `ReadPBBytes` is not atomic at frame level.  On an in-memory source,
with the `ReadNBytes` calls read off a logging wrapper that does not change the
outcome: after the call the offset is the offset before it plus the bytes of
the reads that returned OK, the position just after the last field read
successfully.  The first read always asks for 8 bytes, so when the call
fails, the offset is where it was exactly when the very first read is the one
that failed, and otherwise (a later read failed, or the sentinel was found) it
is at least 8 bytes further. -/
theorem ReadPBBytes_failure_keeps_bytes_consumed (o : DataFormatOptions)
    (r : StringStreamReader) (out : PBOut) (st : Status) (res : PBOut)
    (r1 : StringStreamReader) (log : List (Nat × Status))
    (hcur : r.cur_ ≤ r.content_.length) (hsize : r.content_.length < 2 ^ 63)
    (h : StringStreamReader.asBase.logged.ReadPBBytes o (r, []) out = .done st res (r1, log)) :
    StringStreamReader.asBase.ReadPBBytes o r out = .done st res r1
    ∧ r1.content_ = r.content_
    ∧ r1.GetOffset = r.GetOffset + bytesRead log
    ∧ (st.ok = false →
        (r1.GetOffset = r.GetOffset ↔ log = [(8, st)])
        ∧ (log ≠ [(8, st)] → r.GetOffset + 8 ≤ r1.GetOffset)) := by
  have herase := logged_ReadPBBytes_erase StringStreamReader.asBase o (r, []) out
  rw [h] at herase
  have hinv := OffsetInv_ReadPBBytes r hsize o (r, []) out
    ⟨rfl, by simp [bytesRead], hcur, by simp⟩ (by intro e he; cases he)
  rw [h] at hinv
  obtain ⟨⟨h1, h2, h3, h4⟩, hne⟩ := hinv
  have hlog := LogInv_ReadPBBytes StringStreamReader.asBase o (r, []) out
    (by intro e he; cases he)
  rw [h] at hlog
  refine ⟨herase.symm, h1, h2, ?_⟩
  intro hst
  simp only [hst, Bool.false_eq_true, if_false] at hlog
  have hkey : log = [(8, st)] ∨ 8 ≤ bytesRead log := by
    rcases hlog with ⟨pre, n, hl, hpre⟩ | ⟨_, hall⟩
    · cases pre with
      | nil =>
        left
        simp only [List.nil_append] at hl
        have h8 := h4 (n, st) (by show (n, st) ∈ log.head?; rw [hl]; rfl)
        simp only at h8
        rw [hl, h8]
      | cons e tl =>
        right
        refine bytesRead_ge_8 log hne ?_
        intro x hx
        have hx2 : x = e := by
          have hx3 : x ∈ log.head? := hx
          rw [hl] at hx3
          simpa using hx3.symm
        subst hx2
        exact ⟨h4 x hx, hpre x (List.mem_cons_self _ _)⟩
    · right
      refine bytesRead_ge_8 log hne ?_
      intro x hx
      refine ⟨h4 x hx, hall x ?_⟩
      cases log with
      | nil => cases hx
      | cons y tl =>
        have : x = y := by simpa using (show x ∈ (y :: tl).head? from hx).symm
        rw [this]
        exact List.mem_cons_self _ _
  have hlog1 : log = [(8, st)] → bytesRead log = 0 := by
    intro hl
    rw [hl, bytesRead_cons, hst]
    simp [bytesRead]
  have hoff : r1.cur_ = r.cur_ + bytesRead log := h2
  constructor
  · constructor
    · intro heq
      rcases hkey with hk | hk
      · exact hk
      · exfalso
        have : r1.cur_ = r.cur_ := heq
        omega
    · intro hl
      show r1.cur_ = r.cur_
      rw [hoff, hlog1 hl]
      rfl
  · intro hl
    rcases hkey with hk | hk
    · exact absurd hk hl
    · show r.cur_ + 8 ≤ r1.cur_
      omega

/-- Witness of C25: all flags off and the content `LE64(5) ++ "He"`, a
truncated payload: the length field is read, the payload read fails, and the
offset stays at 8, after the length field.  With the content `LE64(0xfefefefe)`
the sentinel is found and the offset is 8 as well; with 4 bytes of content the
first read fails and the offset stays 0. -/
theorem ReadPBBytes_failure_keeps_bytes_consumed_witness :
    StringStreamReader.asBase.ReadPBBytes ⟨false, false, false, false⟩
        ⟨[5, 0, 0, 0, 0, 0, 0, 0, 72, 101], 0⟩ ⟨0, 0, []⟩
      = .done (errors.FailedPrecondition "request n error") ⟨0, 0, []⟩
          ⟨[5, 0, 0, 0, 0, 0, 0, 0, 72, 101], 8⟩
    ∧ StringStreamReader.GetOffset ⟨[5, 0, 0, 0, 0, 0, 0, 0, 72, 101], 8⟩
      = StringStreamReader.GetOffset ⟨[5, 0, 0, 0, 0, 0, 0, 0, 72, 101], 0⟩
        + bytesRead [(8, Status.OK), (5, errors.FailedPrecondition "request n error")]
    ∧ bytesRead [(8, Status.OK), (5, errors.FailedPrecondition "request n error")] = 8
    ∧ StringStreamReader.asBase.ReadPBBytes ⟨false, false, false, false⟩
        ⟨[0xfe, 0xfe, 0xfe, 0xfe, 0, 0, 0, 0], 0⟩ ⟨0, 0, []⟩
      = .done (errors.InvalidArgument "DEADBEEF value found") ⟨0, 0, []⟩
          ⟨[0xfe, 0xfe, 0xfe, 0xfe, 0, 0, 0, 0], 8⟩
    ∧ StringStreamReader.asBase.ReadPBBytes ⟨false, false, false, false⟩
        ⟨[5, 0, 0, 0], 0⟩ ⟨0, 0, []⟩
      = .done (errors.FailedPrecondition "request n error") ⟨0, 0, []⟩ ⟨[5, 0, 0, 0], 0⟩ :=
  have h := ReadPBBytes_failure_keeps_bytes_consumed ⟨false, false, false, false⟩
    ⟨[5, 0, 0, 0, 0, 0, 0, 0, 72, 101], 0⟩ ⟨0, 0, []⟩
    (errors.FailedPrecondition "request n error") ⟨0, 0, []⟩
    ⟨[5, 0, 0, 0, 0, 0, 0, 0, 72, 101], 8⟩
    [(8, Status.OK), (5, errors.FailedPrecondition "request n error")]
    (by decide) (by decide) (by decide)
  ⟨h.1, h.2.2.1, by decide, by decide, by decide⟩

/-! ## C26: a frame with an empty payload -/

theorem ReadNBytes_zero (r : StringStreamReader) (res : Bytes)
    (h1 : r.cur_ ≤ r.content_.length) (h2 : r.content_.length < 2 ^ 63) :
    r.ReadNBytes 0 res = .done Status.OK [] r := by
  rw [ReadNBytes_ok_of_le r 0 res (by omega) h2]
  simp

/-- C26: a frame whose payload length field is 0 is accepted by the framer and
rejected by the Kafka handler.  For every flag setting and every in-memory
reader on which `ReadDataHeader` returns OK and the next 8 bytes, which may be
the last 8 bytes of the content, decode to 0, `ReadPBBytes` returns OK with an
empty record and the offset right after that length field; and for every
iterator whose `next` hands back that status and that record, `GetNext` with
output PLAINTEXT and the Kafka handler returns `FailedPrecondition`, with
`reader_status` OK and the four lists as they were. -/
theorem ReadPBBytes_zero_payload_rejected_by_handler (o : DataFormatOptions)
    (r r1 : StringStreamReader) (out : PBOut) (st : Status) (h : HeaderOut)
    (hhead : ReadDataHeader o r ⟨out.pb_type, out.data_source_key⟩ = .done st h r1)
    (hok : st.ok = true)
    (hsize : r1.content_.length < 2 ^ 63) (hfield : r1.cur_ + 8 ≤ r1.content_.length)
    (hzero : DecodeFixed64 ((r1.content_.drop r1.cur_).take 8) = 0) :
    ReadPBBytes o r out
      = .done Status.OK ⟨h.pb_type, h.data_source_key, []⟩ ⟨r1.content_, r1.cur_ + 8⟩
    ∧ StringStreamReader.GetOffset ⟨r1.content_, r1.cur_ + 8⟩ = r1.cur_ + 8
    ∧ ∀ (ρ I E B : Type) (P : PBIterator ρ I E B) (M : Messages I E B) (bI : I → Nat)
        (bE : E → Nat) (bB : B → Nat) (input : DataFormat) (reader : ρ)
        (output : CurOutput I E B) (offset : Nat),
        (P.next_tstring reader offset []).status = Status.OK →
        (P.next_tstring reader offset []).value = [] →
        (GetNext P M (CurPBIteratorHandler bI bE bB) input DataFormat.PLAINTEXT reader output
            offset).status = errors.FailedPrecondition "tstring size=0"
        ∧ (GetNext P M (CurPBIteratorHandler bI bE bB) input DataFormat.PLAINTEXT reader output
            offset).output = { output with reader_status := Status.OK } := by
  refine ⟨?_, rfl, ?_⟩
  · have hb : ReadBinarySize r1 0 = .done Status.OK 0 ⟨r1.content_, r1.cur_ + 8⟩ := by
      unfold ReadBinarySize
      rw [ReadNBytes_ok_of_le r1 8 [] hfield hsize]
      have hOK : Status.OK.ok = true := rfl
      simp only [hOK, if_true, hzero]
    have hn : StringStreamReader.ReadNBytes ⟨r1.content_, r1.cur_ + 8⟩ 0 out.record
        = .done Status.OK [] ⟨r1.content_, r1.cur_ + 8⟩ :=
      ReadNBytes_zero _ _ hfield hsize
    unfold ReadPBBytes
    rw [hhead]
    simp only [hok, Bool.not_true, Bool.false_eq_true, if_false, hb]
    have hOK : Status.OK.ok = true := rfl
    simp only [hOK, Bool.not_true, Bool.false_eq_true, if_false]
    rw [if_neg (by decide), hn]
  · intro ρ I E B P M bI bE bB input reader output offset h1 h2
    simp [GetNext, GetNext.plaintext, GetNext.finish, CurPBIteratorHandler, h1, h2,
      CurPBIteratorHandler.HandleReaderNextStauts_tstring, Status.ok, errors.FailedPrecondition]

/-- Witness of C26: all flags off and a content that is the 8-byte length
field 0 and nothing else. -/
theorem ReadPBBytes_zero_payload_rejected_by_handler_witness :
    ReadPBBytes ⟨false, false, false, false⟩ ⟨[0, 0, 0, 0, 0, 0, 0, 0], 0⟩ ⟨5, 6, [1]⟩
      = .done Status.OK ⟨0, 6, []⟩ ⟨[0, 0, 0, 0, 0, 0, 0, 0], 8⟩
    ∧ (GetNext (⟨fun reader offset _ => ⟨Status.OK, reader, offset + 8, []⟩,
          fun reader offset v => ⟨Status.OK, reader, offset, v⟩,
          fun reader offset v => ⟨Status.OK, reader, offset, v⟩,
          fun reader offset v => ⟨Status.OK, reader, offset, v⟩⟩ : PBIterator Nat Nat Nat Nat)
        ⟨0, 0, 0, fun e i => (Status.OK, e, i), fun i e => (Status.OK, i, e)⟩
        (CurPBIteratorHandler (fun _ => 1) (fun _ => 1) (fun _ => 1))
        DataFormat.PLAINTEXT DataFormat.PLAINTEXT 0
        ⟨errors.OutOfRange "before", [], [], [], [[1]]⟩ 0).status
      = errors.FailedPrecondition "tstring size=0"
    ∧ (GetNext (⟨fun reader offset _ => ⟨Status.OK, reader, offset + 8, []⟩,
          fun reader offset v => ⟨Status.OK, reader, offset, v⟩,
          fun reader offset v => ⟨Status.OK, reader, offset, v⟩,
          fun reader offset v => ⟨Status.OK, reader, offset, v⟩⟩ : PBIterator Nat Nat Nat Nat)
        ⟨0, 0, 0, fun e i => (Status.OK, e, i), fun i e => (Status.OK, i, e)⟩
        (CurPBIteratorHandler (fun _ => 1) (fun _ => 1) (fun _ => 1))
        DataFormat.PLAINTEXT DataFormat.PLAINTEXT 0
        ⟨errors.OutOfRange "before", [], [], [], [[1]]⟩ 0).output
      = ⟨Status.OK, [], [], [], [[1]]⟩ :=
  have h := ReadPBBytes_zero_payload_rejected_by_handler ⟨false, false, false, false⟩
    ⟨[0, 0, 0, 0, 0, 0, 0, 0], 0⟩ ⟨[0, 0, 0, 0, 0, 0, 0, 0], 0⟩ ⟨5, 6, [1]⟩ Status.OK ⟨0, 6⟩
    rfl rfl (by decide) (by decide) (by decide)
  ⟨h.1,
    (h.2.2 Nat Nat Nat Nat _ _ (fun _ => 1) (fun _ => 1) (fun _ => 1) DataFormat.PLAINTEXT 0
      ⟨errors.OutOfRange "before", [], [], [], [[1]]⟩ 0 rfl rfl).1,
    (h.2.2 Nat Nat Nat Nat _ _ (fun _ => 1) (fun _ => 1) (fun _ => 1) DataFormat.PLAINTEXT 0
      ⟨errors.OutOfRange "before", [], [], [], [[1]]⟩ 0 rfl rfl).2⟩

/-! ## C27: the status of the conversion functions -/

/-- C27: in the branch (EXAMPLE, INSTANCE) of `GetNext`, once
`HandleReaderNextStauts` has returned OK on the Example read, the status
returned is exactly the status of `HandleResult`, called on the message that
`ExampleToInstance` wrote, and the output is the one `HandleResult` leaves; the
same holds in the branch (INSTANCE, EXAMPLE) once `HandleReaderNextStauts` has
returned OK on the Instance read, with `InstanceToExample`; each branch asks
for its own read only.  Replacing the status of the conversion functions by
any other status changes nothing, for any pair of types. -/
theorem GetNext_discards_conversion_status {ρ Out I E B : Type} (P : PBIterator ρ I E B)
    (M : Messages I E B) (H : THanler Out I E B) (reader : ρ) (output : Out) (offset : Nat) :
    ((H.HandleReaderNextStauts_Example (P.next_Example reader offset M.Example_new).status
          (P.next_Example reader offset M.Example_new).value).ok = true →
      (GetNext P M H DataFormat.EXAMPLE DataFormat.INSTANCE reader output offset).status
        = (H.HandleResult_Instance
            (M.ExampleToInstance (P.next_Example reader offset M.Example_new).value
              M.Instance_new).2.2
            (H.set_reader_status output (P.next_Example reader offset M.Example_new).status)).1
      ∧ (GetNext P M H DataFormat.EXAMPLE DataFormat.INSTANCE reader output offset).output
        = (H.HandleResult_Instance
            (M.ExampleToInstance (P.next_Example reader offset M.Example_new).value
              M.Instance_new).2.2
            (H.set_reader_status output (P.next_Example reader offset M.Example_new).status)).2)
    ∧ ((H.HandleReaderNextStauts_Instance (P.next_Instance reader offset M.Instance_new).status
          (P.next_Instance reader offset M.Instance_new).value).ok = true →
      (GetNext P M H DataFormat.INSTANCE DataFormat.EXAMPLE reader output offset).status
        = (H.HandleResult_Example
            (M.InstanceToExample (P.next_Instance reader offset M.Instance_new).value
              M.Example_new).2.2
            (H.set_reader_status output (P.next_Instance reader offset M.Instance_new).status)).1
      ∧ (GetNext P M H DataFormat.INSTANCE DataFormat.EXAMPLE reader output offset).output
        = (H.HandleResult_Example
            (M.InstanceToExample (P.next_Instance reader offset M.Instance_new).value
              M.Example_new).2.2
            (H.set_reader_status output (P.next_Instance reader offset M.Instance_new).status)).2)
    ∧ ∀ (st1 st2 : Status) (input_pb_type_ output_pb_type_ : DataFormat),
        GetNext P
            { M with
              ExampleToInstance := fun exa ins => (st1, (M.ExampleToInstance exa ins).2),
              InstanceToExample := fun ins exa => (st2, (M.InstanceToExample ins exa).2) }
            H input_pb_type_ output_pb_type_ reader output offset
          = GetNext P M H input_pb_type_ output_pb_type_ reader output offset := by
  have h1 : ∀ s : Status, s.ok = true → (!s.ok) = false := fun s h => by simp [h]
  refine ⟨fun hE => ⟨?_, ?_⟩, fun hI => ⟨?_, ?_⟩, ?_⟩
  · simp [GetNext, GetNext.exampleToInstance, GetNext.finish, h1 _ hE]
  · simp [GetNext, GetNext.exampleToInstance, GetNext.finish, h1 _ hE]
  · simp [GetNext, GetNext.instanceToExample, GetNext.finish, h1 _ hI]
  · simp [GetNext, GetNext.instanceToExample, GetNext.finish, h1 _ hI]
  · intro st1 st2 i o
    cases i <;> cases o <;> rfl

/-- Witness of C27: with the Kafka handler and conversion functions that
return `InvalidArgument`, `GetNext` returns OK in both converting branches and
the converted message is in the list of `HandleResult`; in the branch
(EXAMPLE, INSTANCE) also on an iterator whose Instance read fails. -/
theorem GetNext_discards_conversion_status_witness :
    (sampleMessages.ExampleToInstance 8 0).1 = errors.InvalidArgument "conversion failed"
    ∧ (exampleOnlyIterator.next_Instance 0 0 0).status = errors.OutOfRange "no instance"
    ∧ (GetNext exampleOnlyIterator sampleMessages (CurPBIteratorHandler (fun _ => 1) (fun _ => 1)
          (fun _ => 1)) DataFormat.EXAMPLE DataFormat.INSTANCE 0 ⟨Status.OK, [], [], [], []⟩
          0).status = Status.OK
    ∧ (GetNext exampleOnlyIterator sampleMessages (CurPBIteratorHandler (fun _ => 1) (fun _ => 1)
          (fun _ => 1)) DataFormat.EXAMPLE DataFormat.INSTANCE 0 ⟨Status.OK, [], [], [], []⟩
          0).output.ins_pb_list = [108]
    ∧ (GetNext sampleIterator sampleMessages (CurPBIteratorHandler (fun _ => 1) (fun _ => 1)
          (fun _ => 1)) DataFormat.INSTANCE DataFormat.EXAMPLE 0 ⟨Status.OK, [], [], [], []⟩
          0).status = Status.OK
    ∧ (GetNext sampleIterator sampleMessages (CurPBIteratorHandler (fun _ => 1) (fun _ => 1)
          (fun _ => 1)) DataFormat.INSTANCE DataFormat.EXAMPLE 0 ⟨Status.OK, [], [], [], []⟩
          0).output.exa_pb_list = [107] :=
  have hE := (GetNext_discards_conversion_status exampleOnlyIterator sampleMessages
    (CurPBIteratorHandler (fun _ => 1) (fun _ => 1) (fun _ => 1)) 0 ⟨Status.OK, [], [], [], []⟩
    0).1 rfl
  have hI := (GetNext_discards_conversion_status sampleIterator sampleMessages
    (CurPBIteratorHandler (fun _ => 1) (fun _ => 1) (fun _ => 1)) 0 ⟨Status.OK, [], [], [], []⟩
    0).2.1 rfl
  ⟨rfl, rfl, hE.1, congrArg CurOutput.ins_pb_list hE.2, hI.1,
    congrArg CurOutput.exa_pb_list hI.2⟩

/-! ## C30: the substring of `GetLineIdFieldByName` -/

theorem toLower_regClassChars :
    ∀ c ∈ regClassChars, c.toLower = '_' ∨ ('a' ≤ c.toLower ∧ c.toLower ≤ 'z') := by
  decide

/-- C30: for every name that matches `__[A-Z_]+__` as a whole, the length is at
least 5, so `name.length() - 4` does not underflow and `name.substr(2,
name.length() - 4)` is in bounds; the key that `GetLineIdFieldByName` looks up,
the lower-cased substring, is not empty, has length exactly `length - 4` and
consists only of lower-case ASCII letters and underscores. -/
theorem GetLineIdFieldByName_substr_in_bounds (name : String) (hlen : name.length < 2 ^ 64)
    (hm : regex_match name reg = true) :
    5 ≤ name.length
    ∧ (name.length + 2 ^ 64 - 4) % 2 ^ 64 = name.length - 4
    ∧ ∃ subname, substr name 2 ((name.length + 2 ^ 64 - 4) % 2 ^ 64) = some subname
        ∧ 2 + subname.length ≤ name.length
        ∧ (AsciiStrToLower subname).length = name.length - 4
        ∧ AsciiStrToLower subname ≠ ""
        ∧ (∀ c ∈ (AsciiStrToLower subname).toList, c = '_' ∨ ('a' ≤ c ∧ c ≤ 'z'))
        ∧ ∀ descriptor_ : List FieldDescriptor, GetLineIdFieldByName descriptor_ name
            = .ok (FindFieldByName descriptor_ (AsciiStrToLower subname)) := by
  obtain ⟨mid, hne, hall, hname⟩ := (reg_rmatch_iff _).1 hm
  have hl : name.length = mid.length + 4 := by
    have h := congrArg List.length hname
    simp only [List.length_cons, List.length_append, List.length_nil] at h
    rw [show name.length = name.toList.length from rfl, h]
  have hmid : 0 < mid.length := List.length_pos.2 hne
  have hn : (name.length + 2 ^ 64 - 4) % 2 ^ 64 = mid.length := by omega
  have hs : substr name 2 mid.length = some ⟨mid⟩ := by
    unfold substr
    rw [if_neg (by omega), hname]
    simp
  refine ⟨by omega, by omega, ⟨mid⟩, by rw [hn, hs], ?_, ?_, ?_, ?_, ?_⟩
  · show 2 + mid.length ≤ name.length
    omega
  · show (mid.map Char.toLower).length = name.length - 4
    rw [List.length_map]
    omega
  · intro h
    have h2 := congrArg String.length h
    have h3 : (AsciiStrToLower ⟨mid⟩).length = mid.length := by
      show (mid.map Char.toLower).length = mid.length
      rw [List.length_map]
    rw [h3] at h2
    have h4 : ("" : String).length = 0 := rfl
    omega
  · intro c hc
    have hc2 : c ∈ mid.map Char.toLower := hc
    obtain ⟨d, hd, rfl⟩ := List.mem_map.1 hc2
    exact toLower_regClassChars d (hall d hd)
  · intro descriptor_
    simp only [GetLineIdFieldByName, hm, Bool.not_true, Bool.false_eq_true, if_false, hn, hs]

/-- Witness of C30: the name of five underscores matches, and the key looked
up is the one underscore in the middle. -/
theorem GetLineIdFieldByName_substr_in_bounds_witness :
    regex_match "_____" reg = true
    ∧ substr "_____" 2 (("_____".length + 2 ^ 64 - 4) % 2 ^ 64) = some "_"
    ∧ AsciiStrToLower "_" = "_"
    ∧ 5 ≤ "_____".length
    ∧ ("_____".length + 2 ^ 64 - 4) % 2 ^ 64 = "_____".length - 4 :=
  ⟨rfl, rfl, rfl,
    (GetLineIdFieldByName_substr_in_bounds "_____" (by decide) rfl).1,
    (GetLineIdFieldByName_substr_in_bounds "_____" (by decide) rfl).2.1⟩

/-! ## C28: the upper half of the lagrangex header -/

/-- C28: in lagrangex mode the upper 32 bits of the 8-byte header are ignored.
For every header value `v` below 2^64 the reader hands back `pb_type = v mod
256` and `data_source_key` the low 32 bits of `v` with bits 0-7 cleared, a
multiple of 256 below 2^32; hence two header values that agree on their low 32
bits give the same `pb_type` and the same `data_source_key`. -/
theorem ReadDataHeader_lagrangex_low_32_bits (kp hs kd : Bool) (v w : Nat) (a b a2 b2 : Bytes)
    (out out2 : HeaderOut) (hv : v < 2 ^ 64) (hw : w < 2 ^ 64)
    (hlen : a.length + 8 + b.length < 2 ^ 63) (hlen2 : a2.length + 8 + b2.length < 2 ^ 63)
    (hlow : v % 2 ^ 32 = w % 2 ^ 32) :
    (∃ pb_type data_source_key,
      ReadDataHeader ⟨true, kp, hs, kd⟩ (readerAt a (EncodeFixed64 v ++ b)) out
        = .done Status.OK ⟨pb_type, data_source_key⟩ (readerAt (a ++ EncodeFixed64 v) b)
      ∧ ReadDataHeader ⟨true, kp, hs, kd⟩ (readerAt a2 (EncodeFixed64 w ++ b2)) out2
        = .done Status.OK ⟨pb_type, data_source_key⟩ (readerAt (a2 ++ EncodeFixed64 w) b2)
      ∧ pb_type = v % 256
      ∧ data_source_key = v % 2 ^ 32 - v % 2 ^ 32 % 256
      ∧ data_source_key % 256 = 0
      ∧ data_source_key / 256 = v % 2 ^ 32 / 256
      ∧ data_source_key < 2 ^ 32) := by
  have h1 := ReadDataHeader_wireHeader ⟨true, kp, hs, kd⟩ ⟨v, 0, 0, [], 0, []⟩ a b out
    ⟨hv, by norm_num, by norm_num, by norm_num, by simp⟩
    (by simp [wireHeader, EncodeFixed64_length]; omega)
  have h2 := ReadDataHeader_wireHeader ⟨true, kp, hs, kd⟩ ⟨w, 0, 0, [], 0, []⟩ a2 b2 out2
    ⟨hw, by norm_num, by norm_num, by norm_num, by simp⟩
    (by simp [wireHeader, EncodeFixed64_length]; omega)
  simp only [wireHeader, headerOut, if_true] at h1 h2
  have hpb : v % 256 = w % 256 := by omega
  refine ⟨v % 256, v % 2 ^ 32 / 256 * 256, h1, ?_, rfl, ?_, ?_, ?_, ?_⟩
  · rw [h2, hpb, hlow]
  · omega
  · omega
  · omega
  · omega

/-- Witness of C28: the header values `0x102` and `0xffffffff00000102` agree on
their low 32 bits. -/
theorem ReadDataHeader_lagrangex_low_32_bits_witness :
    (0x102 : Nat) % 2 ^ 32 = 0xffffffff00000102 % 2 ^ 32
    ∧ ReadDataHeader ⟨true, false, false, false⟩
          (readerAt [] (EncodeFixed64 0xffffffff00000102 ++ [])) ⟨9, 9⟩
        = .done Status.OK ⟨2, 0x100⟩ (readerAt ([] ++ EncodeFixed64 0xffffffff00000102) [])
    ∧ ∃ pb_type data_source_key,
      ReadDataHeader ⟨true, false, false, false⟩ (readerAt [] (EncodeFixed64 0x102 ++ [])) ⟨0, 0⟩
        = .done Status.OK ⟨pb_type, data_source_key⟩ (readerAt ([] ++ EncodeFixed64 0x102) [])
      ∧ ReadDataHeader ⟨true, false, false, false⟩
          (readerAt [] (EncodeFixed64 0xffffffff00000102 ++ [])) ⟨9, 9⟩
        = .done Status.OK ⟨pb_type, data_source_key⟩
            (readerAt ([] ++ EncodeFixed64 0xffffffff00000102) [])
      ∧ pb_type = 0x102 % 256
      ∧ data_source_key = 0x102 % 2 ^ 32 - 0x102 % 2 ^ 32 % 256
      ∧ data_source_key % 256 = 0
      ∧ data_source_key / 256 = 0x102 % 2 ^ 32 / 256
      ∧ data_source_key < 2 ^ 32 :=
  ⟨by decide, by decide,
    ReadDataHeader_lagrangex_low_32_bits false false false 0x102 0xffffffff00000102 [] [] [] []
      ⟨0, 0⟩ ⟨9, 9⟩ (by decide) (by decide) (by decide) (by decide) (by decide)⟩

/-! ## C29: `GetCompressType` -/

/-- C29: `GetCompressType(use_snappy, t)` ends in `LOG(FATAL)` exactly when
`t < 0`, or `t >= 6`, or `use_snappy` is set and `t` is neither 0 (UNKNOW) nor
2 (SNAPPY); for every other input it returns SNAPPY when `use_snappy` is set,
NO when it is not and `t` is UNKNOW, and `t` itself otherwise; what it returns
is one of NO, SNAPPY, ZSTD, ZLIB, GZIP and never UNKNOW or MAX. -/
theorem GetCompressType_aborts_iff (use_snappy : Bool) (t : Int) :
    ((∃ msg, GetCompressType use_snappy t = .error msg)
        ↔ (t < 0 ∨ t ≥ 6 ∨ (use_snappy = true ∧ t ≠ 0 ∧ t ≠ 2)))
    ∧ (¬ (t < 0 ∨ t ≥ 6 ∨ (use_snappy = true ∧ t ≠ 0 ∧ t ≠ 2)) →
        GetCompressType use_snappy t
          = .ok (if use_snappy = true then InputCompressType.SNAPPY
                 else if t = 0 then InputCompressType.NO else ⟨t⟩))
    ∧ (∀ ret, GetCompressType use_snappy t = .ok ret →
        ret ∈ [InputCompressType.NO, InputCompressType.SNAPPY, InputCompressType.ZSTD,
               InputCompressType.ZLIB, InputCompressType.GZIP]
        ∧ ret ≠ InputCompressType.UNKNOW ∧ ret ≠ InputCompressType.MAX) := by
  have hU : InputCompressType.UNKNOW.value = 0 := rfl
  have hM : InputCompressType.MAX.value = 6 := rfl
  have hS : InputCompressType.SNAPPY.value = 2 := rfl
  refine ⟨?_, ?_, ?_⟩
  · unfold GetCompressType
    rw [hU, hM, hS]
    cases use_snappy <;> simp only [Bool.false_eq_true, if_false, if_true, false_and, or_false,
      true_and]
    · split_ifs with h1 h2
      · exact ⟨fun _ => by omega, fun _ => ⟨_, rfl⟩⟩
      · exact ⟨fun h => (by obtain ⟨m, hm⟩ := h; cases hm), fun h => by omega⟩
      · exact ⟨fun h => (by obtain ⟨m, hm⟩ := h; cases hm), fun h => by omega⟩
    · split_ifs with h1 h2
      · exact ⟨fun _ => by omega, fun _ => ⟨_, rfl⟩⟩
      · exact ⟨fun _ => by omega, fun _ => ⟨_, rfl⟩⟩
      · exact ⟨fun h => (by obtain ⟨m, hm⟩ := h; cases hm), fun h => by omega⟩
  · intro h
    unfold GetCompressType
    rw [hU, hM, hS]
    cases use_snappy <;> simp only [Bool.false_eq_true, if_false, if_true, false_and, or_false,
      true_and] at h ⊢
    · rw [if_neg (by omega)]
      split_ifs <;> rfl
    · rw [if_neg (by omega), if_neg (by omega)]
  · intro ret h
    unfold GetCompressType at h
    rw [hU, hM, hS] at h
    split_ifs at h with h1 h2 h3 h4
    · injection h with h
      subst h
      decide
    · injection h with h
      subst h
      decide
    · injection h with h
      subst h
      have h5 : t = 1 ∨ t = 2 ∨ t = 3 ∨ t = 4 ∨ t = 5 := by omega
      rcases h5 with rfl | rfl | rfl | rfl | rfl <;> decide

/-! ## Parquet reader: what the read paths leave as it was -/

theorem Kept_refl (s : ParquetExampleReader) : Kept s s := ⟨rfl, rfl, rfl, rfl⟩

theorem Kept_trans {s0 s1 s2 : ParquetExampleReader} (h1 : Kept s0 s1) (h2 : Kept s1 s2) :
    Kept s0 s2 :=
  ⟨h2.1.trans h1.1, h2.2.1.trans h1.2.1, h2.2.2.1.trans h1.2.2.1, h2.2.2.2.trans h1.2.2.2⟩

theorem GetNextValues_Kept (s : ParquetExampleReader) (T : ParquetType) (i : Nat) :
    (s.GetNextValues T i).Sat (fun _ _ s1 => Kept s s1) := by
  unfold ParquetExampleReader.GetNextValues
  cases s.col_buffers_[i]? with
  | none => trivial
  | some buf =>
    simp only
    split_ifs
    · trivial
    · exact ⟨rfl, rfl, rfl, rfl⟩

theorem FillValueList_Kept (s : ParquetExampleReader) (T : ParquetType) (i : Nat)
    (feature : Feature) (kind : FeatureKind) :
    (s.FillValueList T i feature kind).Sat (fun _ _ s1 => Kept s s1) := by
  unfold ParquetExampleReader.FillValueList
  exact Sat_andThen _ _ _ _ _ (GetNextValues_Kept s T i) (fun _ _ _ h _ => h) (fun _ _ _ h _ => h)

theorem FillLabel_Kept (s : ParquetExampleReader) (T : ParquetType) (i : Nat) (exa : Example) :
    (s.FillLabel T i exa).Sat
      (fun _ exa1 s1 => Kept s s1 ∧ exa1.named_feature = exa.named_feature) := by
  unfold ParquetExampleReader.FillLabel
  exact Sat_andThen _ _ _ _ _ (GetNextValues_Kept s T i) (fun _ _ _ h _ => ⟨h, rfl⟩)
    (fun _ _ _ h _ => ⟨h, rfl⟩)

theorem GetSingleValue_Kept (s : ParquetExampleReader) (T : ParquetType) (i : Nat) :
    (s.GetSingleValue T i).Sat (fun _ _ s1 => Kept s s1) := by
  have h1 := GetNextValues_Kept s T i
  unfold ParquetExampleReader.GetSingleValue
  cases hx : s.GetNextValues T i with
  | undefined => trivial
  | fatal msg => trivial
  | done st values s1 =>
    rw [hx] at h1
    simp only
    split_ifs
    · trivial
    · trivial
    · exact h1

theorem set_line_id_Kept (s : ParquetExampleReader) (line_field : FieldDescriptor)
    (col_name : String) (col_type expected : ParquetType) (i : Nat) (exa : Example) :
    (GetNextExample.set_line_id line_field col_name col_type expected i exa s).Sat
      (fun _ exa1 s1 => Kept s s1 ∧ exa1.named_feature = exa.named_feature) := by
  have h1 := GetSingleValue_Kept s expected i
  unfold GetNextExample.set_line_id
  split_ifs
  · trivial
  · cases hx : s.GetSingleValue expected i with
    | undefined => trivial
    | fatal msg => trivial
    | done st values s1 =>
      rw [hx] at h1
      cases values with
      | nil => trivial
      | cons v rest => exact ⟨h1, rfl⟩

theorem fillFeature_Kept (s : ParquetExampleReader) (col_type : ParquetType) (i : Nat)
    (feature : Feature) :
    (s.fillFeature col_type i feature).Sat (fun _ _ s1 => Kept s s1) := by
  unfold ParquetExampleReader.fillFeature
  cases col_type <;> simp only <;>
    first
    | exact FillValueList_Kept s _ i feature _
    | exact Kept_refl s
    | (cases s.selected_col_feature_type_[i]? with
        | none => trivial
        | some t =>
          simp only
          split_ifs <;> exact FillValueList_Kept s _ i feature _)
    | exact Sat_andThen _ _ _ _ _ (GetNextValues_Kept s _ i) (fun _ _ _ h _ => h)
        (fun _ _ _ h _ => h)

/-! ## C22: the ids of the named features of an `Example` -/

theorem GetNextExample_column_ids (i : Nat) (exa : Example) (s : ParquetExampleReader) :
    (GetNextExample.column i exa s).Sat (fun _ exa1 s1 => Kept s s1 ∧
      ∃ L : List Int, exa1.named_feature.map NamedFeature.id
          = exa.named_feature.map NamedFeature.id ++ L
        ∧ L.Sublist ([i].filterMap (emittedId s.selected_col_ids_))) := by
  unfold GetNextExample.column
  cases hi : s.selected_col_ids_[i]? with
  | none => trivial
  | some col_id =>
    simp only
    cases s.file.physical_type col_id with
    | none => trivial
    | some t =>
      simp only
      have hnil : ∀ (exa1 : Example), exa1.named_feature = exa.named_feature →
          ∃ L : List Int, exa1.named_feature.map NamedFeature.id
              = exa.named_feature.map NamedFeature.id ++ L
            ∧ L.Sublist ([i].filterMap (emittedId s.selected_col_ids_)) :=
        fun exa1 h => ⟨[], by rw [h]; simp, List.nil_sublist _⟩
      split_ifs
      · cases t <;> first
          | trivial
          | exact Sat_mono _ _ _ (fun _ exa1 _ h => ⟨h.1, hnil exa1 h.2⟩) (FillLabel_Kept s _ i exa)
      · cases (s.line_id_discriptor_map_.lookup col_id).join with
        | some line_field =>
          simp only
          split_ifs
          · trivial
          · cases line_field.cpp_type <;> first
              | trivial
              | exact Sat_mono _ _ _ (fun _ exa1 _ h => ⟨h.1, hnil exa1 h.2⟩)
                  (set_line_id_Kept s _ _ _ _ i exa)
        | none =>
          simp only
          have h1 := fillFeature_Kept s t i ⟨none, []⟩
          cases hx : s.fillFeature t i ⟨none, []⟩ with
          | undefined => trivial
          | fatal msg => trivial
          | done st feature s1 =>
            rw [hx] at h1
            refine ⟨h1, [(col_id : Int) + 10000], by simp, ?_⟩
            simp [emittedId, hi]

theorem GetNextExample_columns_ids :
    ∀ (xs : List Nat) (exa : Example) (s : ParquetExampleReader),
      (forEach GetNextExample.column xs exa s).Sat (fun _ exa1 s1 => Kept s s1 ∧
        ∃ L : List Int, exa1.named_feature.map NamedFeature.id
            = exa.named_feature.map NamedFeature.id ++ L
          ∧ L.Sublist (xs.filterMap (emittedId s.selected_col_ids_))) := by
  intro xs
  induction xs with
  | nil =>
    intro exa s
    exact ⟨Kept_refl s, [], by simp, List.Sublist.refl _⟩
  | cons x rest ih =>
    intro exa s
    rw [forEach]
    refine Sat_andThen _ _ _ _ _ (GetNextExample_column_ids x exa s) ?_ ?_
    · intro st exa1 s1 h1 _
      refine Sat_mono _ _ _ ?_ (ih exa1 s1)
      intro st2 exa2 s2 h2
      obtain ⟨k1, L1, e1, sub1⟩ := h1
      obtain ⟨k2, L2, e2, sub2⟩ := h2
      refine ⟨Kept_trans k1 k2, L1 ++ L2, by rw [e2, e1, List.append_assoc], ?_⟩
      rw [k1.2.1] at sub2
      have : (x :: rest).filterMap (emittedId s.selected_col_ids_)
          = [x].filterMap (emittedId s.selected_col_ids_)
            ++ rest.filterMap (emittedId s.selected_col_ids_) := by
        rw [← List.filterMap_append]
        rfl
      rw [this]
      exact List.Sublist.append sub1 sub2
    · intro st exa1 s1 h1 _
      obtain ⟨k1, L1, e1, sub1⟩ := h1
      refine ⟨k1, L1, e1, sub1.trans ?_⟩
      have : (x :: rest).filterMap (emittedId s.selected_col_ids_)
          = [x].filterMap (emittedId s.selected_col_ids_)
            ++ rest.filterMap (emittedId s.selected_col_ids_) := by
        rw [← List.filterMap_append]
        rfl
      rw [this]
      exact List.sublist_append_left _ _

theorem emittedId_eq_some (ids : List Nat) (i : Nat) (b : Int) (h : emittedId ids i = some b) :
    ∃ c : Nat, ids[i]? = some c ∧ b = (c : Int) + 10000 := by
  unfold emittedId at h
  cases hc : ids[i]? with
  | none => rw [hc] at h; cases h
  | some c =>
    rw [hc] at h
    exact ⟨c, rfl, (Option.some.inj h).symm⟩

theorem emittedId_range_nodup (ids : List Nat) (h : ids.Nodup) :
    ((List.range ids.length).filterMap (emittedId ids)).Nodup := by
  refine List.Nodup.filterMap ?_ (List.nodup_range _)
  intro a a' b hb hb'
  obtain ⟨c, hc, hbc⟩ := emittedId_eq_some ids a b hb
  obtain ⟨c', hc', hbc'⟩ := emittedId_eq_some ids a' b hb'
  have hceq : c' = c := by omega
  subst hceq
  by_contra hne
  have ha := (List.getElem?_eq_some_iff.1 hc).1
  have ha' := (List.getElem?_eq_some_iff.1 hc').1
  rcases Nat.lt_or_gt_of_ne hne with hlt | hlt
  · exact (List.nodup_iff_getElem?_ne_getElem?.1 h) a a' hlt ha' (hc.trans hc'.symm)
  · exact (List.nodup_iff_getElem?_ne_getElem?.1 h) a' a hlt ha (hc'.trans hc.symm)

theorem mem_emittedId_range (ids : List Nat) (b : Int)
    (h : b ∈ (List.range ids.length).filterMap (emittedId ids)) :
    ∃ col_id ∈ ids, b = (col_id : Int) + 10000 := by
  obtain ⟨i, _, hi⟩ := List.mem_filterMap.1 h
  obtain ⟨c, hc, hbc⟩ := emittedId_eq_some ids i b hi
  exact ⟨c, List.getElem?_mem hc, hbc⟩

theorem NextRowGroup_column_Kept (row_group : RowGroup) (col_id : Nat)
    (s : ParquetExampleReader) :
    (NextRowGroup.column row_group col_id () s).Sat (fun _ _ s1 => Kept s s1
      ∧ s1.row_group_reader_ = s.row_group_reader_ ∧ s1.row_group_id_ = s.row_group_id_
      ∧ s1.row_group_offset_ = s.row_group_offset_) := by
  unfold NextRowGroup.column
  cases row_group.columns[col_id]? with
  | none => trivial
  | some column_reader =>
    cases s.file.physical_type col_id with
    | none => trivial
    | some t => cases t <;> exact ⟨⟨rfl, rfl, rfl, rfl⟩, rfl, rfl, rfl⟩

theorem NextRowGroup_columns_Kept (row_group : RowGroup) :
    ∀ (xs : List Nat) (s : ParquetExampleReader),
      (forEach (NextRowGroup.column row_group) xs () s).Sat (fun _ _ s1 => Kept s s1
        ∧ s1.row_group_reader_ = s.row_group_reader_ ∧ s1.row_group_id_ = s.row_group_id_
        ∧ s1.row_group_offset_ = s.row_group_offset_) := by
  intro xs
  induction xs with
  | nil => intro s; exact ⟨Kept_refl s, rfl, rfl, rfl⟩
  | cons x rest ih =>
    intro s
    rw [forEach]
    refine Sat_andThen _ _ _ _ _ (NextRowGroup_column_Kept row_group x s) ?_ ?_
    · intro st a s1 h1 _
      refine Sat_mono _ _ _ ?_ (ih s1)
      intro st2 a2 s2 h2
      exact ⟨Kept_trans h1.1 h2.1, h2.2.1.trans h1.2.1, h2.2.2.1.trans h1.2.2.1,
        h2.2.2.2.trans h1.2.2.2⟩
    · intro st a s1 h1 _
      exact h1

theorem toInt64_range (x : Int) : -2 ^ 63 ≤ toInt64 x ∧ toInt64 x < 2 ^ 63 := by
  unfold toInt64
  omega

/-- What `NextRowGroup` does to the reader: the file, the selection and the
row position stay, and when it returns OK from a reader that holds a row
group, the next row group of the file is held, its index is one more and in
range, and the offset has moved by the rows of the group left, both as
`int64_t` values. -/
theorem NextRowGroup_Kept (s : ParquetExampleReader) :
    s.NextRowGroup.Sat (fun st _ s1 => Kept s s1 ∧
      (st.ok = true → ∀ rg, s.row_group_reader_ = some rg →
        s1.row_group_id_ = toInt64 (s.row_group_id_ + 1)
        ∧ 0 ≤ toInt64 (s.row_group_id_ + 1)
        ∧ toInt64 (s.row_group_id_ + 1) < (s.file.row_groups.length : Int)
        ∧ s1.row_group_reader_ = s.file.RowGroup (toInt64 (s.row_group_id_ + 1))
        ∧ s1.row_group_reader_ ≠ none
        ∧ s1.row_group_offset_ = toInt64 (s.row_group_offset_ + rg.num_rows))) := by
  unfold ParquetExampleReader.NextRowGroup
  split_ifs with hge
  · exact ⟨Kept_refl s, fun h => absurd h (by decide)⟩
  · simp only
    split
    · trivial
    · rename_i row_group hrg
      refine Sat_mono _ _ _ ?_ (NextRowGroup_columns_Kept row_group _ _)
      intro st a s1 h1
      obtain ⟨hk, h2, h3, h4⟩ := h1
      refine ⟨⟨hk.1, hk.2.1, hk.2.2.1, hk.2.2.2⟩, ?_⟩
      intro _ rg hrgs
      simp only [hrgs] at h2 h3 h4 hrg
      have hnn : ¬ (toInt64 (s.row_group_id_ + 1) < 0) := by
        intro hneg
        simp [ParquetFile.RowGroup, hneg] at hrg
      refine ⟨h3, by omega, by omega, ?_, ?_, h4⟩
      · rw [h2, hrg]
      · rw [h2]
        simp

/-- What the loop over the row groups leaves: the file, the selection and the
row position stay, and when it returns OK the reader holds a row group in
which the row position lies before the end. -/
theorem skipRowGroups_Kept :
    ∀ (fuel : Nat) (s : ParquetExampleReader),
      (s.skipRowGroups fuel).Sat (fun st _ s1 => Kept s s1 ∧
        (st.ok = true → ∃ rg, s1.row_group_reader_ = some rg
          ∧ s1.iter_ < toInt64 (s1.row_group_offset_ + rg.num_rows))) := by
  intro fuel
  induction fuel with
  | zero =>
    intro s
    rw [ParquetExampleReader.skipRowGroups]
    trivial
  | succ fuel ih =>
    intro s
    rw [ParquetExampleReader.skipRowGroups]
    cases hrg : s.row_group_reader_ with
    | none => trivial
    | some rg =>
      simp only
      split_ifs with hc
      · refine Sat_andThen _ _ _ _ _ (NextRowGroup_Kept s) ?_ ?_
        · intro st a s1 h1 _
          refine Sat_mono _ _ _ ?_ (ih s1)
          intro st2 a2 s2 h2
          exact ⟨Kept_trans h1.1 h2.1, h2.2⟩
        · intro st a s1 h1 hst
          exact ⟨h1.1, fun h => by rw [hst] at h; cases h⟩
      · exact ⟨Kept_refl s, fun _ => ⟨rg, hrg, by omega⟩⟩

/-- C22: after a successful `SetSelectedCols` from cleared selection vectors the
selected column indices are pairwise distinct, and every `Example` that
`GetNextExample` hands back, filled from an empty message by a reader with that
selection, has pairwise distinct `named_feature` ids, each the index of a
selected column plus 10000. -/
theorem GetNextExample_named_feature_ids_distinct (self : ParquetExampleReader)
    (names types : List String) (st : Status) (s0 : ParquetExampleReader)
    (hids : self.selected_col_ids_ = []) (hft : self.selected_col_feature_type_ = [])
    (hwf : ∀ e ∈ self.columns_index_map_, e.2 < self.file.columns.length)
    (hrun : self.SetSelectedCols names types = .done st () s0) (hok : st.ok = true)
    (s : ParquetExampleReader) (hs : s.selected_col_ids_ = s0.selected_col_ids_)
    (st1 : Status) (exa : Example) (s1 : ParquetExampleReader)
    (hget : s.GetNextExample ⟨[], none, []⟩ = .done st1 exa s1) :
    s0.selected_col_ids_.Nodup
    ∧ (exa.named_feature.map NamedFeature.id).Nodup
    ∧ ∀ named_feature ∈ exa.named_feature,
        ∃ col_id ∈ s0.selected_col_ids_, named_feature.id = (col_id : Int) + 10000 := by
  have hnodup : s0.selected_col_ids_.Nodup := by
    rcases SetSelectedCols_cases self names types hids hft hwf with
      ⟨st2, s2, hrun2, hcode, _⟩ | ⟨ids, ps, hrun2, _, _, hnd, _, _⟩
    · rw [hrun] at hrun2
      injection hrun2 with h1 _ _
      subst h1
      simp [Status.ok, hcode] at hok
    · rw [hrun] at hrun2
      injection hrun2 with _ _ h3
      subst h3
      exact hnd
  have hsub : (exa.named_feature.map NamedFeature.id).Sublist
      ((List.range s0.selected_col_ids_.length).filterMap (emittedId s0.selected_col_ids_)) := by
    unfold ParquetExampleReader.GetNextExample at hget
    split_ifs at hget with heof
    · injection hget with _ h2 _
      subst h2
      exact List.nil_sublist _
    · have hskip := skipRowGroups_Kept (s.file.row_groups.length + 1) s
      cases hx : s.skipRowGroups (s.file.row_groups.length + 1) with
      | undefined => rw [hx] at hget; cases hget
      | fatal msg => rw [hx] at hget; cases hget
      | done st2 a s2 =>
        rw [hx] at hget hskip
        simp only [OutcomeOn.andThen] at hget
        split_ifs at hget with hst2
        · have hcols := GetNextExample_columns_ids (List.range s2.selected_col_ids_.length)
            ⟨[], none, []⟩ s2
          cases hy : forEach GetNextExample.column (List.range s2.selected_col_ids_.length)
              ⟨[], none, []⟩ s2 with
          | undefined => rw [hy] at hget; cases hget
          | fatal msg => rw [hy] at hget; cases hget
          | done st3 exa3 s3 =>
            rw [hy] at hget hcols
            obtain ⟨_, L, hL, hLsub⟩ := hcols
            have hs2 : s2.selected_col_ids_ = s0.selected_col_ids_ := hskip.1.2.1.trans hs
            rw [hs2] at hLsub
            simp only [List.map_nil, List.nil_append] at hL
            have hexa : exa = exa3 := by
              simp only [] at hget
              split_ifs at hget <;> (injection hget with _ h2 _; exact h2.symm)
            rw [hexa, hL]
            exact hLsub
        · injection hget with _ h2 _
          subst h2
          exact List.nil_sublist _
  refine ⟨hnodup, hsub.nodup (emittedId_range_nodup _ hnodup), ?_⟩
  intro nf hnf
  exact mem_emittedId_range _ _ (hsub.subset (List.mem_map_of_mem _ hnf))

theorem GetNextExample_named_feature_ids_distinct_witness :
    sampleRegistered.SetSelectedCols ["__LABEL__", "f", "__SOME_FIELD__"]
        ["int", "fid_v1", "bytes"] = .done Status.OK () sampleSelected
    ∧ sampleReader.GetNextExample ⟨[], none, []⟩
        = .done Status.OK sampleFirstExample sampleReaderAfterRow
    ∧ (sampleSelected.selected_col_ids_.Nodup
      ∧ (sampleFirstExample.named_feature.map NamedFeature.id).Nodup
      ∧ ∀ named_feature ∈ sampleFirstExample.named_feature,
          ∃ col_id ∈ sampleSelected.selected_col_ids_,
            named_feature.id = (col_id : Int) + 10000) :=
  ⟨rfl, rfl,
    GetNextExample_named_feature_ids_distinct sampleRegistered
      ["__LABEL__", "f", "__SOME_FIELD__"] ["int", "fid_v1", "bytes"] Status.OK sampleSelected
      rfl rfl (by decide) rfl rfl sampleReader rfl Status.OK sampleFirstExample
      sampleReaderAfterRow rfl⟩

/-! ## Parquet reader: the fuel of the loops -/

theorem andThen_congr_of_Sat {σ α β : Type} (x : OutcomeOn σ α) (errOut : α → β)
    (rest rest1 : α → σ → OutcomeOn σ β) (P : Status → α → σ → Prop) (hx : x.Sat P)
    (h : ∀ st a s, P st a s → st.ok = true → rest a s = rest1 a s) :
    x.andThen errOut rest = x.andThen errOut rest1 := by
  cases x with
  | undefined => rfl
  | fatal msg => rfl
  | done st a s =>
    simp only [OutcomeOn.andThen]
    cases hst : st.ok with
    | true => simpa using h st a s hx hst
    | false => rfl

/-- The fuel of `skipRowGroups` is never used up: with more fuel than one above
the number of row groups left the loop does the same. -/
theorem skipRowGroups_fuel :
    ∀ (fuel k : Nat) (s : ParquetExampleReader), rowGroupsLeft s + 1 ≤ fuel →
      s.skipRowGroups (fuel + k) = s.skipRowGroups fuel := by
  intro fuel
  induction fuel with
  | zero => intro k s h; omega
  | succ fuel ih =>
    intro k s h
    rw [show fuel + 1 + k = (fuel + k) + 1 by omega, ParquetExampleReader.skipRowGroups,
      ParquetExampleReader.skipRowGroups]
    cases hrg : s.row_group_reader_ with
    | none => rfl
    | some rg =>
      simp only
      split_ifs with hc
      · refine andThen_congr_of_Sat _ _ _ _ _ (NextRowGroup_Kept s) ?_
        intro st a s1 h1 hok
        obtain ⟨e1, e2, e3, -, -, -⟩ := h1.2 hok rg hrg
        apply ih
        have hfile : s1.file = s.file := h1.1.1
        have hj := toInt64_range (s.row_group_id_ + 1)
        unfold rowGroupsLeft at h ⊢
        rw [e1, hfile]
        generalize toInt64 (s.row_group_id_ + 1) = j at e2 e3 h hj ⊢
        rw [if_neg (by omega)] at h
        unfold toInt64
        split_ifs <;> omega
      · rfl

theorem skipRowGroups_fuel_enough (s : ParquetExampleReader) (k : Nat) :
    s.skipRowGroups (s.file.row_groups.length + 1 + k)
      = s.skipRowGroups (s.file.row_groups.length + 1) := by
  apply skipRowGroups_fuel
  unfold rowGroupsLeft
  split_ifs <;> omega

theorem andThen_eq_of_ne_undefined {σ α β : Type} (x : OutcomeOn σ α) (errOut : α → β)
    (rest rest1 : α → σ → OutcomeOn σ β)
    (h : ∀ a s, rest a s ≠ .undefined → rest1 a s = rest a s)
    (hx : x.andThen errOut rest ≠ .undefined) :
    x.andThen errOut rest1 = x.andThen errOut rest := by
  cases x with
  | undefined => rfl
  | fatal msg => rfl
  | done st a s =>
    simp only [OutcomeOn.andThen] at hx ⊢
    cases hst : st.ok with
    | true =>
      rw [hst] at hx
      simpa using h a s (by simpa using hx)
    | false => rfl

/-- More fuel changes no outcome of the loop `while (rows_to_read_left > 0)`
but the one that stands for fuel used up: whatever the loop returns with some
fuel it returns with more, overflow or not. -/
theorem GetNextExampleBatch_rows_fuel_mono :
    ∀ (fuel k : Nat) (rows_to_read_left : Int) (eb : ExampleBatch) (s : ParquetExampleReader),
      GetNextExampleBatch.rows fuel rows_to_read_left eb s ≠ .undefined →
      GetNextExampleBatch.rows (fuel + k) rows_to_read_left eb s
        = GetNextExampleBatch.rows fuel rows_to_read_left eb s := by
  intro fuel
  induction fuel with
  | zero =>
    intro k n eb s h
    rw [GetNextExampleBatch.rows] at h
    exact absurd rfl h
  | succ fuel ih =>
    intro k n eb s h
    rw [GetNextExampleBatch.rows] at h
    rw [show fuel + 1 + k = (fuel + k) + 1 by omega, GetNextExampleBatch.rows,
      GetNextExampleBatch.rows]
    by_cases hn : n > 0
    · rw [if_pos hn] at h ⊢
      rw [if_pos hn]
      refine andThen_eq_of_ne_undefined _ _ _ _ ?_ h
      intro a s1
      cases s1.row_group_reader_ with
      | none => intro hne; exact absurd rfl hne
      | some rg =>
        simp only
        intro hne
        refine andThen_eq_of_ne_undefined _ _ _ _ ?_ hne
        intro eb2 s2 hne2
        exact ih k _ eb2 _ hne2
    · rw [if_neg hn, if_neg hn]

/-! ## C21: the `ExampleBatch` invariant -/

theorem GetNextExampleBatch_row_count (t : ParquetType) (i k : Nat) (l : NamedFeatureList)
    (s : ParquetExampleReader) :
    (GetNextExampleBatch.row t i k l s).Sat
      (fun _ l1 s1 => Kept s s1 ∧ l1.feature.length = l.feature.length + 1) := by
  unfold GetNextExampleBatch.row
  have h1 := fillFeature_Kept s t i ⟨none, []⟩
  cases hx : s.fillFeature t i ⟨none, []⟩ with
  | undefined => trivial
  | fatal msg => trivial
  | done st feature s1 =>
    rw [hx] at h1
    exact ⟨h1, by simp⟩

theorem GetNextExampleBatch_row_loop_count (t : ParquetType) (i : Nat) :
    ∀ (xs : List Nat) (l : NamedFeatureList) (s : ParquetExampleReader),
      (forEach (GetNextExampleBatch.row t i) xs l s).Sat (fun st l1 s1 => Kept s s1 ∧
        (st.ok = true → l1.feature.length = l.feature.length + xs.length)) := by
  intro xs
  induction xs with
  | nil => intro l s; exact ⟨Kept_refl s, fun _ => rfl⟩
  | cons x rest ih =>
    intro l s
    rw [forEach]
    refine Sat_andThen _ _ _ _ _ (GetNextExampleBatch_row_count t i x l s) ?_ ?_
    · intro st l1 s1 h1 _
      refine Sat_mono _ _ _ ?_ (ih l1 s1)
      intro st2 l2 s2 h2
      refine ⟨Kept_trans h1.1 h2.1, fun hok => ?_⟩
      rw [h2.2 hok, h1.2, List.length_cons]
      omega
    · intro st l1 s1 h1 hst
      exact ⟨h1.1, fun h => by rw [hst] at h; cases h⟩

theorem GetNextExampleBatch_column_count (rows_in_row_group : Int) (i : Nat)
    (eb : ExampleBatch) (s : ParquetExampleReader) :
    (GetNextExampleBatch.column rows_in_row_group i eb s).Sat (fun st eb1 s1 => Kept s s1
      ∧ eb1.batch_size = eb.batch_size
      ∧ (st.ok = true → ∀ j : Nat, (featureCounts eb1)[j]?
          = ((featureCounts eb)[j]?).map (fun c => c + [i].count j * rows_in_row_group.toNat))) := by
  unfold GetNextExampleBatch.column
  cases s.selected_col_ids_[i]? with
  | none => trivial
  | some col_id =>
    simp only
    cases s.file.physical_type col_id with
    | none => trivial
    | some t =>
      cases hl : eb.named_feature_list[i]? with
      | none => trivial
      | some l =>
        simp only
        have h1 := GetNextExampleBatch_row_loop_count t i
          (List.range rows_in_row_group.toNat) l s
        cases hx : forEach (GetNextExampleBatch.row t i) (List.range rows_in_row_group.toNat)
            l s with
        | undefined => trivial
        | fatal msg => trivial
        | done st l1 s1 =>
          rw [hx] at h1
          refine ⟨h1.1, rfl, fun hok j => ?_⟩
          have hlen := h1.2 hok
          rw [List.length_range] at hlen
          simp only [featureCounts, List.map_set, List.getElem?_set', List.getElem?_map, hlen]
          by_cases hij : i = j
          · subst hij
            simp [hl]
          · have hji : ¬ j = i := fun h => hij h.symm
            simp [hij, hji]
            cases eb.named_feature_list[j]? <;> simp

theorem GetNextExampleBatch_column_loop_count (rows_in_row_group : Int) :
    ∀ (xs : List Nat) (eb : ExampleBatch) (s : ParquetExampleReader),
      (forEach (GetNextExampleBatch.column rows_in_row_group) xs eb s).Sat
        (fun st eb1 s1 => Kept s s1 ∧ eb1.batch_size = eb.batch_size
          ∧ (st.ok = true → ∀ j : Nat, (featureCounts eb1)[j]?
              = ((featureCounts eb)[j]?).map
                  (fun c => c + xs.count j * rows_in_row_group.toNat))) := by
  intro xs
  induction xs with
  | nil =>
    intro eb s
    refine ⟨Kept_refl s, rfl, fun _ j => ?_⟩
    cases (featureCounts eb)[j]? <;> simp
  | cons x rest ih =>
    intro eb s
    rw [forEach]
    refine Sat_andThen _ _ _ _ _ (GetNextExampleBatch_column_count rows_in_row_group x eb s) ?_ ?_
    · intro st eb1 s1 h1 hok1
      refine Sat_mono _ _ _ ?_ (ih eb1 s1)
      intro st2 eb2 s2 h2
      refine ⟨Kept_trans h1.1 h2.1, h2.2.1.trans h1.2.1, fun hok j => ?_⟩
      rw [h2.2.2 hok j, h1.2.2 hok1 j]
      cases (featureCounts eb)[j]? with
      | none => rfl
      | some c =>
        simp only [Option.map_some', List.count_cons, List.count_nil, Option.some.injEq]
        by_cases hxj : x = j
        · simp [hxj]
          ring
        · simp [hxj]
    · intro st eb1 s1 h1 hst
      exact ⟨h1.1, h1.2.1, fun h => by rw [hst] at h; cases h⟩

/-- The rows that one pass of the loop `while (rows_to_read_left > 0)` reads,
when no sum overflows: from a row position `iter` that is not negative and lies
before the end `W` of the row group, with `iter + n` an `int64_t` value, the
pass reads between 1 and `n` rows and the two updates of line 436 and line 495
do not wrap. -/
theorem rows_in_row_group_bounds (iter n W : Int) (hn : 0 < n) (hi : 0 ≤ iter)
    (hsum : iter + n < 2 ^ 63) (hW : iter < W) (hWr : W < 2 ^ 63) (r : Int)
    (hr : (if toInt64 (iter + n) ≥ W then toInt64 (W - iter) else n) = r) :
    0 < r ∧ r ≤ n ∧ toInt64 (iter + r) = iter + r ∧ toInt64 (n - r) = n - r := by
  rw [← hr]
  unfold toInt64
  split_ifs with hc <;> omega

/-- The fuel of the loop `while (rows_to_read_left > 0)` is never used up when
no sum overflows: from a row position that is not negative and with
`iter_ + rows_to_read_left` an `int64_t` value, the loop does the same with
more fuel than one above `rows_to_read_left`. -/
theorem GetNextExampleBatch_rows_fuel :
    ∀ (fuel k : Nat) (rows_to_read_left : Int) (eb : ExampleBatch) (s : ParquetExampleReader),
      rows_to_read_left.toNat + 1 ≤ fuel →
      0 ≤ s.iter_ → s.iter_ + rows_to_read_left < 2 ^ 63 →
      GetNextExampleBatch.rows (fuel + k) rows_to_read_left eb s
        = GetNextExampleBatch.rows fuel rows_to_read_left eb s := by
  intro fuel
  induction fuel with
  | zero => intro k n eb s h; omega
  | succ fuel ih =>
    intro k n eb s h hiter hsum
    rw [show fuel + 1 + k = (fuel + k) + 1 by omega, GetNextExampleBatch.rows,
      GetNextExampleBatch.rows]
    by_cases hn : n > 0
    · rw [if_pos hn, if_pos hn]
      refine andThen_congr_of_Sat _ _ _ _ _ (skipRowGroups_Kept _ s) ?_
      intro st a s1 h1 hok
      obtain ⟨rg, hrg, hlt⟩ := h1.2 hok
      rw [hrg]
      simp only
      have hit1 : s1.iter_ = s.iter_ := h1.1.2.2.1
      have hW := (toInt64_range (s1.row_group_offset_ + rg.num_rows)).2
      generalize hr : (if toInt64 (s1.iter_ + n)
          ≥ toInt64 (s1.row_group_offset_ + rg.num_rows)
        then toInt64 (toInt64 (s1.row_group_offset_ + rg.num_rows) - s1.iter_) else n) = r
      obtain ⟨hr1, hr2, hr3, hr4⟩ := rows_in_row_group_bounds s1.iter_ n _ hn
        (by rw [hit1]; exact hiter) (by rw [hit1]; exact hsum) hlt hW r hr
      refine andThen_congr_of_Sat _ _ _ _ _
        (GetNextExampleBatch_column_loop_count r
          (List.range s1.selected_col_ids_.length) eb s1) ?_
      intro st2 eb2 s2 h2 _
      have hit2 : s2.iter_ = s1.iter_ := h2.1.2.2.1
      rw [hit2, hr3, hr4]
      apply ih
      · omega
      · show 0 ≤ s1.iter_ + r
        omega
      · show s1.iter_ + r + (n - r) < 2 ^ 63
        omega
    · rw [if_neg hn, if_neg hn]

/-- C24: for every `Instance`, all of whose slot ids are ids of Instance's id
space, `InstanceToExample` returns OK, `ExampleToInstance` on the `Example` it
made returns OK, and the `Instance` made has the label, the line-id fields and
the (feature id, value list) pairs of the original, in order; the names in
between are empty, so no name comes back.  The two functions are modelled from
the specification. -/
theorem InstanceToExample_ExampleToInstance_identity (representable : Int → Bool)
    (ins ins0 : Instance) (exa0 : Example)
    (hids : ∀ slot ∈ ins.feature, representable slot.id = true) :
    ∃ (exa : Example) (ins1 : Instance),
      InstanceToExample ins exa0 = (Status.OK, ins, exa)
      ∧ ExampleToInstance representable exa ins0 = (Status.OK, exa, ins1)
      ∧ ins1.label = ins.label ∧ ins1.line_id = ins.line_id
      ∧ ins1.feature.map (fun slot => (slot.id, slot.feature))
          = ins.feature.map (fun slot => (slot.id, slot.feature))
      ∧ ∀ named_feature ∈ exa.named_feature, named_feature.name = "" := by
  have hall : ((ins.feature.map (fun (slot : InstanceFeature) => (⟨slot.id, "", slot.feature⟩ : NamedFeature))).all
      (fun named_feature => representable named_feature.id)) = true := by
    rw [List.all_eq_true]
    intro x hx
    obtain ⟨slot, hslot, rfl⟩ := List.mem_map.1 hx
    exact hids slot hslot
  refine ⟨⟨ins.label, ins.line_id,
      ins.feature.map (fun (slot : InstanceFeature) => (⟨slot.id, "", slot.feature⟩ : NamedFeature))⟩,
    ⟨ins.label, ins.line_id,
      (ins.feature.map (fun (slot : InstanceFeature) => (⟨slot.id, "", slot.feature⟩ : NamedFeature))).map
        (fun (named_feature : NamedFeature) => ⟨named_feature.id, named_feature.feature⟩)⟩,
    rfl, ?_, rfl, rfl, ?_, ?_⟩
  · unfold ExampleToInstance
    rw [if_pos hall]
  · simp only [List.map_map]
    rfl
  · intro nf hnf
    obtain ⟨slot, _, rfl⟩ := List.mem_map.1 hnf
    rfl

theorem InstanceToExample_ExampleToInstance_identity_witness :
    (∀ slot ∈ sampleInstance.feature, uint64Id slot.id = true)
    ∧ ∃ (exa : Example) (ins1 : Instance),
      InstanceToExample sampleInstance ⟨[], none, []⟩ = (Status.OK, sampleInstance, exa)
      ∧ ExampleToInstance uint64Id exa ⟨[], none, []⟩ = (Status.OK, exa, ins1)
      ∧ ins1.label = sampleInstance.label ∧ ins1.line_id = sampleInstance.line_id
      ∧ ins1.feature.map (fun slot => (slot.id, slot.feature))
          = sampleInstance.feature.map (fun slot => (slot.id, slot.feature))
      ∧ ∀ named_feature ∈ exa.named_feature, named_feature.name = "" :=
  ⟨by decide,
    InstanceToExample_ExampleToInstance_identity uint64Id sampleInstance ⟨[], none, []⟩
      ⟨[], none, []⟩ (by decide)⟩

end monolith_tf
